import Mathlib

/-!
# The file layer of `mono/metadata/w32file-unix.c`

A shallow embedding of

* the share table (`file_share_get`, `file_share_release`) and the share checks built
  on it (`share_allows_open`, `share_allows_delete`, and their callers);
* the time codec (`time_t_to_filetime`, `mono_w32file_filetime_to_systemtime`);
* the dispatch table `io_ops` with its public dispatchers, the read and write
  functions of files, consoles and pipes, and the region locks;
* the path wrappers `_wapi_open` to `_wapi_chdir` with the calls they make of the
  resolver, `file_seek`, `file_setfiletime`, the three close functions,
  `mono_w32file_create`, `mono_w32file_get_attributes`, and the enumeration of
  `_wapi_io_scandir` and `mono_w32file_find_next`.

The `GHashTable` is an association list of `FileShare` records, compared with
`file_share_equal`.  A `FileShare *` handed out by the table is represented by
the identity `(device, inode)` of the record it points to: the table owns its
records and holds at most one per identity.  A failed `g_assert`, or the use of
a pointer whose record is no longer in the table, is the result `none`.

Machine integers are `Nat` or `Int` with the wrap-around written out where the
source can reach it: `handle_refs` is counted modulo 2^32, the tick count modulo 2^64.

System calls are answered from a list of pending answers carried by `World`, which
also records the calls made; a loop that retries a call uses one answer per round and
gives `none` when the answers run out.  The trace of calls also records the calls of
`mono_portability_find_file` and of `file_share_release` made by the close functions,
so that their place among the system calls can be stated.
-/

namespace W32File

/-- Modelled from the spec: the share-mode and access-right bit `FILE_SHARE_READ`
of `w32file.h`, a header that is not among the sources. -/
def FILE_SHARE_READ : Nat := 0x00000001

/-- Modelled from the spec: the share-mode bit `FILE_SHARE_WRITE` of `w32file.h`. -/
def FILE_SHARE_WRITE : Nat := 0x00000002

/-- Modelled from the spec: the share-mode bit `FILE_SHARE_DELETE` of `w32file.h`. -/
def FILE_SHARE_DELETE : Nat := 0x00000004

/-- Modelled from the spec: the access right `GENERIC_READ` of `w32file.h`. -/
def GENERIC_READ : Nat := 0x80000000

/-- Modelled from the spec: the access right `GENERIC_WRITE` of `w32file.h`. -/
def GENERIC_WRITE : Nat := 0x40000000

/-- Modelled from the spec: the access right `GENERIC_ALL` of `w32file.h`. -/
def GENERIC_ALL : Nat := 0x10000000

/-- Modelled from the spec: the error code `ERROR_SHARING_VIOLATION` of `w32error.h`. -/
def ERROR_SHARING_VIOLATION : Nat := 32

/-- The number of values of a `guint32`. -/
def UINT32_MOD : Nat := 4294967296

/-- The struct `FileShare`. -/
structure FileShare where
  device : Nat
  inode : Nat
  sharemode : Nat
  access : Nat
  handle_refs : Nat
  timestamp : Nat
deriving DecidableEq, Repr

/-- The identity of a record, which also stands for a pointer to it. -/
def FileShare.key (s : FileShare) : Nat × Nat := (s.device, s.inode)

/-- The comparison `file_share_equal`: 1 when device and inode agree, else 0. -/
def file_share_equal (s1 s2 : FileShare) : Nat :=
  if s1.device = s2.device ∧ s1.inode = s2.inode then 1 else 0

/-- The hash `file_share_hash`: the inode, cut to a `guint`. -/
def file_share_hash (s : FileShare) : Nat := s.inode % UINT32_MOD

/-- The table `file_share_table`; the empty list is also the table not yet created. -/
abbrev GHashTable := List FileShare

/-- A record of which only device and inode are set, as the `tmp` of `file_share_get`. -/
def keyRecord (k : Nat × Nat) : FileShare :=
  { device := k.1, inode := k.2, sharemode := 0, access := 0, handle_refs := 0, timestamp := 0 }

/-- GLib `g_hash_table_lookup`: the record whose key equals the one asked for. -/
def g_hash_table_lookup (t : GHashTable) (key : FileShare) : Option FileShare :=
  t.find? (fun e => decide (file_share_equal e key ≠ 0))

/-- GLib `g_hash_table_insert`: replace the record of that key, or add a new one. -/
def g_hash_table_insert (t : GHashTable) (key value : FileShare) : GHashTable :=
  if (g_hash_table_lookup t key).isSome then
    t.map (fun e => if file_share_equal e key ≠ 0 then value else e)
  else value :: t

/-- GLib `g_hash_table_remove`: drop the record whose key equals the one given. -/
def g_hash_table_remove (t : GHashTable) (key : FileShare) : GHashTable :=
  t.filter (fun e => decide (file_share_equal e key = 0))

/-- Read through a `FileShare *`. -/
def deref (t : GHashTable) (p : Nat × Nat) : Option FileShare :=
  g_hash_table_lookup t (keyRecord p)

/-- Write the field `handle_refs` through a `FileShare *`. -/
def store_handle_refs (t : GHashTable) (p : Nat × Nat) (n : Nat) : GHashTable :=
  t.map (fun e => if file_share_equal e (keyRecord p) ≠ 0 then { e with handle_refs := n } else e)

/-- What `file_share_get` hands back: its return value, the out-parameters
(`none` while not written) and the table afterwards. -/
structure ShareGet where
  exists_ : Bool
  old_sharemode : Option Nat
  old_access : Option Nat
  share_info : Nat × Nat
  table : GHashTable
deriving DecidableEq, Repr

/-- The record that `file_share_get` allocates with `g_new0` and fills in. -/
def newFileShare (device inode new_sharemode new_access : Nat) : FileShare :=
  { device := device, inode := inode, sharemode := new_sharemode, access := new_access,
    handle_refs := 1, timestamp := 0 }

/-- The function `file_share_get`. -/
def file_share_get (t : GHashTable) (device inode new_sharemode new_access : Nat) :
    Option ShareGet :=
  let tmp := keyRecord (device, inode)
  match g_hash_table_lookup t tmp with
  | some file_share =>
    if 0 < file_share.handle_refs then
      some { exists_ := true
             old_sharemode := some file_share.sharemode
             old_access := some file_share.access
             share_info := file_share.key
             table := store_handle_refs t file_share.key
                        ((file_share.handle_refs + 1) % UINT32_MOD) }
    else none
  | none =>
    let file_share := newFileShare device inode new_sharemode new_access
    some { exists_ := false
           old_sharemode := none
           old_access := none
           share_info := file_share.key
           table := g_hash_table_insert t file_share file_share }

/-- The function `file_share_release`. -/
def file_share_release (t : GHashTable) (share_info : Nat × Nat) : Option GHashTable :=
  match deref t share_info with
  | none => none
  | some e =>
    if 0 < e.handle_refs then
      let refs := e.handle_refs - 1
      let t1 := store_handle_refs t share_info refs
      if refs = 0 then some (g_hash_table_remove t1 (keyRecord share_info)) else some t1
    else none

/-- What a share check hands back: its return value, `*share_info` and the table. -/
structure ShareCheck where
  ret : Bool
  share_info : Nat × Nat
  table : GHashTable
deriving DecidableEq, Repr

/-- The step "release the reference and return FALSE" of the share checks. -/
def releaseAndRefuse (r : ShareGet) : Option ShareCheck :=
  match file_share_release r.table r.share_info with
  | none => none
  | some t => some { ret := false, share_info := r.share_info, table := t }

/-- The function `share_allows_open`. -/
def share_allows_open (t : GHashTable) (st_dev st_ino sharemode fileaccess : Nat) :
    Option ShareCheck :=
  match file_share_get t st_dev st_ino sharemode fileaccess with
  | none => none
  | some r =>
    if r.exists_ then
      match r.old_sharemode, r.old_access with
      | some file_existing_share, some file_existing_access =>
        if file_existing_share = 0 then releaseAndRefuse r
        else if (file_existing_share = FILE_SHARE_READ ∧ fileaccess ≠ GENERIC_READ) ∨
            (file_existing_share = FILE_SHARE_WRITE ∧ fileaccess ≠ GENERIC_WRITE) then
          releaseAndRefuse r
        else if (file_existing_access &&& GENERIC_READ ≠ 0 ∧ sharemode &&& FILE_SHARE_READ = 0) ∨
            (file_existing_access &&& GENERIC_WRITE ≠ 0 ∧ sharemode &&& FILE_SHARE_WRITE = 0) then
          releaseAndRefuse r
        else some { ret := true, share_info := r.share_info, table := r.table }
      | _, _ => none
    else some { ret := true, share_info := r.share_info, table := r.table }

/-- The function `share_allows_delete`. -/
def share_allows_delete (t : GHashTable) (st_dev st_ino : Nat) : Option ShareCheck :=
  match file_share_get t st_dev st_ino FILE_SHARE_DELETE GENERIC_READ with
  | none => none
  | some r =>
    if r.exists_ then
      match r.old_sharemode with
      | some file_existing_share =>
        if file_existing_share = 0 then releaseAndRefuse r
        else if file_existing_share &&& FILE_SHARE_DELETE = 0 then releaseAndRefuse r
        else some { ret := true, share_info := r.share_info, table := r.table }
      | none => none
    else some { ret := true, share_info := r.share_info, table := r.table }

/-- Where `mono_w32file_create` stands after its share check: whether it returned
`INVALID_HANDLE_VALUE` there, the last error it set, and the table. -/
structure CreateCheck where
  invalid_handle : Bool
  last_error : Option Nat
  share_info : Nat × Nat
  table : GHashTable
deriving DecidableEq, Repr

/-- The share check of `mono_w32file_create`, on the `statbuf` of the opened file. -/
def mono_w32file_create_share (t : GHashTable) (st_dev st_ino sharemode fileaccess : Nat) :
    Option CreateCheck :=
  match share_allows_open t st_dev st_ino sharemode fileaccess with
  | none => none
  | some c =>
    if c.ret = false then
      some { invalid_handle := true, last_error := some ERROR_SHARING_VIOLATION,
             share_info := c.share_info, table := c.table }
    else
      some { invalid_handle := false, last_error := none,
             share_info := c.share_info, table := c.table }

/-- Where `MoveFile` stands when its share check is over: the value it returned
there if it did, the last error it set, whether it goes on to `_wapi_rename`, and
the table. -/
structure MoveCheck where
  returned : Option Bool
  last_error : Option Nat
  rename_called : Bool
  table : GHashTable
deriving DecidableEq, Repr

/-- The share check of `MoveFile`, on the `stat_src` of the source file. -/
def MoveFile_share (t : GHashTable) (st_dev st_ino : Nat) : Option MoveCheck :=
  match share_allows_delete t st_dev st_ino with
  | none => none
  | some c =>
    if c.ret = false then
      some { returned := some false, last_error := some ERROR_SHARING_VIOLATION,
             rename_called := false, table := c.table }
    else
      match file_share_release c.table c.share_info with
      | none => none
      | some t1 => some { returned := none, last_error := none, rename_called := true, table := t1 }

/-- A share-table state: one record per identity, each counting at least one reference. -/
def TableOk (t : GHashTable) : Prop :=
  (t.map FileShare.key).Nodup ∧ ∀ e ∈ t, 0 < e.handle_refs

/-- The number of references the table counts for an identity, 0 without a record. -/
def refsOf (t : GHashTable) (k : Nat × Nat) : Nat :=
  match deref t k with
  | some e => e.handle_refs
  | none => 0

/-- The tables reached from the empty one by calls of `file_share_get` and by calls
of `file_share_release` on references that are held, each with the number of
references outstanding for every identity. -/
inductive Reachable : GHashTable → (Nat × Nat → Nat) → Prop
  | empty : Reachable [] (fun _ => 0)
  | get {t : GHashTable} {c : Nat × Nat → Nat} (d i s a : Nat) {r : ShareGet} :
      Reachable t c → file_share_get t d i s a = some r →
      Reachable r.table (Function.update c (d, i) (c (d, i) + 1))
  | release {t : GHashTable} {c : Nat × Nat → Nat} (p : Nat × Nat) {t1 : GHashTable} :
      Reachable t c → 0 < c p → file_share_release t p = some t1 →
      Reachable t1 (Function.update c p (c p - 1))

/-- As `Reachable`, where `file_share_get` is called only on an identity with fewer
than 2^32 - 1 references outstanding. -/
inductive ReachableBelow : GHashTable → (Nat × Nat → Nat) → Prop
  | empty : ReachableBelow [] (fun _ => 0)
  | get {t : GHashTable} {c : Nat × Nat → Nat} (d i s a : Nat) {r : ShareGet} :
      ReachableBelow t c → c (d, i) < 4294967295 → file_share_get t d i s a = some r →
      ReachableBelow r.table (Function.update c (d, i) (c (d, i) + 1))
  | release {t : GHashTable} {c : Nat × Nat → Nat} (p : Nat × Nat) {t1 : GHashTable} :
      ReachableBelow t c → 0 < c p → file_share_release t p = some t1 →
      ReachableBelow t1 (Function.update c p (c p - 1))

/-- The table after `n` calls of `file_share_get` for one identity. -/
def getN (d i s a : Nat) : Nat → GHashTable → Option GHashTable
  | 0, t => some t
  | n + 1, t => (file_share_get t d i s a).bind (fun r => getN d i s a n r.table)

/-- The table after `n` calls of `file_share_release` on one reference. -/
def releaseN (p : Nat × Nat) : Nat → GHashTable → Option GHashTable
  | 0, t => some t
  | n + 1, t => (file_share_release t p).bind (fun t1 => releaseN p n t1)

/-! ## The time codec -/

/-- Modelled from the spec: the error code `ERROR_INVALID_PARAMETER` of `w32error.h`. -/
def ERROR_INVALID_PARAMETER : Nat := 87

/-- The struct `FILETIME` of `w32file.h`: two `guint32` words. -/
structure FILETIME where
  dwLowDateTime : Nat
  dwHighDateTime : Nat
deriving DecidableEq, Repr

/-- The struct `SYSTEMTIME` of `w32file.h`: eight `guint16` fields. -/
structure SYSTEMTIME where
  wYear : Nat
  wMonth : Nat
  wDayOfWeek : Nat
  wDay : Nat
  wHour : Nat
  wMinute : Nat
  wSecond : Nat
  wMilliseconds : Nat
deriving DecidableEq, Repr

/-- The number of values of a `guint64`. -/
def UINT64_MOD : Nat := 18446744073709551616

/-- The function `time_t_to_filetime`; `timeval` is cast to `guint64` and the
arithmetic is that of `guint64`. -/
def time_t_to_filetime (timeval : Int) : FILETIME :=
  let ticks : Nat :=
    ((timeval % (UINT64_MOD : Int)).toNat * 10000000 + 116444736000000000) % UINT64_MOD
  { dwLowDateTime := ticks &&& 0xFFFFFFFF, dwHighDateTime := ticks >>> 32 }

def TICKS_PER_MILLISECOND : Int := 10000
def TICKS_PER_SECOND : Int := 10000000
def TICKS_PER_MINUTE : Int := 600000000
def TICKS_PER_HOUR : Int := 36000000000
def TICKS_PER_DAY : Int := 864000000000

/-- The macro `isleap`, with the remainder of C. -/
def isleap (y : Int) : Bool :=
  y.tmod 4 == 0 && (y.tmod 100 != 0 || y.tmod 400 == 0)

/-- The table `mon_yday`. -/
def mon_yday (leap : Bool) : List Int :=
  if leap then [0, 31, 60, 91, 121, 152, 182, 213, 244, 274, 305, 335, 366]
  else [0, 31, 59, 90, 120, 151, 181, 212, 243, 273, 304, 334, 365]

/-- The macro `DIV`, with the quotient and remainder of C. -/
def DIV (a b : Int) : Int := a.tdiv b - (if a.tmod b < 0 then 1 else 0)

/-- The macro `LEAPS_THRU_END_OF`. -/
def LEAPS_THRU_END_OF (y : Int) : Int := DIV y 4 - DIV y 100 + DIV y 400

/-- A value of 64 bits read as a `gint64`. -/
def toInt64 (u : Nat) : Int :=
  if u % UINT64_MOD < 9223372036854775808 then (u % UINT64_MOD : Nat)
  else (u % UINT64_MOD : Nat) - (UINT64_MOD : Int)

/-- A `gint64` stored in a `guint16` field. -/
def toWord (x : Int) : Nat := (x % 65536).toNat

/-- The `while` loop of `mono_w32file_filetime_to_systemtime` that finds the year:
the pair `(totaldays, y)` on leaving the loop, or `none` when `fuel` rounds do not
reach the exit. -/
def yearLoop : Nat → Int → Int → Option (Int × Int)
  | 0, _, _ => none
  | fuel + 1, totaldays, y =>
    if totaldays < 0 ∨ totaldays ≥ (if isleap y then 366 else 365) then
      let yg := y + totaldays.tdiv 365 - (if totaldays.tmod 365 < 0 then 1 else 0)
      yearLoop fuel
        (totaldays - ((yg - y) * 365 + LEAPS_THRU_END_OF (yg - 1) - LEAPS_THRU_END_OF (y - 1)))
        yg
    else some (totaldays, y)

/-- The `for` loop of `mono_w32file_filetime_to_systemtime` that finds the month,
started at index `y`: the index on leaving, or `none` when it runs below index 0. -/
def monthLoop (ip : List Int) (totaldays : Int) : Nat → Option Nat
  | 0 => if totaldays < ip.getD 0 0 then none else some 0
  | y + 1 => if totaldays < ip.getD (y + 1) 0 then monthLoop ip totaldays y else some (y + 1)

/-- What `mono_w32file_filetime_to_systemtime` hands back: its return value, the
last error it set, and `*system_time` (`none` for a NULL pointer). -/
structure TimeResult where
  ret : Bool
  last_error : Option Nat
  system_time : Option SYSTEMTIME
deriving DecidableEq, Repr

/-- The function `mono_w32file_filetime_to_systemtime`; `system_time` is `none` for
a NULL pointer, and the result is `none` when a loop does not end within `fuel`
rounds. -/
def mono_w32file_filetime_to_systemtime (fuel : Nat) (file_time : FILETIME)
    (system_time : Option SYSTEMTIME) : Option TimeResult :=
  match system_time with
  | none => some { ret := false, last_error := some ERROR_INVALID_PARAMETER, system_time := none }
  | some st =>
    let file_ticks : Int :=
      toInt64 (file_time.dwHighDateTime * 4294967296 + file_time.dwLowDateTime)
    if file_ticks < 0 then
      some { ret := false, last_error := some ERROR_INVALID_PARAMETER, system_time := some st }
    else
      let totaldays := file_ticks.tdiv TICKS_PER_DAY
      let rem := file_ticks.tmod TICKS_PER_DAY
      let wHour := toWord (rem.tdiv TICKS_PER_HOUR)
      let rem := rem.tmod TICKS_PER_HOUR
      let wMinute := toWord (rem.tdiv TICKS_PER_MINUTE)
      let rem := rem.tmod TICKS_PER_MINUTE
      let wSecond := toWord (rem.tdiv TICKS_PER_SECOND)
      let rem := rem.tmod TICKS_PER_SECOND
      let wMilliseconds := toWord (rem.tdiv TICKS_PER_MILLISECOND)
      let wDayOfWeek := toWord ((1 + totaldays).tmod 7 + 1)
      match yearLoop fuel totaldays 1601 with
      | none => none
      | some (totaldays, y) =>
        let wYear := toWord y
        let ip := mon_yday (isleap y)
        match monthLoop ip totaldays 11 with
        | none => none
        | some m =>
          let totaldays := totaldays - ip.getD m 0
          some { ret := true, last_error := none,
                 system_time := some
                   { wYear := wYear, wMonth := toWord ((m : Int) + 1), wDayOfWeek := wDayOfWeek,
                     wDay := toWord (totaldays + 1), wHour := wHour, wMinute := wMinute,
                     wSecond := wSecond, wMilliseconds := wMilliseconds } }

/-! ## System calls, handles and the dispatch table -/

/-- Modelled from the spec: the error code `ERROR_ACCESS_DENIED` of `w32error.h`. -/
def ERROR_ACCESS_DENIED : Nat := 5

/-- Modelled from the spec: the error code `ERROR_INVALID_HANDLE` of `w32error.h`. -/
def ERROR_INVALID_HANDLE : Nat := 6

/-- Modelled from the spec: the error code `ERROR_LOCK_VIOLATION` of `w32error.h`. -/
def ERROR_LOCK_VIOLATION : Nat := 33

/-- Modelled from the spec: the error code `ERROR_INVALID_NAME` of `w32error.h`. -/
def ERROR_INVALID_NAME : Nat := 123

/-- The `errno` value `EINTR` of the platform, here that of Linux. -/
def EINTR : Nat := 4

/-- The `errno` value `ENOLCK` of the platform, here that of Linux. -/
def ENOLCK : Nat := 37

/-- The `errno` value `EOPNOTSUPP` of the platform, here that of Linux. -/
def EOPNOTSUPP : Nat := 95

/-- The `errno` value `ENOTSUP` of the platform, here that of Linux. -/
def ENOTSUP : Nat := 95

/-- The lock type `F_WRLCK` of the platform, here that of Linux. -/
def F_WRLCK : Nat := 1

/-- The lock type `F_UNLCK` of the platform, here that of Linux. -/
def F_UNLCK : Nat := 2

/-- The origin `SEEK_SET` of the platform. -/
def SEEK_SET : Nat := 0

/-- The origin `SEEK_CUR` of the platform. -/
def SEEK_CUR : Nat := 1

/-- A call that the file layer makes and the trace records, with the arguments that
matter here: the system calls, with `unlink_NULL` for `unlink` on a NULL pointer, and
the calls of `mono_portability_find_file` and of `file_share_release`, whose place
among the system calls some properties speak of. -/
inductive Syscall
  | read (fd : Int) (numbytes : Nat)
  | write (fd : Int) (numbytes : Nat)
  | lseek (fd : Int) (offset : Int) (whence : Nat)
  | fcntl_setlk (fd : Int) (l_type : Nat) (l_whence : Nat) (l_start : Int) (l_len : Int)
  | unlink (path : String)
  | unlink_NULL
  | open_ (pathname : String) (flags : Nat) (mode : Nat)
  | access (pathname : String) (mode : Nat)
  | chmod (pathname : String) (mode : Nat)
  | utime (filename : String) (actime : Int) (modtime : Int)
  | rename (oldpath : String) (newpath : String)
  | stat (path : String)
  | lstat (path : String)
  | mkdir (pathname : String) (mode : Nat)
  | rmdir (pathname : String)
  | chdir (path : String)
  | fstat (fd : Int)
  | close (fd : Int)
  | posix_fadvise (fd : Int) (advice : Nat)
  | mono_portability_find_file (pathname : String) (last_exists : Bool)
  | file_share_release (share_info : Nat × Nat)
deriving DecidableEq, Repr

/-- What the system answers to one call: the value returned, the `errno` it leaves
when that value is -1, and what `mono_thread_info_is_interrupt_state` says right
after the call. -/
structure SysReturn where
  ret : Int
  err : Nat
  interrupt_state : Bool
deriving DecidableEq, Repr

/-- The surroundings of the file layer: the answers the system will give to the next
calls, the calls made so far, `errno`, and the last-error slot of the thread. -/
structure World where
  pending : List SysReturn
  calls : List Syscall
  errno : Nat
  last_error : Nat
deriving DecidableEq, Repr

/-- The loops `do { ret = call; } while (ret == -1 && errno == EINTR)`, which for
`read` and `write` also stop once an interrupt is requested: the value returned by
the last call, the answers left, the calls made and `errno`; `none` when the answers
run out before the loop ends. -/
def retryLoop (c : Syscall) (stop_on_interrupt : Bool) :
    List SysReturn → List Syscall → Nat → Option (Int × List SysReturn × List Syscall × Nat)
  | [], _, _ => none
  | r :: rest, calls, errno =>
    let errno1 := if r.ret = -1 then r.err else errno
    if r.ret = -1 ∧ errno1 = EINTR ∧ ¬ (stop_on_interrupt = true ∧ r.interrupt_state = true) then
      retryLoop c stop_on_interrupt rest (calls ++ [c]) errno1
    else some (r.ret, rest, calls ++ [c], errno1)

/-- A retried system call in a `World`. -/
def retry (c : Syscall) (stop_on_interrupt : Bool) (w : World) : Option (Int × World) :=
  match retryLoop c stop_on_interrupt w.pending w.calls w.errno with
  | none => none
  | some (ret, pending, calls, errno) =>
    some (ret, { w with pending := pending, calls := calls, errno := errno })

/-- One system call in a `World`. -/
def syscall (c : Syscall) (w : World) : Option (Int × World) :=
  match w.pending with
  | [] => none
  | r :: rest =>
    some (r.ret, { w with pending := rest, calls := w.calls ++ [c],
                          errno := if r.ret = -1 then r.err else w.errno })

/-- The function `_wapi_set_last_error_from_errno`; `unix_to_win32` is
`mono_w32error_unix_to_win32`, which is not among the sources. -/
def _wapi_set_last_error_from_errno (unix_to_win32 : Nat → Nat) (w : World) : World :=
  { w with last_error := unix_to_win32 w.errno }

/-- The function `_wapi_lock_file_region`, with `off_t` of 64 bits. -/
def _wapi_lock_file_region (fd offset length : Int) (w : World) : Option (Bool × World) :=
  if offset < 0 ∨ length < 0 then
    some (false, { w with last_error := ERROR_INVALID_PARAMETER })
  else
    match retry (Syscall.fcntl_setlk fd F_WRLCK SEEK_SET offset length) false w with
    | none => none
    | some (ret, w1) =>
      if ret = -1 then
        if w1.errno = ENOLCK ∨ w1.errno = EOPNOTSUPP ∨ w1.errno = ENOTSUP then some (true, w1)
        else some (false, { w1 with last_error := ERROR_LOCK_VIOLATION })
      else some (true, w1)

/-- The function `_wapi_unlock_file_region`, with `off_t` of 64 bits. -/
def _wapi_unlock_file_region (fd offset length : Int) (w : World) : Option (Bool × World) :=
  match retry (Syscall.fcntl_setlk fd F_UNLCK SEEK_SET offset length) false w with
  | none => none
  | some (ret, w1) =>
    if ret = -1 then
      if w1.errno = ENOLCK ∨ w1.errno = EOPNOTSUPP ∨ w1.errno = ENOTSUP then some (true, w1)
      else some (false, { w1 with last_error := ERROR_LOCK_VIOLATION })
    else some (true, w1)

/-- The struct `MonoW32HandleFile`. -/
structure MonoW32HandleFile where
  filename : Option String
  share_info : Option (Nat × Nat)
  fd : Int
  security_attributes : Nat
  fileaccess : Nat
  sharemode : Nat
  attrs : Nat
deriving DecidableEq, Repr

/-- What a read or a write hands back: its return value, the cell `*bytesread` or
`*byteswritten` (`none` for a NULL pointer) and the surroundings. -/
structure IoResult where
  ret : Bool
  count : Option Nat
  world : World
deriving DecidableEq, Repr

/-- A `gint` stored in a `guint32` cell. -/
def toUInt32 (x : Int) : Nat := (x % 4294967296).toNat

/-- The function `file_read`; `file_handle` is `none` when `mono_w32handle_lookup`
fails. -/
def file_read (unix_to_win32 : Nat → Nat) (file_handle : Option MonoW32HandleFile)
    (numbytes : Nat) (bytesread : Option Nat) (w : World) : Option IoResult :=
  match file_handle with
  | none => some { ret := false, count := bytesread,
                   world := { w with last_error := ERROR_INVALID_HANDLE } }
  | some h =>
    let bytesread := bytesread.map (fun _ => 0)
    if h.fileaccess &&& GENERIC_READ = 0 ∧ h.fileaccess &&& GENERIC_ALL = 0 then
      some { ret := false, count := bytesread,
             world := { w with last_error := ERROR_ACCESS_DENIED } }
    else
      match retry (Syscall.read h.fd numbytes) true w with
      | none => none
      | some (ret, w1) =>
        if ret = -1 then
          some { ret := false, count := bytesread,
                 world := { w1 with last_error := unix_to_win32 w1.errno } }
        else some { ret := true, count := bytesread.map (fun _ => toUInt32 ret), world := w1 }

/-- The part of `file_write` from the write loop on; `current_pos` is read only
under `lock_while_writing`. -/
def file_write_tail (unix_to_win32 : Nat → Nat) (lock_while_writing : Bool) (fd : Int)
    (numbytes : Nat) (byteswritten : Option Nat) (current_pos : Int) (w : World) :
    Option IoResult :=
  match retry (Syscall.write fd numbytes) true w with
  | none => none
  | some (ret, w1) =>
    let unlocked : Option World :=
      if lock_while_writing then
        match _wapi_unlock_file_region fd current_pos numbytes w1 with
        | none => none
        | some (_, w2) => some w2
      else some w1
    match unlocked with
    | none => none
    | some w2 =>
      if ret = -1 then
        if w2.errno = EINTR then
          some { ret := true, count := byteswritten.map (fun _ => toUInt32 0), world := w2 }
        else
          some { ret := false, count := byteswritten,
                 world := _wapi_set_last_error_from_errno unix_to_win32 w2 }
      else some { ret := true, count := byteswritten.map (fun _ => toUInt32 ret), world := w2 }

/-- The function `file_write`; `lock_while_writing` is the flag of that name, and
`file_handle` is `none` when `mono_w32handle_lookup` fails. -/
def file_write (unix_to_win32 : Nat → Nat) (lock_while_writing : Bool)
    (file_handle : Option MonoW32HandleFile) (numbytes : Nat) (byteswritten : Option Nat)
    (w : World) : Option IoResult :=
  match file_handle with
  | none => some { ret := false, count := byteswritten,
                   world := { w with last_error := ERROR_INVALID_HANDLE } }
  | some h =>
    let byteswritten := byteswritten.map (fun _ => 0)
    if h.fileaccess &&& GENERIC_WRITE = 0 ∧ h.fileaccess &&& GENERIC_ALL = 0 then
      some { ret := false, count := byteswritten,
             world := { w with last_error := ERROR_ACCESS_DENIED } }
    else if lock_while_writing then
      match syscall (Syscall.lseek h.fd 0 SEEK_CUR) w with
      | none => none
      | some (current_pos, w1) =>
        if current_pos = -1 then
          some { ret := false, count := byteswritten,
                 world := _wapi_set_last_error_from_errno unix_to_win32 w1 }
        else
          match _wapi_lock_file_region h.fd current_pos numbytes w1 with
          | none => none
          | some (ok, w2) =>
            if ok = false then some { ret := false, count := byteswritten, world := w2 }
            else file_write_tail unix_to_win32 true h.fd numbytes byteswritten current_pos w2
    else file_write_tail unix_to_win32 false h.fd numbytes byteswritten 0 w

/-- The function `console_read`. -/
def console_read (unix_to_win32 : Nat → Nat) (console_handle : Option MonoW32HandleFile)
    (numbytes : Nat) (bytesread : Option Nat) (w : World) : Option IoResult :=
  match console_handle with
  | none => some { ret := false, count := bytesread,
                   world := { w with last_error := ERROR_INVALID_HANDLE } }
  | some h =>
    let bytesread := bytesread.map (fun _ => 0)
    if h.fileaccess &&& GENERIC_READ = 0 ∧ h.fileaccess &&& GENERIC_ALL = 0 then
      some { ret := false, count := bytesread,
             world := { w with last_error := ERROR_ACCESS_DENIED } }
    else
      match retry (Syscall.read h.fd numbytes) true w with
      | none => none
      | some (ret, w1) =>
        if ret = -1 then
          some { ret := false, count := bytesread,
                 world := _wapi_set_last_error_from_errno unix_to_win32 w1 }
        else some { ret := true, count := bytesread.map (fun _ => toUInt32 ret), world := w1 }

/-- The function `console_write`. -/
def console_write (unix_to_win32 : Nat → Nat) (console_handle : Option MonoW32HandleFile)
    (numbytes : Nat) (byteswritten : Option Nat) (w : World) : Option IoResult :=
  match console_handle with
  | none => some { ret := false, count := byteswritten,
                   world := { w with last_error := ERROR_INVALID_HANDLE } }
  | some h =>
    let byteswritten := byteswritten.map (fun _ => 0)
    if h.fileaccess &&& GENERIC_WRITE = 0 ∧ h.fileaccess &&& GENERIC_ALL = 0 then
      some { ret := false, count := byteswritten,
             world := { w with last_error := ERROR_ACCESS_DENIED } }
    else
      match retry (Syscall.write h.fd numbytes) true w with
      | none => none
      | some (ret, w1) =>
        if ret = -1 then
          if w1.errno = EINTR then
            some { ret := true, count := byteswritten.map (fun _ => toUInt32 0), world := w1 }
          else
            some { ret := false, count := byteswritten,
                   world := _wapi_set_last_error_from_errno unix_to_win32 w1 }
        else some { ret := true, count := byteswritten.map (fun _ => toUInt32 ret), world := w1 }

/-- The function `pipe_read`. -/
def pipe_read (unix_to_win32 : Nat → Nat) (pipe_handle : Option MonoW32HandleFile)
    (numbytes : Nat) (bytesread : Option Nat) (w : World) : Option IoResult :=
  match pipe_handle with
  | none => some { ret := false, count := bytesread,
                   world := { w with last_error := ERROR_INVALID_HANDLE } }
  | some h =>
    let bytesread := bytesread.map (fun _ => 0)
    if h.fileaccess &&& GENERIC_READ = 0 ∧ h.fileaccess &&& GENERIC_ALL = 0 then
      some { ret := false, count := bytesread,
             world := { w with last_error := ERROR_ACCESS_DENIED } }
    else
      match retry (Syscall.read h.fd numbytes) true w with
      | none => none
      | some (ret, w1) =>
        if ret = -1 then
          if w1.errno = EINTR then
            some { ret := true, count := bytesread.map (fun _ => toUInt32 0), world := w1 }
          else
            some { ret := false, count := bytesread,
                   world := _wapi_set_last_error_from_errno unix_to_win32 w1 }
        else some { ret := true, count := bytesread.map (fun _ => toUInt32 ret), world := w1 }

/-- The function `pipe_write`. -/
def pipe_write (unix_to_win32 : Nat → Nat) (pipe_handle : Option MonoW32HandleFile)
    (numbytes : Nat) (byteswritten : Option Nat) (w : World) : Option IoResult :=
  match pipe_handle with
  | none => some { ret := false, count := byteswritten,
                   world := { w with last_error := ERROR_INVALID_HANDLE } }
  | some h =>
    let byteswritten := byteswritten.map (fun _ => 0)
    if h.fileaccess &&& GENERIC_WRITE = 0 ∧ h.fileaccess &&& GENERIC_ALL = 0 then
      some { ret := false, count := byteswritten,
             world := { w with last_error := ERROR_ACCESS_DENIED } }
    else
      match retry (Syscall.write h.fd numbytes) true w with
      | none => none
      | some (ret, w1) =>
        if ret = -1 then
          if w1.errno = EINTR then
            some { ret := true, count := byteswritten.map (fun _ => toUInt32 0), world := w1 }
          else
            some { ret := false, count := byteswritten,
                   world := _wapi_set_last_error_from_errno unix_to_win32 w1 }
        else some { ret := true, count := byteswritten.map (fun _ => toUInt32 ret), world := w1 }

/-- Modelled from the spec: the handle types `MonoW32HandleType` of `w32handle.h`, a
header that is not among the sources; the first eleven are the rows that `io_ops`
fills in, in its order, the last three index rows it leaves zeroed. -/
inductive MonoW32HandleType
  | MONO_W32HANDLE_UNUSED
  | MONO_W32HANDLE_FILE
  | MONO_W32HANDLE_CONSOLE
  | MONO_W32HANDLE_THREAD
  | MONO_W32HANDLE_SEM
  | MONO_W32HANDLE_MUTEX
  | MONO_W32HANDLE_EVENT
  | MONO_W32HANDLE_SOCKET
  | MONO_W32HANDLE_FIND
  | MONO_W32HANDLE_PROCESS
  | MONO_W32HANDLE_PIPE
  | MONO_W32HANDLE_NAMEDMUTEX
  | MONO_W32HANDLE_NAMEDSEM
  | MONO_W32HANDLE_NAMEDEVENT
deriving DecidableEq, Repr

/-- The slots of a row of `io_ops`. -/
inductive IoSlot
  | getfiletype
  | readfile
  | writefile
  | flushfile
  | seek
  | setendoffile
  | getfilesize
  | getfiletime
  | setfiletime
deriving DecidableEq, Repr

/-- The resource functions that `io_ops` points to. -/
inductive ResourceFn
  | file_getfiletype
  | file_read
  | file_write
  | file_flush
  | file_seek
  | file_setendoffile
  | file_getfilesize
  | file_getfiletime
  | file_setfiletime
  | console_getfiletype
  | console_read
  | console_write
  | pipe_getfiletype
  | pipe_read
  | pipe_write
deriving DecidableEq, Repr

/-- The table `io_ops`; `none` is a NULL slot. -/
def io_ops : MonoW32HandleType → IoSlot → Option ResourceFn
  | .MONO_W32HANDLE_FILE, .getfiletype => some .file_getfiletype
  | .MONO_W32HANDLE_FILE, .readfile => some .file_read
  | .MONO_W32HANDLE_FILE, .writefile => some .file_write
  | .MONO_W32HANDLE_FILE, .flushfile => some .file_flush
  | .MONO_W32HANDLE_FILE, .seek => some .file_seek
  | .MONO_W32HANDLE_FILE, .setendoffile => some .file_setendoffile
  | .MONO_W32HANDLE_FILE, .getfilesize => some .file_getfilesize
  | .MONO_W32HANDLE_FILE, .getfiletime => some .file_getfiletime
  | .MONO_W32HANDLE_FILE, .setfiletime => some .file_setfiletime
  | .MONO_W32HANDLE_CONSOLE, .getfiletype => some .console_getfiletype
  | .MONO_W32HANDLE_CONSOLE, .readfile => some .console_read
  | .MONO_W32HANDLE_CONSOLE, .writefile => some .console_write
  | .MONO_W32HANDLE_PIPE, .getfiletype => some .pipe_getfiletype
  | .MONO_W32HANDLE_PIPE, .readfile => some .pipe_read
  | .MONO_W32HANDLE_PIPE, .writefile => some .pipe_write
  | _, _ => none

/-- Modelled from the spec: the sentinel `INVALID_SET_FILE_POINTER` of `w32file.h`. -/
def INVALID_SET_FILE_POINTER : Nat := 0xFFFFFFFF

/-- Modelled from the spec: the sentinel `INVALID_FILE_SIZE` of `w32file.h`. -/
def INVALID_FILE_SIZE : Nat := 0xFFFFFFFF

/-- Modelled from the spec: the file type `FILE_TYPE_UNKNOWN` of `w32file.h`. -/
def FILE_TYPE_UNKNOWN : Nat := 0

/-- What a public dispatcher does: it returns a value with the last error set, or it
hands over to a resource function. -/
inductive Dispatch
  | returned (value : Nat) (last_error : Nat)
  | calls (f : ResourceFn)
deriving DecidableEq, Repr

/-- The function `mono_w32file_read`, on the type of the handle. -/
def mono_w32file_read (type : MonoW32HandleType) : Dispatch :=
  match io_ops type .readfile with
  | none => .returned 0 ERROR_INVALID_HANDLE
  | some f => .calls f

/-- The function `mono_w32file_write`, on the type of the handle. -/
def mono_w32file_write (type : MonoW32HandleType) : Dispatch :=
  match io_ops type .writefile with
  | none => .returned 0 ERROR_INVALID_HANDLE
  | some f => .calls f

/-- The function `mono_w32file_flush`, on the type of the handle. -/
def mono_w32file_flush (type : MonoW32HandleType) : Dispatch :=
  match io_ops type .flushfile with
  | none => .returned 0 ERROR_INVALID_HANDLE
  | some f => .calls f

/-- The function `mono_w32file_truncate`, on the type of the handle. -/
def mono_w32file_truncate (type : MonoW32HandleType) : Dispatch :=
  match io_ops type .setendoffile with
  | none => .returned 0 ERROR_INVALID_HANDLE
  | some f => .calls f

/-- The function `mono_w32file_seek`, on the type of the handle. -/
def mono_w32file_seek (type : MonoW32HandleType) : Dispatch :=
  match io_ops type .seek with
  | none => .returned INVALID_SET_FILE_POINTER ERROR_INVALID_HANDLE
  | some f => .calls f

/-- The function `mono_w32file_get_type`, on the type of the handle. -/
def mono_w32file_get_type (type : MonoW32HandleType) : Dispatch :=
  match io_ops type .getfiletype with
  | none => .returned FILE_TYPE_UNKNOWN ERROR_INVALID_HANDLE
  | some f => .calls f

/-- The function `GetFileSize`, on the type of the handle. -/
def GetFileSize (type : MonoW32HandleType) : Dispatch :=
  match io_ops type .getfilesize with
  | none => .returned INVALID_FILE_SIZE ERROR_INVALID_HANDLE
  | some f => .calls f

/-- The function `mono_w32file_get_times`, on the type of the handle. -/
def mono_w32file_get_times (type : MonoW32HandleType) : Dispatch :=
  match io_ops type .getfiletime with
  | none => .returned 0 ERROR_INVALID_HANDLE
  | some f => .calls f

/-- The function `mono_w32file_set_times`, on the type of the handle. -/
def mono_w32file_set_times (type : MonoW32HandleType) : Dispatch :=
  match io_ops type .setfiletime with
  | none => .returned 0 ERROR_INVALID_HANDLE
  | some f => .calls f

/-- The public dispatcher of each slot. -/
def dispatcher : IoSlot → MonoW32HandleType → Dispatch
  | .getfiletype => mono_w32file_get_type
  | .readfile => mono_w32file_read
  | .writefile => mono_w32file_write
  | .flushfile => mono_w32file_flush
  | .seek => mono_w32file_seek
  | .setendoffile => mono_w32file_truncate
  | .getfilesize => GetFileSize
  | .getfiletime => mono_w32file_get_times
  | .setfiletime => mono_w32file_set_times

/-- The value a dispatcher returns for a NULL slot: FALSE, `INVALID_SET_FILE_POINTER`,
`INVALID_FILE_SIZE` or `FILE_TYPE_UNKNOWN`. -/
def failureSentinel : IoSlot → Nat
  | .seek => INVALID_SET_FILE_POINTER
  | .getfilesize => INVALID_FILE_SIZE
  | .getfiletype => FILE_TYPE_UNKNOWN
  | _ => 0

/-- The `errno` value `ENOENT` of the platform. -/
def ENOENT : Nat := 2

/-- The `errno` value `ENOTDIR` of the platform. -/
def ENOTDIR : Nat := 20

/-- The `errno` value `EISDIR` of the platform. -/
def EISDIR : Nat := 21

/-- Modelled from the spec: the error code `ERROR_FILE_NOT_FOUND` of `w32error.h`. -/
def ERROR_FILE_NOT_FOUND : Nat := 2

/-- Modelled from the spec: the error code `ERROR_PATH_NOT_FOUND` of `w32error.h`. -/
def ERROR_PATH_NOT_FOUND : Nat := 3

/-- The trace after a call of `mono_portability_find_file`, which leaves `errno` as
it finds it: the wrappers put the saved value back when it returns NULL. -/
def located (pathname : String) (last_exists : Bool) (w : World) : World :=
  { w with calls := w.calls ++ [Syscall.mono_portability_find_file pathname last_exists] }

/-- The function `_wapi_unlink`; `portability` is `IS_PORTABILITY_SET` and
`find_file` is `mono_portability_find_file` with `last_exists` TRUE, neither among
the sources. -/
def _wapi_unlink (portability : Bool) (find_file : String → Option String) (pathname : String)
    (w : World) : Option (Int × World) :=
  match syscall (Syscall.unlink pathname) w with
  | none => none
  | some (ret, w1) =>
    if ret = -1 ∧ (w1.errno = ENOENT ∨ w1.errno = ENOTDIR ∨ w1.errno = EISDIR)
        ∧ portability = true then
      match find_file pathname with
      | none => some (-1, located pathname true w1)
      | some located_filename =>
        syscall (Syscall.unlink located_filename) (located pathname true w1)
    else some (ret, w1)

/-- The function `_wapi_set_last_path_error_from_errno`; `parent_exists` is whether
`_wapi_access` finds the directory of the path. -/
def _wapi_set_last_path_error_from_errno (unix_to_win32 : Nat → Nat) (parent_exists : Bool)
    (w : World) : World :=
  if w.errno = ENOENT then
    if parent_exists then { w with last_error := ERROR_FILE_NOT_FOUND }
    else { w with last_error := ERROR_PATH_NOT_FOUND }
  else _wapi_set_last_error_from_errno unix_to_win32 w

/-- The function `mono_w32file_delete`; `name` is `none` for a NULL pointer and
`filename` is what `mono_unicode_to_external` makes of the name. The share check of
its source is compiled out (`#if 0`). -/
def mono_w32file_delete (unix_to_win32 : Nat → Nat) (portability : Bool)
    (find_file : String → Option String) (parent_exists : Bool)
    (name : Option String) (filename : Option String) (w : World) : Option (Bool × World) :=
  match name with
  | none => some (false, { w with last_error := ERROR_INVALID_NAME })
  | some _ =>
    match filename with
    | none => some (false, { w with last_error := ERROR_INVALID_NAME })
    | some filename =>
      match _wapi_unlink portability find_file filename w with
      | none => none
      | some (retval, w1) =>
        if retval = -1 then
          some (false, _wapi_set_last_path_error_from_errno unix_to_win32 parent_exists w1)
        else some (true, w1)

/-! ## Path wrappers, seeking, file times, closing, creating and finding -/

/-- The `errno` value `ELOOP` of the platform, here that of Linux. -/
def ELOOP : Nat := 40

/-- The open flag `O_RDONLY` of the platform. -/
def O_RDONLY : Nat := 0

/-- The open flag `O_WRONLY` of the platform. -/
def O_WRONLY : Nat := 1

/-- The open flag `O_RDWR` of the platform. -/
def O_RDWR : Nat := 2

/-- The open flag `O_CREAT` of the platform, here that of Linux. -/
def O_CREAT : Nat := 0x40

/-- The open flag `O_EXCL` of the platform, here that of Linux. -/
def O_EXCL : Nat := 0x80

/-- The open flag `O_TRUNC` of the platform, here that of Linux. -/
def O_TRUNC : Nat := 0x200

/-- The body that `_wapi_access`, `_wapi_chmod`, `_wapi_utime`, `_wapi_stat`,
`_wapi_lstat`, `_wapi_rmdir`, `_wapi_chdir` and `_wapi_open` without `O_CREAT` have in
common: the call on the path as given and, when it returns -1 with an `errno` among
`errs` while `IS_PORTABILITY_SET`, the resolver with `last_exists` TRUE and the call
on the path it finds. -/
def retryLocated (call : String → Syscall) (errs : List Nat) (portability : Bool)
    (find_file : String → Bool → Option String) (pathname : String) (w : World) :
    Option (Int × World) :=
  match syscall (call pathname) w with
  | none => none
  | some (ret, w1) =>
    if ret = -1 ∧ w1.errno ∈ errs ∧ portability = true then
      match find_file pathname true with
      | none => some (-1, located pathname true w1)
      | some located_filename => syscall (call located_filename) (located pathname true w1)
    else some (ret, w1)

/-- The function `_wapi_open`. -/
def _wapi_open (portability : Bool) (find_file : String → Bool → Option String)
    (pathname : String) (flags mode : Nat) (w : World) : Option (Int × World) :=
  if flags &&& O_CREAT ≠ 0 then
    match find_file pathname false with
    | none => syscall (Syscall.open_ pathname flags mode) (located pathname false w)
    | some located_filename =>
      syscall (Syscall.open_ located_filename flags mode) (located pathname false w)
  else
    retryLocated (fun p => Syscall.open_ p flags mode) [ENOENT, ENOTDIR] portability find_file
      pathname w

/-- The function `_wapi_utime`; `actime` and `modtime` are the fields of `*buf`. -/
def _wapi_utime (portability : Bool) (find_file : String → Bool → Option String)
    (filename : String) (actime modtime : Int) (w : World) : Option (Int × World) :=
  retryLocated (fun p => Syscall.utime p actime modtime) [ENOENT] portability find_file
    filename w

/-- The function `_wapi_stat`; what it writes to `*buf` is left to its callers. -/
def _wapi_stat (portability : Bool) (find_file : String → Bool → Option String)
    (path : String) (w : World) : Option (Int × World) :=
  retryLocated Syscall.stat [ENOENT, ENOTDIR] portability find_file path w

/-- The function `_wapi_lstat`; what it writes to `*buf` is left to its callers. -/
def _wapi_lstat (portability : Bool) (find_file : String → Bool → Option String)
    (path : String) (w : World) : Option (Int × World) :=
  retryLocated Syscall.lstat [ENOENT, ENOTDIR] portability find_file path w

/-- The calls of the resolver in a trace. -/
def resolverCalls (calls : List Syscall) : List (String × Bool) :=
  calls.filterMap fun c =>
    match c with
    | Syscall.mono_portability_find_file p b => some (p, b)
    | _ => none

/-- The rule of the resolver for one run of a wrapper, from the world `w` to the world
`w1`: the first call of the run is `primary`, and the resolver is called in the run
only when `IS_PORTABILITY_SET` and the answer to the first call is -1 with an `errno`
among `errs`. -/
def ResolverAfterFailure (primary : Syscall) (errs : List Nat) (portability : Bool)
    (w w1 : World) : Prop :=
  ∃ l, w1.calls = w.calls ++ primary :: l
    ∧ (resolverCalls (primary :: l) ≠ [] →
        portability = true ∧ ∃ r rest, w.pending = r :: rest ∧ r.ret = -1 ∧ r.err ∈ errs)

/-- The rule of the wrappers that resolve the path before they call the system: the
first call of the run is the resolver on `pathname` with `last_exists` FALSE. -/
def ResolverFirst (pathname : String) (w w1 : World) : Prop :=
  ∃ l, w1.calls = w.calls ++ Syscall.mono_portability_find_file pathname false :: l

/-- The origin `SEEK_END` of the platform. -/
def SEEK_END : Nat := 2

/-- Modelled from the spec: the seek method `FILE_BEGIN` of `w32file.h`. -/
def FILE_BEGIN : Int := 0

/-- Modelled from the spec: the seek method `FILE_CURRENT` of `w32file.h`. -/
def FILE_CURRENT : Int := 1

/-- Modelled from the spec: the seek method `FILE_END` of `w32file.h`. -/
def FILE_END : Int := 2

/-- A value of 32 bits read as a `gint32`. -/
def toInt32 (u : Nat) : Int :=
  if u % 4294967296 < 2147483648 then (u % 4294967296 : Nat)
  else (u % 4294967296 : Nat) - 4294967296

/-- What `file_seek` hands back: its return value, the cell `*highmovedistance`
(`none` for a NULL pointer) and the surroundings. -/
structure SeekResult where
  ret : Nat
  highmovedistance : Option Int
  world : World
deriving DecidableEq, Repr

/-- The function `file_seek` of a build with `HAVE_LARGE_FILE_SUPPORT`;
`movedistance` and `*highmovedistance` are `gint32` values, `method` is a `gint`, and
`file_handle` is `none` when `mono_w32handle_lookup` fails. -/
def file_seek (unix_to_win32 : Nat → Nat) (file_handle : Option MonoW32HandleFile)
    (movedistance : Int) (highmovedistance : Option Int) (method : Int) (w : World) :
    Option SeekResult :=
  match file_handle with
  | none =>
    some { ret := INVALID_SET_FILE_POINTER, highmovedistance := highmovedistance,
           world := { w with last_error := ERROR_INVALID_HANDLE } }
  | some file_handle =>
    let fd := file_handle.fd
    if file_handle.fileaccess &&& GENERIC_READ = 0 ∧ file_handle.fileaccess &&& GENERIC_WRITE = 0
        ∧ file_handle.fileaccess &&& GENERIC_ALL = 0 then
      some { ret := INVALID_SET_FILE_POINTER, highmovedistance := highmovedistance,
             world := { w with last_error := ERROR_ACCESS_DENIED } }
    else
      let whence : Option Nat :=
        if method = FILE_BEGIN then some SEEK_SET
        else if method = FILE_CURRENT then some SEEK_CUR
        else if method = FILE_END then some SEEK_END
        else none
      match whence with
      | none =>
        some { ret := INVALID_SET_FILE_POINTER, highmovedistance := highmovedistance,
               world := { w with last_error := ERROR_INVALID_PARAMETER } }
      | some whence =>
        let offset : Int :=
          match highmovedistance with
          | none => movedistance
          | some high =>
            toInt64 (((high * 4294967296) % (UINT64_MOD : Int)).toNat
              ||| (movedistance % 4294967296).toNat)
        match syscall (Syscall.lseek fd offset whence) w with
        | none => none
        | some (newpos, w1) =>
          if newpos = -1 then
            some { ret := INVALID_SET_FILE_POINTER, highmovedistance := highmovedistance,
                   world := _wapi_set_last_error_from_errno unix_to_win32 w1 }
          else
            let ret := (newpos % (UINT64_MOD : Int)).toNat &&& 0xFFFFFFFF
            match highmovedistance with
            | none => some { ret := ret, highmovedistance := none, world := w1 }
            | some _ =>
              some { ret := ret,
                     highmovedistance := some (toInt32 (((newpos / 4294967296) % 4294967296).toNat)),
                     world := w1 }

/-- The fields of a `struct stat` that the file layer reads. -/
structure StructStat where
  st_dev : Nat
  st_ino : Nat
  st_mode : Nat
  st_atime : Int
  st_mtime : Int
deriving DecidableEq, Repr

/-- The number of ticks between 1601-01-01 and 1970-01-01, the constant
`116444736000000000ULL` of `file_setfiletime`. -/
def EPOCH_TICKS : Nat := 116444736000000000

/-- The value `INT_MAX` of the platform. -/
def INT_MAX : Nat := 2147483647

/-- The ticks of a `FILETIME` as `file_setfiletime` computes them, in `guint64`. -/
def filetimeTicks (t : FILETIME) : Nat :=
  ((t.dwHighDateTime * 4294967296) % UINT64_MOD + t.dwLowDateTime) % UINT64_MOD

/-- The time that `file_setfiletime` makes of one of its arguments: `none` when it
refuses the argument, else the value for `utimbuf`; `current` is the time that `fstat`
gave and `sizeof_time_t` the size of the field of `utimbuf`. -/
def utimeField (sizeof_time_t : Nat) (time : Option FILETIME) (current : Int) : Option Int :=
  match time with
  | none => some current
  | some t =>
    let ticks := filetimeTicks t
    if ticks < EPOCH_TICKS then none
    else if sizeof_time_t = 4 ∧ (ticks - EPOCH_TICKS) / 10000000 > INT_MAX then none
    else some (((ticks - EPOCH_TICKS) / 10000000 : Nat) : Int)

/-- The function `file_setfiletime`; `statbuf` is what `fstat` writes when it
succeeds, `sizeof_time_t` is `sizeof (utbuf.actime)`, 4 or 8, and `file_handle` is
`none` when `mono_w32handle_lookup` fails. The argument `create_time` is
`G_GNUC_UNUSED` in the source. -/
def file_setfiletime (portability : Bool) (find_file : String → Bool → Option String)
    (sizeof_time_t : Nat) (statbuf : StructStat) (file_handle : Option MonoW32HandleFile)
    (_create_time access_time write_time : Option FILETIME) (w : World) :
    Option (Bool × World) :=
  match file_handle with
  | none => some (false, { w with last_error := ERROR_INVALID_HANDLE })
  | some file_handle =>
    let fd := file_handle.fd
    if file_handle.fileaccess &&& GENERIC_WRITE = 0 ∧ file_handle.fileaccess &&& GENERIC_ALL = 0 then
      some (false, { w with last_error := ERROR_ACCESS_DENIED })
    else
      match file_handle.filename with
      | none => some (false, { w with last_error := ERROR_INVALID_HANDLE })
      | some filename =>
        match syscall (Syscall.fstat fd) w with
        | none => none
        | some (ret, w1) =>
          if ret = -1 then some (false, { w1 with last_error := ERROR_INVALID_PARAMETER })
          else
            match utimeField sizeof_time_t access_time statbuf.st_atime with
            | none => some (false, { w1 with last_error := ERROR_INVALID_PARAMETER })
            | some actime =>
              match utimeField sizeof_time_t write_time statbuf.st_mtime with
              | none => some (false, { w1 with last_error := ERROR_INVALID_PARAMETER })
              | some modtime =>
                match _wapi_utime portability find_file filename actime modtime w1 with
                | none => none
                | some (ret, w2) =>
                  if ret = -1 then
                    some (false, { w2 with last_error := ERROR_INVALID_PARAMETER })
                  else some (true, w2)

/-- Modelled from the spec: the flag `FILE_FLAG_DELETE_ON_CLOSE` of `w32file.h`. -/
def FILE_FLAG_DELETE_ON_CLOSE : Nat := 0x04000000

/-- The release of the share record that a resource holds, if it holds one, with
the call recorded in the trace; `none` when `file_share_release` fails an assertion. -/
def releaseHeld (t : GHashTable) (share_info : Option (Nat × Nat)) (w : World) :
    Option (GHashTable × World) :=
  match share_info with
  | none => some (t, w)
  | some si =>
    match file_share_release t si with
    | none => none
    | some t1 => some (t1, { w with calls := w.calls ++ [Syscall.file_share_release si] })

/-- The `errno` value `EFAULT` of the platform. -/
def EFAULT : Nat := 14

/-- The call `_wapi_unlink (NULL)`, which `file_close` makes for a handle without a
file name: `unlink` on a NULL pointer fails with `EFAULT`, which is none of the values
of `errno` after which `_wapi_unlink` calls the resolver, so that it returns -1 after
that one call. -/
def _wapi_unlink_NULL (w : World) : Int × World :=
  (-1, { w with calls := w.calls ++ [Syscall.unlink_NULL], errno := EFAULT })

/-- The function `file_close`, on the data of the handle: the table and the
surroundings it leaves. -/
def file_close (portability : Bool) (find_file : String → Bool → Option String)
    (t : GHashTable) (file_handle : MonoW32HandleFile) (w : World) :
    Option (GHashTable × World) :=
  let fd := file_handle.fd
  let unlinked : Option World :=
    if file_handle.attrs &&& FILE_FLAG_DELETE_ON_CLOSE ≠ 0 then
      match file_handle.filename with
      | none => some (_wapi_unlink_NULL w).2
      | some filename =>
        (_wapi_unlink portability (fun p => find_file p true) filename w).map (fun r => r.2)
    else some w
  match unlinked with
  | none => none
  | some w1 =>
    match releaseHeld t file_handle.share_info w1 with
    | none => none
    | some (t1, w2) => (syscall (Syscall.close fd) w2).map (fun r => (t1, r.2))

/-- The function `console_close`, on the data of the handle. -/
def console_close (t : GHashTable) (console_handle : MonoW32HandleFile) (w : World) :
    Option (GHashTable × World) :=
  let fd := console_handle.fd
  if fd > 2 then
    match releaseHeld t console_handle.share_info w with
    | none => none
    | some (t1, w1) => (syscall (Syscall.close fd) w1).map (fun r => (t1, r.2))
  else some (t, w)

/-- The function `pipe_close`, on the data of the handle. -/
def pipe_close (t : GHashTable) (pipe_handle : MonoW32HandleFile) (w : World) :
    Option (GHashTable × World) :=
  let fd := pipe_handle.fd
  match releaseHeld t pipe_handle.share_info w with
  | none => none
  | some (t1, w1) => (syscall (Syscall.close fd) w1).map (fun r => (t1, r.2))

/-- Modelled from the spec: the create mode `CREATE_NEW` of `w32file.h`. -/
def CREATE_NEW : Nat := 1

/-- Modelled from the spec: the create mode `CREATE_ALWAYS` of `w32file.h`. -/
def CREATE_ALWAYS : Nat := 2

/-- Modelled from the spec: the create mode `OPEN_EXISTING` of `w32file.h`. -/
def OPEN_EXISTING : Nat := 3

/-- Modelled from the spec: the create mode `OPEN_ALWAYS` of `w32file.h`. -/
def OPEN_ALWAYS : Nat := 4

/-- Modelled from the spec: the create mode `TRUNCATE_EXISTING` of `w32file.h`. -/
def TRUNCATE_EXISTING : Nat := 5

/-- Modelled from the spec: the attribute `FILE_ATTRIBUTE_TEMPORARY` of `w32file.h`. -/
def FILE_ATTRIBUTE_TEMPORARY : Nat := 0x00000100

/-- Modelled from the spec: the attribute `FILE_ATTRIBUTE_ENCRYPTED` of `w32file.h`. -/
def FILE_ATTRIBUTE_ENCRYPTED : Nat := 0x00004000

/-- Modelled from the spec: the flag `FILE_FLAG_SEQUENTIAL_SCAN` of `w32file.h`. -/
def FILE_FLAG_SEQUENTIAL_SCAN : Nat := 0x08000000

/-- Modelled from the spec: the flag `FILE_FLAG_RANDOM_ACCESS` of `w32file.h`. -/
def FILE_FLAG_RANDOM_ACCESS : Nat := 0x10000000

/-- Modelled from the spec: the error code `ERROR_TOO_MANY_OPEN_FILES` of `w32error.h`. -/
def ERROR_TOO_MANY_OPEN_FILES : Nat := 4

/-- Modelled from the spec: the error code `ERROR_NO_MORE_FILES` of `w32error.h`. -/
def ERROR_NO_MORE_FILES : Nat := 18

/-- Modelled from the spec: the error code `ERROR_GEN_FAILURE` of `w32error.h`. -/
def ERROR_GEN_FAILURE : Nat := 31

/-- Modelled from the spec: the error code `ERROR_ENCRYPTION_FAILED` of `w32error.h`. -/
def ERROR_ENCRYPTION_FAILED : Nat := 6000

/-- Modelled from the spec: the value `INVALID_FILE_ATTRIBUTES` of `w32file.h`,
`(guint32) -1`. -/
def INVALID_FILE_ATTRIBUTES : Nat := 0xFFFFFFFF

/-- The mask `S_IFMT` of the platform. -/
def S_IFMT : Nat := 0o170000

/-- The file type `S_IFIFO` of the platform. -/
def S_IFIFO : Nat := 0o010000

/-- The file type `S_IFCHR` of the platform. -/
def S_IFCHR : Nat := 0o020000

/-- The advice `POSIX_FADV_RANDOM` of the platform. -/
def POSIX_FADV_RANDOM : Nat := 1

/-- The advice `POSIX_FADV_SEQUENTIAL` of the platform. -/
def POSIX_FADV_SEQUENTIAL : Nat := 2

/-- The function `convert_flags`. -/
def convert_flags (fileaccess createmode : Nat) : Nat :=
  let flags :=
    if fileaccess = GENERIC_READ then O_RDONLY
    else if fileaccess = GENERIC_WRITE then O_WRONLY
    else if fileaccess = GENERIC_READ ||| GENERIC_WRITE then O_RDWR
    else 0
  if createmode = CREATE_NEW then flags ||| (O_CREAT ||| O_EXCL)
  else if createmode = CREATE_ALWAYS then flags ||| (O_CREAT ||| O_TRUNC)
  else if createmode = OPEN_EXISTING then flags
  else if createmode = OPEN_ALWAYS then flags ||| O_CREAT
  else if createmode = TRUNCATE_EXISTING then flags ||| O_TRUNC
  else flags

/-- A call of `posix_fadvise`, whose answer `mono_w32file_create` does not look at
and which leaves `errno` alone. -/
def advise (c : Syscall) (w : World) : Option World :=
  match w.pending with
  | [] => none
  | _ :: rest => some { w with pending := rest, calls := w.calls ++ [c] }

/-- What `mono_w32file_create` hands back: the handle with its type and its data
(`none` for `INVALID_HANDLE_VALUE`), the share table and the surroundings. -/
structure CreateResult where
  handle : Option (Nat × MonoW32HandleType × MonoW32HandleFile)
  table : GHashTable
  world : World
deriving DecidableEq, Repr

/-- The function `mono_w32file_create` of a build with `HAVE_POSIX_FADVISE` and
without `F_RDAHEAD`; `name` is `none` for a NULL pointer, `filename` is what
`mono_unicode_to_external` makes of the name, `statbuf` is what `fstat` writes when it
succeeds, and `mono_w32handle_new_fd` gives `none` for `INVALID_HANDLE_VALUE`. The
branch for a NULL `share_info` after the share check is left out: `file_share_get`
never returns NULL. -/
def mono_w32file_create (unix_to_win32 : Nat → Nat) (portability : Bool)
    (find_file : String → Bool → Option String) (parent_exists : Bool)
    (mono_w32handle_fd_reserve : Int) (statbuf : StructStat)
    (mono_w32handle_new_fd : MonoW32HandleType → Int → Option Nat)
    (t : GHashTable) (name filename : Option String)
    (fileaccess sharemode createmode attrs : Nat) (w : World) : Option CreateResult :=
  let flags := convert_flags fileaccess createmode
  let perms : Nat := if attrs &&& FILE_ATTRIBUTE_TEMPORARY ≠ 0 then 0o600 else 0o666
  if attrs &&& FILE_ATTRIBUTE_ENCRYPTED ≠ 0 then
    some { handle := none, table := t, world := { w with last_error := ERROR_ENCRYPTION_FAILED } }
  else
    match name, filename with
    | none, _ =>
      some { handle := none, table := t, world := { w with last_error := ERROR_INVALID_NAME } }
    | some _, none =>
      some { handle := none, table := t, world := { w with last_error := ERROR_INVALID_NAME } }
    | some _, some filename =>
      match _wapi_open portability find_file filename flags perms w with
      | none => none
      | some (fd, w1) =>
        let again :=
          if fd = -1 ∧ w1.errno = EISDIR then
            _wapi_open portability find_file filename (flags - (flags &&& (O_RDWR ||| O_WRONLY)))
              perms w1
          else some (fd, w1)
        match again with
        | none => none
        | some (fd, w2) =>
          if fd = -1 then
            some { handle := none, table := t,
                   world := _wapi_set_last_path_error_from_errno unix_to_win32 parent_exists w2 }
          else if fd ≥ mono_w32handle_fd_reserve then
            (syscall (Syscall.close fd) { w2 with last_error := ERROR_TOO_MANY_OPEN_FILES }).map
              fun r => { handle := none, table := t, world := r.2 }
          else
            match syscall (Syscall.fstat fd) w2 with
            | none => none
            | some (ret, w3) =>
              if ret = -1 then
                (syscall (Syscall.close fd) (_wapi_set_last_error_from_errno unix_to_win32 w3)).map
                  fun r => { handle := none, table := t, world := r.2 }
              else
                match mono_w32file_create_share t statbuf.st_dev statbuf.st_ino sharemode
                    fileaccess with
                | none => none
                | some c =>
                  if c.invalid_handle = true then
                    (syscall (Syscall.close fd)
                        { w3 with last_error := ERROR_SHARING_VIOLATION }).map
                      fun r => { handle := none, table := c.table, world := r.2 }
                  else
                    let w4 :=
                      if attrs &&& FILE_FLAG_SEQUENTIAL_SCAN ≠ 0 then
                        advise (Syscall.posix_fadvise fd POSIX_FADV_SEQUENTIAL) w3
                      else some w3
                    let w5 :=
                      if attrs &&& FILE_FLAG_RANDOM_ACCESS ≠ 0 then
                        w4.bind (advise (Syscall.posix_fadvise fd POSIX_FADV_RANDOM))
                      else w4
                    match w5 with
                    | none => none
                    | some w5 =>
                      let fifo := statbuf.st_mode &&& S_IFMT = S_IFIFO
                      let handle_type :=
                        if fifo then MonoW32HandleType.MONO_W32HANDLE_PIPE
                        else if statbuf.st_mode &&& S_IFMT = S_IFCHR then
                          MonoW32HandleType.MONO_W32HANDLE_CONSOLE
                        else MonoW32HandleType.MONO_W32HANDLE_FILE
                      let file_handle : MonoW32HandleFile :=
                        { filename := if fifo then none else some filename,
                          share_info := some c.share_info, fd := fd, security_attributes := 0,
                          fileaccess := fileaccess, sharemode := sharemode, attrs := attrs }
                      match mono_w32handle_new_fd handle_type fd with
                      | none =>
                        (syscall (Syscall.close fd) w5).map fun r =>
                          { handle := none, table := c.table,
                            world := { r.2 with last_error := ERROR_GEN_FAILURE } }
                      | some handle =>
                        some { handle := some (handle, handle_type, file_handle),
                               table := c.table, world := w5 }

/-- The function `mono_w32file_get_attributes`; `name` is `none` for a NULL pointer,
`utf8_name` is what `mono_unicode_to_external` makes of the name, and `attributes` is
what `_wapi_stat_to_file_attributes` makes of the two buffers. -/
def mono_w32file_get_attributes (unix_to_win32 : Nat → Nat) (portability : Bool)
    (find_file : String → Bool → Option String) (parent_exists : Bool) (attributes : Nat)
    (name utf8_name : Option String) (w : World) : Option (Nat × World) :=
  match name, utf8_name with
  | none, _ => some (0, { w with last_error := ERROR_INVALID_NAME })
  | some _, none => some (INVALID_FILE_ATTRIBUTES, { w with last_error := ERROR_INVALID_PARAMETER })
  | some _, some utf8_name =>
    match _wapi_stat portability find_file utf8_name w with
    | none => none
    | some (result, w1) =>
      let again :=
        if result = -1 ∧ (w1.errno = ENOENT ∨ w1.errno = ELOOP) then
          _wapi_lstat portability find_file utf8_name w1
        else some (result, w1)
      match again with
      | none => none
      | some (result, w2) =>
        if result ≠ 0 then
          some (INVALID_FILE_ATTRIBUTES,
            _wapi_set_last_path_error_from_errno unix_to_win32 parent_exists w2)
        else
          match _wapi_lstat portability find_file utf8_name w2 with
          | none => none
          | some (result, w3) =>
            if result ≠ 0 then
              some (INVALID_FILE_ATTRIBUTES,
                _wapi_set_last_path_error_from_errno unix_to_win32 parent_exists w3)
            else some (attributes, w3)

/-- Modelled from the spec: `strcmp` of the C library, on strings given by their
bytes: it reads both strings byte by byte, a string that has ended reading as the
byte 0, and stops at the first difference or at a byte 0. -/
def strcmp : List Nat → List Nat → Int
  | [], [] => 0
  | [], b :: _ => -(b : Int)
  | a :: _, [] => (a : Int)
  | a :: as, b :: bs => if a ≠ b then (a : Int) - (b : Int) else if a = 0 then 0 else strcmp as bs

/-- The function `file_compare`, on the two names that its arguments point to. -/
def file_compare (astr bstr : List Nat) : Int := strcmp astr bstr

/-- Modelled from the spec: `g_ptr_array_sort` of eglib, which puts the array in the
order of `compare`. -/
def g_ptr_array_sort (names : List (List Nat)) (compare : List Nat → List Nat → Int) :
    List (List Nat) :=
  names.insertionSort (fun a b => compare a b ≤ 0)

/-- Modelled from the spec: `g_str_has_suffix` of eglib. -/
def g_str_has_suffix (str suffix : String) : Bool := suffix.data.isSuffixOf str.data

/-- Modelled from the spec: `g_strndup` of eglib, for strings of one byte a character. -/
def g_strndup (str : String) (n : Nat) : String := String.mk (str.data.take n)

/-- Modelled from the spec: the flag `W32FILE_UNIX_GLOB_APPEND` of `w32file-unix-glob.h`. -/
def W32FILE_UNIX_GLOB_APPEND : Nat := 0x0001

/-- Modelled from the spec: the flag `W32FILE_UNIX_GLOB_UNIQUE` of `w32file-unix-glob.h`. -/
def W32FILE_UNIX_GLOB_UNIQUE : Nat := 0x0040

/-- Modelled from the spec: the flag `W32FILE_UNIX_GLOB_IGNORECASE` of
`w32file-unix-glob.h`. -/
def W32FILE_UNIX_GLOB_IGNORECASE : Nat := 0x0100

/-- The glob matching of `_wapi_io_scandir`: the value `result` and the names of
`glob_buf` once the one or two calls of `mono_w32file_unix_glob` are made; `unix_glob`
is that function, which is not among the sources, as a map from the pattern, the flags
and the names of the buffer to its return value and the names of the buffer. -/
def globMatches (portability_case : Bool)
    (unix_glob : String → Nat → List (List Nat) → Int × List (List Nat)) (pattern : String) :
    Int × List (List Nat) :=
  let flags := if portability_case then W32FILE_UNIX_GLOB_IGNORECASE else 0
  let first := unix_glob pattern flags []
  if g_str_has_suffix pattern ".*" then
    let pattern2 := g_strndup pattern (pattern.data.length - 2)
    let second :=
      unix_glob pattern2 (flags ||| W32FILE_UNIX_GLOB_APPEND ||| W32FILE_UNIX_GLOB_UNIQUE) first.2
    (if first.1 ≠ 0 then second.1 else first.1, second.2)
  else first

/-- What `_wapi_io_scandir` hands back: its return value, `*namelist` when it sets
it, and the `errno` it sets when it does. -/
structure ScanResult where
  ret : Int
  namelist : Option (List (List Nat))
  errno : Option Nat
deriving DecidableEq, Repr

/-- The function `_wapi_io_scandir`; `dir_error` is `none` when `_wapi_g_dir_open`
opens the directory and else the `errno` the function computes for the failure, and
`portability_case` is `IS_PORTABILITY_CASE`. The length of the array is a `guint` and
`result` a `gint`. -/
def _wapi_io_scandir (dir_error : Option Nat) (portability_case : Bool)
    (unix_glob : String → Nat → List (List Nat) → Int × List (List Nat)) (pattern : String) :
    ScanResult :=
  match dir_error with
  | some errnum => { ret := -1, namelist := none, errno := some errnum }
  | none =>
    let glob := globMatches portability_case unix_glob pattern
    if glob.2.length = 0 then { ret := 0, namelist := none, errno := none }
    else if glob.1 ≠ 0 then { ret := -1, namelist := none, errno := none }
    else
      let names := glob.2
      let result := toInt32 names.length
      if result > 0 then
        { ret := result, namelist := some (g_ptr_array_sort names file_compare), errno := none }
      else { ret := result, namelist := none, errno := none }

/-- The struct `MonoW32HandleFind`: `num` is a `gint` and `count` a `gsize`. -/
structure MonoW32HandleFind where
  namelist : List (List Nat)
  dir_part : String
  num : Int
  count : Nat
deriving DecidableEq, Repr

/-- What `mono_w32file_find_next` hands back: its return value, the last error it
set, the entry it reports as the index it read and the name there, and the data of
the handle (`none` when the lookup failed). -/
structure FindResult where
  ret : Bool
  last_error : Option Nat
  found : Option (Nat × List Nat)
  find_handle : Option MonoW32HandleFind
deriving DecidableEq, Repr

/-- The loop of `mono_w32file_find_next` from the label `retry`; `entry_ok i` is
whether the entry read at index `i` passes the calls of stat and lstat and the two
conversions of its name, and the result is `none` when the loop does not end within
`fuel` rounds or reads outside the list. -/
def findNextLoop (entry_ok : Nat → Bool) : Nat → MonoW32HandleFind → Option FindResult
  | 0, _ => none
  | fuel + 1, find_handle =>
    if find_handle.count ≥ (find_handle.num % (UINT64_MOD : Int)).toNat then
      some { ret := false, last_error := some ERROR_NO_MORE_FILES, found := none,
             find_handle := some find_handle }
    else
      match find_handle.namelist[find_handle.count]? with
      | none => none
      | some name =>
        let next := { find_handle with count := find_handle.count + 1 }
        if entry_ok find_handle.count then
          some { ret := true, last_error := none, found := some (find_handle.count, name),
                 find_handle := some next }
        else findNextLoop entry_ok fuel next

/-- The function `mono_w32file_find_next`; `find_handle` is `none` when
`mono_w32handle_lookup` fails. -/
def mono_w32file_find_next (fuel : Nat) (entry_ok : Nat → Bool)
    (find_handle : Option MonoW32HandleFind) : Option FindResult :=
  match find_handle with
  | none =>
    some { ret := false, last_error := some ERROR_INVALID_HANDLE, found := none,
           find_handle := none }
  | some find_handle => findNextLoop entry_ok fuel find_handle

/-- The entries that `k` calls of `mono_w32file_find_next` in a row on one handle
report, in the order of the calls, and the data of the handle after them. -/
def findNextCalls (fuel : Nat) (entry_ok : Nat → Bool) :
    Nat → MonoW32HandleFind → Option (List (Nat × List Nat) × MonoW32HandleFind)
  | 0, find_handle => some ([], find_handle)
  | k + 1, find_handle =>
    match mono_w32file_find_next fuel entry_ok (some find_handle) with
    | none => none
    | some r =>
      match r.find_handle with
      | none => none
      | some h1 =>
        match findNextCalls fuel entry_ok k h1 with
        | none => none
        | some (l, h2) => some (r.found.toList ++ l, h2)

/-! ## The calendar of reference -/

/-- The leap years of the proleptic Gregorian calendar. -/
def gregorianLeap (y : Nat) : Bool :=
  y % 4 == 0 && (y % 100 != 0 || y % 400 == 0)

/-- The number of days of a month of the proleptic Gregorian calendar. -/
def gregorianMonthLength (y m : Nat) : Nat :=
  if m = 2 then (if gregorianLeap y then 29 else 28)
  else if m = 4 ∨ m = 6 ∨ m = 9 ∨ m = 11 then 30 else 31

/-- The day that follows `(year, month, day)`. -/
def nextDay (d : Nat × Nat × Nat) : Nat × Nat × Nat :=
  if d.2.2 < gregorianMonthLength d.1 d.2.1 then (d.1, d.2.1, d.2.2 + 1)
  else if d.2.1 < 12 then (d.1, d.2.1 + 1, 1)
  else (d.1 + 1, 1, 1)

/-- The date `n` days after 1970-01-01, found by counting the days one by one. -/
def gregorianOfUnixDay (n : Nat) : Nat × Nat × Nat :=
  Nat.iterate nextDay n (1970, 1, 1)

/-- The decomposition of reference of a Unix time `t ≥ 0` in UTC: year, month, day,
hour, minute, second. -/
def gregorianOfUnixTime (t : Nat) : Nat × Nat × Nat × Nat × Nat × Nat :=
  let d := gregorianOfUnixDay (t / 86400)
  (d.1, d.2.1, d.2.2, t % 86400 / 3600, t % 3600 / 60, t % 60)

/-- The number of days from 1601-01-01 to the first day of year `y`. -/
def daysBeforeYear (y : Int) : Int :=
  365 * (y - 1601) + ((y - 1) / 4 - (y - 1) / 100 + (y - 1) / 400) - 388

/-- The number of days of year `y`, as the year loop tests it. -/
def yearLength (y : Int) : Int := if isleap y then 366 else 365

/-- The number of days from 1601-01-01 to the date `(y, m, d)`. -/
def dayNumber (y m d : Nat) : Int :=
  daysBeforeYear y + (mon_yday (isleap y)).getD (m - 1) 0 + d - 1

/-- The dates of the proleptic Gregorian calendar. -/
def validDate (y m d : Nat) : Prop :=
  1 ≤ m ∧ m ≤ 12 ∧ 1 ≤ d ∧ d ≤ gregorianMonthLength y m

/-! ## Lemmas on the table operations -/

theorem file_share_equal_ne_zero (e k : FileShare) :
    file_share_equal e k ≠ 0 ↔ e.key = k.key := by
  unfold file_share_equal FileShare.key
  rw [Prod.mk.injEq]
  split <;> simp_all

theorem file_share_equal_eq_zero (e k : FileShare) :
    file_share_equal e k = 0 ↔ e.key ≠ k.key := by
  unfold file_share_equal FileShare.key
  rw [ne_eq, Prod.mk.injEq]
  split <;> simp_all

theorem keyRecord_key (p : Nat × Nat) : (keyRecord p).key = p := rfl

theorem deref_eq (t : GHashTable) (p : Nat × Nat) :
    deref t p = t.find? (fun e => decide (e.key = p)) := by
  unfold deref g_hash_table_lookup
  congr 1
  funext e
  simp only [file_share_equal_ne_zero, keyRecord_key]

theorem store_eq (t : GHashTable) (p : Nat × Nat) (n : Nat) :
    store_handle_refs t p n
      = t.map (fun e => if e.key = p then { e with handle_refs := n } else e) := by
  unfold store_handle_refs
  congr 1
  funext e
  simp only [file_share_equal_ne_zero, keyRecord_key]

theorem remove_eq (t : GHashTable) (p : Nat × Nat) :
    g_hash_table_remove t (keyRecord p) = t.filter (fun e => decide (e.key ≠ p)) := by
  unfold g_hash_table_remove
  congr 1
  funext e
  simp only [file_share_equal_eq_zero, keyRecord_key]

theorem deref_nil (p : Nat × Nat) : deref [] p = none := by
  rw [deref_eq]; rfl

theorem deref_cons (e : FileShare) (t : GHashTable) (p : Nat × Nat) :
    deref (e :: t) p = if e.key = p then some e else deref t p := by
  rw [deref_eq, deref_eq, List.find?_cons]
  by_cases h : e.key = p <;> simp [h]

theorem deref_some_key {t : GHashTable} {p : Nat × Nat} {e : FileShare}
    (h : deref t p = some e) : e.key = p := by
  rw [deref_eq] at h
  have := List.find?_some h
  simpa using this

theorem deref_some_mem {t : GHashTable} {p : Nat × Nat} {e : FileShare}
    (h : deref t p = some e) : e ∈ t := by
  rw [deref_eq] at h
  exact List.mem_of_find?_eq_some h

theorem deref_none_iff (t : GHashTable) (p : Nat × Nat) :
    deref t p = none ↔ ∀ e ∈ t, e.key ≠ p := by
  rw [deref_eq, List.find?_eq_none]
  simp

theorem key_set_refs (e : FileShare) (n : Nat) :
    ({ e with handle_refs := n } : FileShare).key = e.key := rfl

theorem deref_map_of_key (f : FileShare → FileShare) (hf : ∀ e, (f e).key = e.key)
    (t : GHashTable) (q : Nat × Nat) : deref (t.map f) q = (deref t q).map f := by
  induction t with
  | nil => simp [deref_nil]
  | cons e t ih =>
    rw [List.map_cons, deref_cons, deref_cons, ih, hf]
    split <;> simp

theorem deref_store (t : GHashTable) (p q : Nat × Nat) (n : Nat) :
    deref (store_handle_refs t p n) q
      = if q = p then (deref t p).map (fun e => { e with handle_refs := n }) else deref t q := by
  rw [store_eq, deref_map_of_key]
  · cases h : deref t q with
    | none =>
      by_cases hq : q = p
      · subst hq; simp [h]
      · simp [hq]
    | some e =>
      have hk := deref_some_key h
      by_cases hq : q = p
      · subst hq; simp [h, hk]
      · have : e.key ≠ p := fun h1 => hq (hk.symm.trans h1)
        simp [hq, this]
  · intro e
    split <;> rfl

theorem deref_remove (t : GHashTable) (p q : Nat × Nat) :
    deref (g_hash_table_remove t (keyRecord p)) q = if q = p then none else deref t q := by
  rw [remove_eq]
  induction t with
  | nil => simp [deref_nil]
  | cons e t ih =>
    rw [List.filter_cons]
    by_cases he : e.key = p
    · simp only [he, ne_eq, not_true_eq_false, decide_False, Bool.false_eq_true, if_false]
      rw [ih, deref_cons]
      by_cases hq : q = p
      · simp [hq]
      · have : e.key ≠ q := fun h1 => hq (h1.symm.trans he)
        simp [hq, this]
    · simp only [he, ne_eq, not_false_eq_true, decide_True, if_true]
      rw [deref_cons, deref_cons, ih]
      by_cases hq : q = p
      · subst hq; simp [he]
      · simp [hq]

theorem store_of_absent {t : GHashTable} {p : Nat × Nat} (h : deref t p = none) (n : Nat) :
    store_handle_refs t p n = t := by
  rw [store_eq]
  rw [deref_none_iff] at h
  conv_rhs => rw [← List.map_id t]
  apply List.map_congr_left
  intro e he
  simp [h e he]

theorem remove_of_absent {t : GHashTable} {p : Nat × Nat} (h : deref t p = none) :
    g_hash_table_remove t (keyRecord p) = t := by
  rw [remove_eq, List.filter_eq_self]
  rw [deref_none_iff] at h
  intro e he
  simp [h e he]

theorem store_store (t : GHashTable) (p : Nat × Nat) (n m : Nat) :
    store_handle_refs (store_handle_refs t p n) p m = store_handle_refs t p m := by
  rw [store_eq, store_eq, store_eq, List.map_map]
  apply List.map_congr_left
  intro e _
  by_cases he : e.key = p
  · simp [he, FileShare.key] at *
    simp [he]
  · simp [he]

theorem mem_unique_of_nodup {t : GHashTable} (hn : (t.map FileShare.key).Nodup)
    {p : Nat × Nat} {e e1 : FileShare} (h : deref t p = some e) (h1 : e1 ∈ t)
    (hk : e1.key = p) : e1 = e := by
  induction t with
  | nil => cases h1
  | cons a t ih =>
    rw [List.map_cons, List.nodup_cons] at hn
    rw [deref_cons] at h
    by_cases ha : a.key = p
    · rw [if_pos ha] at h
      cases h
      rcases List.mem_cons.mp h1 with rfl | h2
      · rfl
      · exact absurd (List.mem_map.mpr ⟨e1, h2, hk.trans ha.symm⟩) hn.1
    · rw [if_neg ha] at h
      rcases List.mem_cons.mp h1 with rfl | h2
      · exact absurd hk ha
      · exact ih hn.2 h h2

theorem store_same {t : GHashTable} (hn : (t.map FileShare.key).Nodup)
    {p : Nat × Nat} {e : FileShare} (h : deref t p = some e) :
    store_handle_refs t p e.handle_refs = t := by
  rw [store_eq]
  conv_rhs => rw [← List.map_id t]
  apply List.map_congr_left
  intro e1 h1
  by_cases hk : e1.key = p
  · have := mem_unique_of_nodup hn h h1 hk
    subst this
    simp [hk]
  · simp [hk]

theorem lookup_eq_deref (t : GHashTable) (k : FileShare) :
    g_hash_table_lookup t k = deref t k.key := by
  rw [deref_eq]
  unfold g_hash_table_lookup
  congr 1
  funext e
  simp only [file_share_equal_ne_zero]

theorem file_share_get_absent {t : GHashTable} {d i : Nat} (s a : Nat)
    (h : deref t (d, i) = none) :
    file_share_get t d i s a
      = some { exists_ := false, old_sharemode := none, old_access := none, share_info := (d, i),
               table := newFileShare d i s a :: t } := by
  have h1 : g_hash_table_lookup t (keyRecord (d, i)) = none := h
  have h2 : g_hash_table_lookup t (newFileShare d i s a) = none := by
    rw [lookup_eq_deref]; exact h
  simp only [file_share_get, h1, g_hash_table_insert, h2]
  rfl

theorem file_share_get_present {t : GHashTable} {d i : Nat} {e : FileShare} (s a : Nat)
    (h : deref t (d, i) = some e) (hr : 0 < e.handle_refs) :
    file_share_get t d i s a
      = some { exists_ := true, old_sharemode := some e.sharemode, old_access := some e.access,
               share_info := (d, i),
               table := store_handle_refs t (d, i) ((e.handle_refs + 1) % UINT32_MOD) } := by
  have h1 : g_hash_table_lookup t (keyRecord (d, i)) = some e := h
  have hk := deref_some_key h
  simp only [file_share_get, h1, hr, if_true, hk]

theorem file_share_release_eq {t : GHashTable} {p : Nat × Nat} {e : FileShare}
    (h : deref t p = some e) (hr : 0 < e.handle_refs) :
    file_share_release t p
      = some (if e.handle_refs - 1 = 0 then
          g_hash_table_remove (store_handle_refs t p (e.handle_refs - 1)) (keyRecord p)
        else store_handle_refs t p (e.handle_refs - 1)) := by
  simp only [file_share_release, h, hr, if_true]
  split <;> rfl

/-- Releasing the reference that `file_share_get` has just added to a record gives
the table back. -/
theorem release_after_get_present {t : GHashTable} (hn : (t.map FileShare.key).Nodup)
    {p : Nat × Nat} {e : FileShare} (h : deref t p = some e) (hr : 0 < e.handle_refs)
    (hb : e.handle_refs < 4294967295) :
    file_share_release (store_handle_refs t p ((e.handle_refs + 1) % UINT32_MOD)) p = some t := by
  have hm : (e.handle_refs + 1) % UINT32_MOD = e.handle_refs + 1 := by
    apply Nat.mod_eq_of_lt; unfold UINT32_MOD; omega
  rw [hm]
  have hd : deref (store_handle_refs t p (e.handle_refs + 1)) p
      = some { e with handle_refs := e.handle_refs + 1 } := by
    rw [deref_store, if_pos rfl, h]; rfl
  rw [file_share_release_eq hd (by simp)]
  have h0 : ¬ (e.handle_refs + 1 - 1 = 0) := by omega
  simp only [Nat.add_sub_cancel, store_store]
  rw [if_neg (by omega), store_same hn h]

/-- Releasing the reference of a record that `file_share_get` has just created
gives the table back. -/
theorem release_after_get_absent {t : GHashTable} {d i : Nat} (s a : Nat)
    (h : deref t (d, i) = none) :
    file_share_release (newFileShare d i s a :: t) (d, i) = some t := by
  have hk : (newFileShare d i s a).key = (d, i) := rfl
  have hr : (newFileShare d i s a).handle_refs = 1 := rfl
  have hd : deref (newFileShare d i s a :: t) (d, i) = some (newFileShare d i s a) := by
    rw [deref_cons, if_pos hk]
  rw [file_share_release_eq hd (by rw [hr]; decide), hr]
  simp only [Nat.sub_self, if_true]
  rw [store_eq, remove_eq, List.map_cons, if_pos hk, List.filter_cons]
  have hk2 : ({ newFileShare d i s a with handle_refs := 0 } : FileShare).key = (d, i) := rfl
  simp only [hk2, ne_eq, not_true_eq_false, decide_False, Bool.false_eq_true, if_false]
  rw [← store_eq, store_of_absent h]
  have := remove_of_absent h
  rw [remove_eq] at this
  exact congrArg some this

theorem refsOf_of_some {t : GHashTable} {k : Nat × Nat} {e : FileShare}
    (h : deref t k = some e) : refsOf t k = e.handle_refs := by
  simp only [refsOf, h]

theorem refsOf_of_none {t : GHashTable} {k : Nat × Nat}
    (h : deref t k = none) : refsOf t k = 0 := by
  simp only [refsOf, h]

theorem store_keys (t : GHashTable) (p : Nat × Nat) (n : Nat) :
    (store_handle_refs t p n).map FileShare.key = t.map FileShare.key := by
  rw [store_eq, List.map_map]
  apply List.map_congr_left
  intro e _
  simp only [Function.comp]
  split <;> rfl

theorem mem_store {t : GHashTable} {p : Nat × Nat} {n : Nat} {x : FileShare}
    (h : x ∈ store_handle_refs t p n) :
    ∃ e ∈ t, (e.key = p ∧ x = { e with handle_refs := n }) ∨ (e.key ≠ p ∧ x = e) := by
  rw [store_eq, List.mem_map] at h
  obtain ⟨e, he, hx⟩ := h
  refine ⟨e, he, ?_⟩
  by_cases hk : e.key = p
  · left; rw [if_pos hk] at hx; exact ⟨hk, hx.symm⟩
  · right; rw [if_neg hk] at hx; exact ⟨hk, hx.symm⟩

/-- A call of `file_share_get` on a share-table state with room in the counter:
it succeeds, keeps the state well formed, counts one reference more for the
identity and as many as before for the others, and releasing that reference gives
the table back. -/
theorem file_share_get_step {t : GHashTable} (ok : TableOk t) (d i s a : Nat)
    (hb : refsOf t (d, i) < 4294967295) :
    ∃ r, file_share_get t d i s a = some r ∧ r.share_info = (d, i) ∧ TableOk r.table
      ∧ refsOf r.table (d, i) = refsOf t (d, i) + 1
      ∧ (∀ q, q ≠ (d, i) → refsOf r.table q = refsOf t q)
      ∧ file_share_release r.table (d, i) = some t := by
  cases h : deref t (d, i) with
  | none =>
    refine ⟨_, file_share_get_absent s a h, rfl, ⟨?_, ?_⟩, ?_, ?_, ?_⟩
    · rw [List.map_cons, List.nodup_cons]
      refine ⟨?_, ok.1⟩
      intro hm
      obtain ⟨e, he, hk⟩ := List.mem_map.mp hm
      exact (deref_none_iff t (d, i)).mp h e he hk
    · intro e he
      rcases List.mem_cons.mp he with rfl | h2
      · exact Nat.one_pos
      · exact ok.2 e h2
    · have hd : deref (newFileShare d i s a :: t) (d, i) = some (newFileShare d i s a) := by
        rw [deref_cons, if_pos (show (newFileShare d i s a).key = (d, i) from rfl)]
      rw [refsOf_of_some hd, refsOf_of_none h]; rfl
    · intro q hq
      have hd : deref (newFileShare d i s a :: t) q = deref t q := by
        rw [deref_cons, if_neg]; exact fun hk => hq hk.symm
      simp only [refsOf, hd]
    · exact release_after_get_absent s a h
  | some e =>
    have hr : 0 < e.handle_refs := ok.2 e (deref_some_mem h)
    rw [refsOf_of_some h] at hb
    have hm : (e.handle_refs + 1) % UINT32_MOD = e.handle_refs + 1 := by
      apply Nat.mod_eq_of_lt; unfold UINT32_MOD; omega
    refine ⟨_, file_share_get_present s a h hr, rfl, ⟨?_, ?_⟩, ?_, ?_, ?_⟩
    · simp only [store_keys]; exact ok.1
    · intro x hx
      obtain ⟨e1, he1, hc⟩ := mem_store hx
      rcases hc with ⟨_, rfl⟩ | ⟨_, rfl⟩
      · simp only [hm]; omega
      · exact ok.2 _ he1
    · simp only [refsOf, deref_store, if_true, h, Option.map_some', hm]
    · intro q hq
      simp only [refsOf, deref_store, if_neg hq]
    · exact release_after_get_present ok.1 h hr hb

/-- A call of `file_share_release` on a held reference of a share-table state: it
succeeds, keeps the state well formed and counts one reference fewer. -/
theorem file_share_release_step {t : GHashTable} (ok : TableOk t) (p : Nat × Nat)
    (hp : 0 < refsOf t p) :
    ∃ t1, file_share_release t p = some t1 ∧ TableOk t1
      ∧ refsOf t1 p = refsOf t p - 1 ∧ ∀ q, q ≠ p → refsOf t1 q = refsOf t q := by
  cases h : deref t p with
  | none => rw [refsOf_of_none h] at hp; exact absurd hp (Nat.lt_irrefl 0)
  | some e =>
    have hr : 0 < e.handle_refs := ok.2 e (deref_some_mem h)
    refine ⟨_, file_share_release_eq h hr, ?_, ?_, ?_⟩
    · by_cases h1 : e.handle_refs - 1 = 0
      · rw [if_pos h1]
        constructor
        · rw [remove_eq]
          exact List.Nodup.sublist (List.Sublist.map _ (List.filter_sublist _))
            (by rw [store_keys]; exact ok.1)
        · intro x hx
          rw [remove_eq, List.mem_filter] at hx
          obtain ⟨e1, he1, hc⟩ := mem_store hx.1
          rcases hc with ⟨hk, rfl⟩ | ⟨_, rfl⟩
          · have := hx.2
            simp [FileShare.key] at this
            exact absurd hk (by simpa [FileShare.key] using this)
          · exact ok.2 _ he1
      · rw [if_neg h1]
        constructor
        · rw [store_keys]; exact ok.1
        · intro x hx
          obtain ⟨e1, he1, hc⟩ := mem_store hx
          rcases hc with ⟨_, rfl⟩ | ⟨_, rfl⟩
          · exact Nat.pos_of_ne_zero h1
          · exact ok.2 _ he1
    · rw [refsOf_of_some h]
      by_cases h1 : e.handle_refs - 1 = 0
      · rw [if_pos h1, refsOf_of_none (by rw [deref_remove, if_pos rfl]), h1]
      · rw [if_neg h1]
        simp only [refsOf, deref_store, if_true, h, Option.map_some']
    · intro q hq
      by_cases h1 : e.handle_refs - 1 = 0
      · rw [if_pos h1]
        simp only [refsOf, deref_remove, if_neg hq, deref_store]
      · rw [if_neg h1]
        simp only [refsOf, deref_store, if_neg hq]

theorem deref_isSome_iff_refsOf {t : GHashTable} (ok : TableOk t) (k : Nat × Nat) :
    (deref t k).isSome ↔ 0 < refsOf t k := by
  cases h : deref t k with
  | none => simp [refsOf_of_none h]
  | some e => simp [refsOf_of_some h, ok.2 e (deref_some_mem h)]

theorem releaseN_succ_last (p : Nat × Nat) (n : Nat) (t : GHashTable) :
    releaseN p (n + 1) t = (releaseN p n t).bind (fun x => file_share_release x p) := by
  induction n generalizing t with
  | zero =>
    simp only [releaseN, Option.some_bind]
    cases file_share_release t p <;> rfl
  | succ n ih =>
    rw [releaseN, releaseN]
    cases h : file_share_release t p with
    | none => rfl
    | some t1 =>
      simp only [Option.some_bind]
      rw [← ih t1]

/-- After `n + 1` calls of `file_share_get` for one identity, starting from the empty
table, the only record holds the count modulo 2^32. -/
theorem reachable_after_gets (n : Nat) (hn : n ≤ 4294967295) :
    Reachable [⟨0, 0, 0, 0, (n + 1) % UINT32_MOD, 0⟩]
      (Function.update (fun _ => 0) (0, 0) (n + 1)) := by
  induction n with
  | zero =>
    exact Reachable.get 0 0 0 0 Reachable.empty (file_share_get_absent 0 0 (deref_nil (0, 0)))
  | succ n ih =>
    have h1 := ih (by omega)
    have hm : (n + 1) % UINT32_MOD = n + 1 := by
      apply Nat.mod_eq_of_lt; unfold UINT32_MOD; omega
    rw [hm] at h1
    have hd : deref [(⟨0, 0, 0, 0, n + 1, 0⟩ : FileShare)] (0, 0) = some ⟨0, 0, 0, 0, n + 1, 0⟩ := by
      rw [deref_cons, if_pos (show (⟨0, 0, 0, 0, n + 1, 0⟩ : FileShare).key = (0, 0) from rfl)]
    have h2 := Reachable.get 0 0 0 0 h1 (file_share_get_present 0 0 hd (Nat.succ_pos n))
    simp only [Function.update_same, Function.update_idem] at h2
    have h3 : store_handle_refs [(⟨0, 0, 0, 0, n + 1, 0⟩ : FileShare)] (0, 0)
        ((n + 1 + 1) % UINT32_MOD) = [⟨0, 0, 0, 0, (n + 1 + 1) % UINT32_MOD, 0⟩] := by
      rw [store_eq, List.map_cons, List.map_nil,
        if_pos (show (⟨0, 0, 0, 0, n + 1, 0⟩ : FileShare).key = (0, 0) from rfl)]
    rw [h3] at h2
    exact h2

theorem releaseAndRefuse_present {t : GHashTable} (hn : (t.map FileShare.key).Nodup)
    {p : Nat × Nat} {e : FileShare} (h : deref t p = some e) (hr : 0 < e.handle_refs)
    (hb : e.handle_refs < 4294967295) (x : Bool) (S A : Option Nat) :
    releaseAndRefuse
        { exists_ := x, old_sharemode := S, old_access := A, share_info := p,
          table := store_handle_refs t p ((e.handle_refs + 1) % UINT32_MOD) }
      = some { ret := false, share_info := p, table := t } := by
  simp only [releaseAndRefuse, release_after_get_present hn h hr hb]

theorem share_allows_open_absent {t : GHashTable} {d i : Nat} (s a : Nat)
    (h : deref t (d, i) = none) :
    share_allows_open t d i s a
      = some { ret := true, share_info := (d, i), table := newFileShare d i s a :: t } := by
  simp only [share_allows_open, file_share_get_absent s a h]
  rfl

theorem share_allows_open_present {t : GHashTable} {d i : Nat} {e : FileShare} (s a : Nat)
    (h : deref t (d, i) = some e) (hr : 0 < e.handle_refs) :
    share_allows_open t d i s a
      = if e.sharemode = 0 ∨
            ((e.sharemode = FILE_SHARE_READ ∧ a ≠ GENERIC_READ) ∨
              (e.sharemode = FILE_SHARE_WRITE ∧ a ≠ GENERIC_WRITE)) ∨
            ((e.access &&& GENERIC_READ ≠ 0 ∧ s &&& FILE_SHARE_READ = 0) ∨
              (e.access &&& GENERIC_WRITE ≠ 0 ∧ s &&& FILE_SHARE_WRITE = 0)) then
          releaseAndRefuse
            { exists_ := true, old_sharemode := some e.sharemode,
              old_access := some e.access, share_info := (d, i),
              table := store_handle_refs t (d, i) ((e.handle_refs + 1) % UINT32_MOD) }
        else some { ret := true, share_info := (d, i),
                    table := store_handle_refs t (d, i) ((e.handle_refs + 1) % UINT32_MOD) } := by
  simp only [share_allows_open, file_share_get_present s a h hr, if_true]
  by_cases h1 : e.sharemode = 0
  · simp only [h1, true_or, if_true]
  · by_cases h2 : (e.sharemode = FILE_SHARE_READ ∧ a ≠ GENERIC_READ) ∨
        (e.sharemode = FILE_SHARE_WRITE ∧ a ≠ GENERIC_WRITE)
    · simp only [h1, h2, if_false, if_true, true_or, or_true]
    · by_cases h3 : (e.access &&& GENERIC_READ ≠ 0 ∧ s &&& FILE_SHARE_READ = 0) ∨
          (e.access &&& GENERIC_WRITE ≠ 0 ∧ s &&& FILE_SHARE_WRITE = 0)
      · simp only [h1, h2, h3, if_false, if_true, or_true]
      · simp only [h1, h2, h3, if_false, or_self]

theorem share_allows_delete_absent {t : GHashTable} {d i : Nat}
    (h : deref t (d, i) = none) :
    share_allows_delete t d i
      = some { ret := true, share_info := (d, i),
               table := newFileShare d i FILE_SHARE_DELETE GENERIC_READ :: t } := by
  simp only [share_allows_delete, file_share_get_absent _ _ h]
  rfl

theorem share_allows_delete_present {t : GHashTable} {d i : Nat} {e : FileShare}
    (h : deref t (d, i) = some e) (hr : 0 < e.handle_refs) :
    share_allows_delete t d i
      = if e.sharemode &&& FILE_SHARE_DELETE = 0 then
          releaseAndRefuse
            { exists_ := true, old_sharemode := some e.sharemode,
              old_access := some e.access, share_info := (d, i),
              table := store_handle_refs t (d, i) ((e.handle_refs + 1) % UINT32_MOD) }
        else some { ret := true, share_info := (d, i),
                    table := store_handle_refs t (d, i) ((e.handle_refs + 1) % UINT32_MOD) } := by
  simp only [share_allows_delete, file_share_get_present _ _ h hr, if_true]
  by_cases h1 : e.sharemode = 0
  · have : 0 &&& FILE_SHARE_DELETE = 0 := Nat.zero_and _
    simp only [h1, this, if_true]
  · simp only [h1, if_false]

/-! ## The share table: `file_share_get` and `file_share_release` -/

/-- C1: `file_share_get` on an identity without a record returns FALSE, puts exactly
one new record in front of the table, holding the requested share mode and access
and one reference, returns it as `share_info`, and changes no other record. -/
theorem file_share_get_creates_entry (t : GHashTable) (d i s a : Nat)
    (h : deref t (d, i) = none) :
    file_share_get t d i s a
        = some { exists_ := false, old_sharemode := none, old_access := none,
                 share_info := (d, i), table := newFileShare d i s a :: t }
      ∧ deref (newFileShare d i s a :: t) (d, i)
        = some { device := d, inode := i, sharemode := s, access := a, handle_refs := 1,
                 timestamp := 0 }
      ∧ ∀ q, q ≠ (d, i) → deref (newFileShare d i s a :: t) q = deref t q := by
  refine ⟨file_share_get_absent s a h, ?_, ?_⟩
  · rw [deref_cons, if_pos (show (newFileShare d i s a).key = (d, i) from rfl)]; rfl
  · intro q hq
    rw [deref_cons, if_neg]
    exact fun hk => hq hk.symm

theorem file_share_get_creates_entry_witness :
    deref [⟨7, 8, 3, 0, 2, 0⟩] (1, 2) = none
      ∧ file_share_get [⟨7, 8, 3, 0, 2, 0⟩] 1 2 0 GENERIC_READ
        = some { exists_ := false, old_sharemode := none, old_access := none,
                 share_info := (1, 2),
                 table := [⟨1, 2, 0, GENERIC_READ, 1, 0⟩, ⟨7, 8, 3, 0, 2, 0⟩] } :=
  ⟨by decide, (file_share_get_creates_entry [⟨7, 8, 3, 0, 2, 0⟩] 1 2 0 GENERIC_READ
    (by decide)).1⟩

/-- C2, as the code has it: `file_share_get` on an identity whose record counts at
least one and fewer than 2^32 - 1 references returns TRUE, hands out the stored share
mode and access, adds exactly one to `handle_refs`, and changes nothing else in that
record nor any other record, whatever share mode and access are requested. -/
theorem file_share_get_existing_entry (t : GHashTable) (d i s a : Nat) (e : FileShare)
    (h : deref t (d, i) = some e) (hr : 0 < e.handle_refs) (hb : e.handle_refs < 4294967295) :
    ∃ r, file_share_get t d i s a = some r ∧ r.exists_ = true
      ∧ r.old_sharemode = some e.sharemode ∧ r.old_access = some e.access
      ∧ r.share_info = (d, i)
      ∧ deref r.table (d, i) = some { e with handle_refs := e.handle_refs + 1 }
      ∧ ∀ q, q ≠ (d, i) → deref r.table q = deref t q := by
  refine ⟨_, file_share_get_present s a h hr, rfl, rfl, rfl, rfl, ?_, ?_⟩
  · have hm : (e.handle_refs + 1) % UINT32_MOD = e.handle_refs + 1 := by
      apply Nat.mod_eq_of_lt; unfold UINT32_MOD; omega
    simp only [hm, deref_store, if_true, h, Option.map_some']
  · intro q hq
    simp only [deref_store, if_neg hq]

theorem file_share_get_existing_entry_witness :
    ∃ r, file_share_get [⟨1, 2, 3, GENERIC_READ, 1, 0⟩] 1 2 0 GENERIC_WRITE = some r
      ∧ r.exists_ = true
      ∧ r.old_sharemode = some 3 ∧ r.old_access = some GENERIC_READ
      ∧ r.share_info = (1, 2)
      ∧ deref r.table (1, 2) = some ⟨1, 2, 3, GENERIC_READ, 2, 0⟩
      ∧ ∀ q, q ≠ (1, 2) → deref r.table q = deref [⟨1, 2, 3, GENERIC_READ, 1, 0⟩] q :=
  file_share_get_existing_entry [⟨1, 2, 3, GENERIC_READ, 1, 0⟩] 1 2 0 GENERIC_WRITE
    ⟨1, 2, 3, GENERIC_READ, 1, 0⟩ (by decide) (by decide) (by decide)

/-- C2, as stated, fails where the 32-bit counter is full: on a record with
`handle_refs = 4294967295` the call returns TRUE and leaves `handle_refs = 0`. -/
theorem file_share_get_counter_wraps :
    file_share_get [⟨1, 2, 3, 0, 4294967295, 0⟩] 1 2 0 0
      = some { exists_ := true, old_sharemode := some 3, old_access := some 0,
               share_info := (1, 2), table := [⟨1, 2, 3, 0, 0, 0⟩] } := by
  decide

/-- C3: `file_share_release` on a record with `handle_refs = k > 0` keeps the record
with `k - 1` references and the same share mode and access when `k > 1`, removes it
when `k = 1` so that a later lookup finds nothing, and changes no other record. -/
theorem file_share_release_entry (t : GHashTable) (p : Nat × Nat) (e : FileShare)
    (h : deref t p = some e) (hr : 0 < e.handle_refs) :
    ∃ t1, file_share_release t p = some t1
      ∧ (1 < e.handle_refs → deref t1 p = some { e with handle_refs := e.handle_refs - 1 })
      ∧ (e.handle_refs = 1 → deref t1 p = none)
      ∧ ∀ q, q ≠ p → deref t1 q = deref t q := by
  refine ⟨_, file_share_release_eq h hr, ?_, ?_, ?_⟩
  · intro h1
    rw [if_neg (by omega), deref_store, if_pos rfl, h]
    rfl
  · intro h1
    rw [if_pos (by omega), deref_remove, if_pos rfl]
  · intro q hq
    split
    · rw [deref_remove, if_neg hq, deref_store, if_neg hq]
    · rw [deref_store, if_neg hq]

theorem file_share_release_entry_witness :
    ∃ t1, file_share_release [⟨1, 2, 3, 0, 1, 0⟩, ⟨7, 8, 1, 0, 5, 0⟩] (1, 2) = some t1
      ∧ (1 < 1 → deref t1 (1, 2) = some ⟨1, 2, 3, 0, 0, 0⟩)
      ∧ (1 = 1 → deref t1 (1, 2) = none)
      ∧ ∀ q, q ≠ (1, 2) → deref t1 q = deref [⟨1, 2, 3, 0, 1, 0⟩, ⟨7, 8, 1, 0, 5, 0⟩] q :=
  file_share_release_entry [⟨1, 2, 3, 0, 1, 0⟩, ⟨7, 8, 1, 0, 5, 0⟩] (1, 2) ⟨1, 2, 3, 0, 1, 0⟩
    (by decide) (by decide)

/-- C4, as the code has it: in every table reached from the empty one by calls of
`file_share_get`, each made while fewer than 2^32 - 1 references to the identity are
outstanding, and by calls of `file_share_release` on held references, every record
has `handle_refs > 0`, no identity has two records, `handle_refs` is the number of
outstanding references, an identity has a record exactly when that number is
positive, and neither function fails its assertion. -/
theorem reachable_table_invariant (t : GHashTable) (c : Nat × Nat → Nat)
    (h : ReachableBelow t c) :
    (∀ e ∈ t, 0 < e.handle_refs) ∧ (t.map FileShare.key).Nodup
      ∧ (∀ k, refsOf t k = c k)
      ∧ (∀ k, (deref t k).isSome ↔ 0 < c k)
      ∧ (∀ d i s a, (file_share_get t d i s a).isSome)
      ∧ (∀ p, 0 < c p → (file_share_release t p).isSome) := by
  have inv : TableOk t ∧ ∀ k, refsOf t k = c k := by
    induction h with
    | empty => exact ⟨⟨List.nodup_nil, fun e he => nomatch he⟩, fun k => rfl⟩
    | @get t c d i s a r _ hb hg ih =>
      obtain ⟨ok, hc⟩ := ih
      obtain ⟨r1, h1, _, ok1, hs, ho, _⟩ :=
        file_share_get_step ok d i s a (by rw [hc]; exact hb)
      have : r = r1 := Option.some.inj (hg.symm.trans h1)
      subst this
      refine ⟨ok1, fun k => ?_⟩
      by_cases hk : k = (d, i)
      · subst hk; rw [hs, hc, Function.update_same]
      · rw [ho k hk, hc, Function.update_noteq hk]
    | @release t c p t1 _ hp hrel ih =>
      obtain ⟨ok, hc⟩ := ih
      obtain ⟨t2, h2, ok2, hs, ho⟩ := file_share_release_step ok p (by rw [hc]; exact hp)
      have : t1 = t2 := Option.some.inj (hrel.symm.trans h2)
      subst this
      refine ⟨ok2, fun k => ?_⟩
      by_cases hk : k = p
      · subst hk; rw [hs, hc, Function.update_same]
      · rw [ho k hk, hc, Function.update_noteq hk]
  obtain ⟨ok, hc⟩ := inv
  refine ⟨ok.2, ok.1, hc, fun k => ?_, fun d i s a => ?_, fun p hp => ?_⟩
  · rw [deref_isSome_iff_refsOf ok, hc]
  · cases h1 : deref t (d, i) with
    | none => rw [file_share_get_absent s a h1]; rfl
    | some e => rw [file_share_get_present s a h1 (ok.2 e (deref_some_mem h1))]; rfl
  · obtain ⟨t2, h2, _⟩ := file_share_release_step ok p (by rw [hc]; exact hp)
    rw [h2]; rfl

theorem reachable_table_invariant_witness :
    (∀ e ∈ [newFileShare 1 2 3 0], 0 < e.handle_refs)
      ∧ ([newFileShare 1 2 3 0].map FileShare.key).Nodup
      ∧ (∀ k, refsOf [newFileShare 1 2 3 0] k
          = Function.update (fun _ => 0) ((1 : Nat), (2 : Nat)) ((fun _ => 0) (1, 2) + 1) k)
      ∧ (∀ k, (deref [newFileShare 1 2 3 0] k).isSome
          ↔ 0 < Function.update (fun _ => 0) ((1 : Nat), (2 : Nat)) ((fun _ => 0) (1, 2) + 1) k)
      ∧ (∀ d i s a, (file_share_get [newFileShare 1 2 3 0] d i s a).isSome)
      ∧ (∀ p, 0 < Function.update (fun _ => 0) ((1 : Nat), (2 : Nat)) ((fun _ => 0) (1, 2) + 1) p →
          (file_share_release [newFileShare 1 2 3 0] p).isSome) :=
  reachable_table_invariant _ _
    (ReachableBelow.get 1 2 3 0 ReachableBelow.empty (by decide)
      (file_share_get_absent 3 0 (deref_nil (1, 2))))

/-- C4, as stated, fails after 2^32 calls of `file_share_get` for one identity: the
table reached holds a record with `handle_refs = 0`. -/
theorem reachable_table_with_zero_refs :
    ¬ ∀ t c, Reachable t c → ∀ e ∈ t, 0 < e.handle_refs := by
  intro h
  have h1 := reachable_after_gets 4294967295 (Nat.le_refl _)
  have h2 := h _ _ h1 _ (List.mem_singleton.mpr rfl)
  exact absurd h2 (by decide)

/-- C5, as the code has it: on a share-table state, `n` calls of `file_share_get`
for an identity that counts at most 2^32 - 1 - n references, followed by `n` calls
of `file_share_release` on the record they returned, give back the same table. -/
theorem gets_then_releases_restore (n : Nat) (t : GHashTable) (d i s a : Nat)
    (ok : TableOk t) (hb : refsOf t (d, i) + n ≤ 4294967295) :
    (getN d i s a n t).bind (fun t1 => releaseN (d, i) n t1) = some t := by
  induction n generalizing t with
  | zero => rfl
  | succ n ih =>
    obtain ⟨r, hg, _, ok1, hs, _, hrel⟩ := file_share_get_step ok d i s a (by omega)
    have h1 := ih r.table ok1 (by rw [hs]; omega)
    rw [getN, hg, Option.some_bind]
    have h2 : (fun t1 => releaseN (d, i) (n + 1) t1)
        = fun t1 => (releaseN (d, i) n t1).bind (fun x => file_share_release x (d, i)) := by
      funext t1; exact releaseN_succ_last (d, i) n t1
    rw [h2, ← Option.bind_assoc, h1, Option.some_bind, hrel]

theorem gets_then_releases_restore_witness :
    (getN 1 2 0 GENERIC_READ 3 [⟨1, 2, 3, 0, 5, 0⟩, ⟨7, 8, 1, 0, 1, 0⟩]).bind
        (fun t1 => releaseN (1, 2) 3 t1)
      = some [⟨1, 2, 3, 0, 5, 0⟩, ⟨7, 8, 1, 0, 1, 0⟩] :=
  gets_then_releases_restore 3 [⟨1, 2, 3, 0, 5, 0⟩, ⟨7, 8, 1, 0, 1, 0⟩] 1 2 0 GENERIC_READ
    ⟨by decide, by decide⟩ (by decide)

/-- C5, as stated, fails where the 32-bit counter is full: one `file_share_get` on a
record with `handle_refs = 4294967295` leaves 0 references, and the
`file_share_release` that follows fails its assertion. -/
theorem get_then_release_on_full_counter :
    (getN 1 2 0 0 1 [⟨1, 2, 3, 0, 4294967295, 0⟩]).bind (fun t1 => releaseN (1, 2) 1 t1)
      = none := by
  decide

/-! ## The share checks: `share_allows_open` and `share_allows_delete` -/

/-- C6, as stated, fails: with a record of share mode READ|WRITE and access
`GENERIC_ALL`, an open that requests share mode NONE is allowed. -/
theorem share_none_open_is_allowed :
    share_allows_open [⟨1, 2, 3, GENERIC_ALL, 1, 0⟩] 1 2 0 GENERIC_READ
      = some { ret := true, share_info := (1, 2), table := [⟨1, 2, 3, GENERIC_ALL, 2, 0⟩] } := by
  decide

/-- C6, as the code has it: on a share-table state whose record for the identity
counts fewer than 2^32 - 1 references, an open that requests share mode NONE is
refused, with the table unchanged and `mono_w32file_create` failing with
`ERROR_SHARING_VIOLATION`, when the stored share mode is NONE, or is exactly
`FILE_SHARE_READ` and the access asked is not `GENERIC_READ`, or is exactly
`FILE_SHARE_WRITE` and the access asked is not `GENERIC_WRITE`, or the stored access
has `GENERIC_READ` or `GENERIC_WRITE`; in every other case it is allowed. -/
theorem share_none_open_decision (t : GHashTable) (d i a : Nat) (e : FileShare)
    (ok : TableOk t) (h : deref t (d, i) = some e) (hb : e.handle_refs < 4294967295) :
    ((e.sharemode = 0 ∨ (e.sharemode = FILE_SHARE_READ ∧ a ≠ GENERIC_READ)
        ∨ (e.sharemode = FILE_SHARE_WRITE ∧ a ≠ GENERIC_WRITE)
        ∨ e.access &&& GENERIC_READ ≠ 0 ∨ e.access &&& GENERIC_WRITE ≠ 0) →
      share_allows_open t d i 0 a = some { ret := false, share_info := (d, i), table := t }
        ∧ mono_w32file_create_share t d i 0 a
          = some { invalid_handle := true, last_error := some ERROR_SHARING_VIOLATION,
                   share_info := (d, i), table := t })
    ∧ (¬ (e.sharemode = 0 ∨ (e.sharemode = FILE_SHARE_READ ∧ a ≠ GENERIC_READ)
        ∨ (e.sharemode = FILE_SHARE_WRITE ∧ a ≠ GENERIC_WRITE)
        ∨ e.access &&& GENERIC_READ ≠ 0 ∨ e.access &&& GENERIC_WRITE ≠ 0) →
      ∃ c, share_allows_open t d i 0 a = some c ∧ c.ret = true) := by
  have hr := ok.2 e (deref_some_mem h)
  have key := share_allows_open_present 0 a h hr
  simp only [Nat.zero_and, and_true] at key
  constructor
  · intro hc
    have hc2 : e.sharemode = 0 ∨
        ((e.sharemode = FILE_SHARE_READ ∧ a ≠ GENERIC_READ) ∨
          (e.sharemode = FILE_SHARE_WRITE ∧ a ≠ GENERIC_WRITE)) ∨
        (e.access &&& GENERIC_READ ≠ 0 ∨ e.access &&& GENERIC_WRITE ≠ 0) := by tauto
    rw [if_pos hc2, releaseAndRefuse_present ok.1 h hr hb] at key
    refine ⟨key, ?_⟩
    simp only [mono_w32file_create_share, key, if_true]
  · intro hc
    have hc2 : ¬ (e.sharemode = 0 ∨
        ((e.sharemode = FILE_SHARE_READ ∧ a ≠ GENERIC_READ) ∨
          (e.sharemode = FILE_SHARE_WRITE ∧ a ≠ GENERIC_WRITE)) ∨
        (e.access &&& GENERIC_READ ≠ 0 ∨ e.access &&& GENERIC_WRITE ≠ 0)) := by tauto
    rw [if_neg hc2] at key
    exact ⟨_, key, rfl⟩

theorem share_none_open_decision_witness :
    share_allows_open [⟨1, 2, 3, GENERIC_READ, 1, 0⟩] 1 2 0 GENERIC_READ
        = some { ret := false, share_info := (1, 2), table := [⟨1, 2, 3, GENERIC_READ, 1, 0⟩] }
      ∧ mono_w32file_create_share [⟨1, 2, 3, GENERIC_READ, 1, 0⟩] 1 2 0 GENERIC_READ
        = some { invalid_handle := true, last_error := some ERROR_SHARING_VIOLATION,
                 share_info := (1, 2), table := [⟨1, 2, 3, GENERIC_READ, 1, 0⟩] } :=
  (share_none_open_decision [⟨1, 2, 3, GENERIC_READ, 1, 0⟩] 1 2 GENERIC_READ
    ⟨1, 2, 3, GENERIC_READ, 1, 0⟩ ⟨by decide, by decide⟩ (by decide) (by decide)).1 (by decide)

/-- C7: when the first open of an identity asks share mode NONE, every later
`share_allows_open` on that identity made while the reference is held returns FALSE,
for every share mode and access asked, and leaves the table as it is; once that one
reference is released, `share_allows_open` on the identity returns TRUE for every
share mode and access asked. -/
theorem share_none_blocks_until_release (t : GHashTable) (d i a : Nat)
    (h : deref t (d, i) = none) :
    ∃ c, share_allows_open t d i 0 a = some c ∧ c.ret = true ∧
      ∀ t2 : GHashTable, (t2.map FileShare.key).Nodup →
        deref t2 (d, i) = deref c.table (d, i) →
        (∀ s1 a1, share_allows_open t2 d i s1 a1
            = some { ret := false, share_info := (d, i), table := t2 })
        ∧ ∃ t3, file_share_release t2 (d, i) = some t3 ∧
            ∀ s1 a1, ∃ c3, share_allows_open t3 d i s1 a1 = some c3 ∧ c3.ret = true := by
  refine ⟨_, share_allows_open_absent 0 a h, rfl, ?_⟩
  intro t2 hn h2
  have hd : deref t2 (d, i) = some (newFileShare d i 0 a) := by
    rw [h2, deref_cons, if_pos (show (newFileShare d i 0 a).key = (d, i) from rfl)]
  have hr : 0 < (newFileShare d i 0 a).handle_refs := Nat.one_pos
  constructor
  · intro s1 a1
    have h0 : (newFileShare d i 0 a).sharemode = 0 := rfl
    rw [share_allows_open_present s1 a1 hd hr, if_pos (Or.inl h0)]
    have hlt : (newFileShare d i 0 a).handle_refs < 4294967295 :=
      show 1 < 4294967295 by decide
    exact releaseAndRefuse_present hn hd hr hlt _ _ _
  · refine ⟨_, file_share_release_eq hd hr, ?_⟩
    intro s1 a1
    have h3 : deref (if (newFileShare d i 0 a).handle_refs - 1 = 0 then
        g_hash_table_remove (store_handle_refs t2 (d, i) ((newFileShare d i 0 a).handle_refs - 1))
          (keyRecord (d, i))
        else store_handle_refs t2 (d, i) ((newFileShare d i 0 a).handle_refs - 1)) (d, i)
        = none := by
      have h1 : (newFileShare d i 0 a).handle_refs - 1 = 0 := rfl
      rw [if_pos h1, deref_remove, if_pos rfl]
    exact ⟨_, share_allows_open_absent s1 a1 h3, rfl⟩

theorem share_none_blocks_until_release_witness :
    ∃ c, share_allows_open [] 1 2 0 GENERIC_READ = some c ∧ c.ret = true ∧
      ∀ t2 : GHashTable, (t2.map FileShare.key).Nodup →
        deref t2 (1, 2) = deref c.table (1, 2) →
        (∀ s1 a1, share_allows_open t2 1 2 s1 a1
            = some { ret := false, share_info := (1, 2), table := t2 })
        ∧ ∃ t3, file_share_release t2 (1, 2) = some t3 ∧
            ∀ s1 a1, ∃ c3, share_allows_open t3 1 2 s1 a1 = some c3 ∧ c3.ret = true :=
  share_none_blocks_until_release [] 1 2 GENERIC_READ (by decide)

/-- C8, as the code has it: on a share-table state whose record for the identity has
stored share mode `S`, stored access `A` and fewer than 2^32 - 1 references, with
neither `S` nor the share mode asked being NONE, `share_allows_open` returns FALSE
exactly when `S` is `FILE_SHARE_READ` and the access asked is not `GENERIC_READ`, or
`S` is `FILE_SHARE_WRITE` and the access asked is not `GENERIC_WRITE`, or `A` has
`GENERIC_READ` and the share mode asked lacks `FILE_SHARE_READ`, or `A` has
`GENERIC_WRITE` and the share mode asked lacks `FILE_SHARE_WRITE`, and returns TRUE
otherwise; without a record the open is always allowed. -/
theorem share_allows_open_decision (t : GHashTable) (d i s a : Nat) (ok : TableOk t) :
    (∀ e, deref t (d, i) = some e → e.handle_refs < 4294967295 → e.sharemode ≠ 0 → s ≠ 0 →
      ∃ c, share_allows_open t d i s a = some c ∧
        (c.ret = false ↔
          ((e.sharemode = FILE_SHARE_READ ∧ a ≠ GENERIC_READ)
            ∨ (e.sharemode = FILE_SHARE_WRITE ∧ a ≠ GENERIC_WRITE)
            ∨ (e.access &&& GENERIC_READ ≠ 0 ∧ s &&& FILE_SHARE_READ = 0)
            ∨ (e.access &&& GENERIC_WRITE ≠ 0 ∧ s &&& FILE_SHARE_WRITE = 0))))
    ∧ (deref t (d, i) = none → ∃ c, share_allows_open t d i s a = some c ∧ c.ret = true) := by
  constructor
  · intro e h hb hS _
    have hr := ok.2 e (deref_some_mem h)
    rw [share_allows_open_present s a h hr]
    by_cases hc : e.sharemode = 0 ∨
        ((e.sharemode = FILE_SHARE_READ ∧ a ≠ GENERIC_READ) ∨
          (e.sharemode = FILE_SHARE_WRITE ∧ a ≠ GENERIC_WRITE)) ∨
        ((e.access &&& GENERIC_READ ≠ 0 ∧ s &&& FILE_SHARE_READ = 0) ∨
          (e.access &&& GENERIC_WRITE ≠ 0 ∧ s &&& FILE_SHARE_WRITE = 0))
    · rw [if_pos hc, releaseAndRefuse_present ok.1 h hr hb]
      refine ⟨_, rfl, ?_⟩
      simp only [true_iff]
      tauto
    · rw [if_neg hc]
      refine ⟨_, rfl, ?_⟩
      simp only [Bool.true_eq_false, false_iff]
      tauto
  · intro h
    exact ⟨_, share_allows_open_absent s a h, rfl⟩

theorem share_allows_open_decision_witness :
    (∃ c, share_allows_open [⟨1, 2, 1, GENERIC_READ, 1, 0⟩] 1 2 3 GENERIC_WRITE = some c ∧
        (c.ret = false ↔
          (((1 : Nat) = FILE_SHARE_READ ∧ GENERIC_WRITE ≠ GENERIC_READ)
            ∨ ((1 : Nat) = FILE_SHARE_WRITE ∧ GENERIC_WRITE ≠ GENERIC_WRITE)
            ∨ (GENERIC_READ &&& GENERIC_READ ≠ 0 ∧ 3 &&& FILE_SHARE_READ = 0)
            ∨ (GENERIC_READ &&& GENERIC_WRITE ≠ 0 ∧ 3 &&& FILE_SHARE_WRITE = 0))))
      ∧ ∃ c, share_allows_open [⟨1, 2, 1, GENERIC_READ, 1, 0⟩] 7 8 3 GENERIC_WRITE = some c
          ∧ c.ret = true :=
  ⟨(share_allows_open_decision [⟨1, 2, 1, GENERIC_READ, 1, 0⟩] 1 2 3 GENERIC_WRITE
      ⟨by decide, by decide⟩).1 ⟨1, 2, 1, GENERIC_READ, 1, 0⟩ (by decide) (by decide)
      (by decide) (by decide),
   (share_allows_open_decision [⟨1, 2, 1, GENERIC_READ, 1, 0⟩] 7 8 3 GENERIC_WRITE
      ⟨by decide, by decide⟩).2 (by decide)⟩

/-- C8, as stated, fails where the 32-bit counter is full: with stored share mode
`FILE_SHARE_READ` and access asked `GENERIC_WRITE` the open is to be refused, but the
release of the wrapped counter fails its assertion and no FALSE is returned. -/
theorem share_allows_open_on_full_counter :
    share_allows_open [⟨1, 2, 1, 0, 4294967295, 0⟩] 1 2 1 GENERIC_WRITE = none := by
  decide

/-- C9, as the code has it: on a share-table state of 32-bit counters, whenever
`share_allows_open` returns FALSE the table is the one before the call; whenever it
returns TRUE and the identity counted fewer than 2^32 - 1 references, the identity
counts exactly one reference more. -/
theorem share_allows_open_reference (t : GHashTable) (d i s a : Nat) (c : ShareCheck)
    (ok : TableOk t) (hw : ∀ e ∈ t, e.handle_refs ≤ 4294967295)
    (h : share_allows_open t d i s a = some c) :
    (c.ret = false → c.table = t)
      ∧ (c.ret = true → refsOf t (d, i) < 4294967295 →
          refsOf c.table (d, i) = refsOf t (d, i) + 1) := by
  cases hd : deref t (d, i) with
  | none =>
    rw [share_allows_open_absent s a hd] at h
    cases h
    refine ⟨fun hf => Bool.noConfusion hf, fun _ _ => ?_⟩
    obtain ⟨r, hg, _, _, hs, _, _⟩ :=
      file_share_get_step ok d i s a (by rw [refsOf_of_none hd]; decide)
    rw [file_share_get_absent s a hd] at hg
    cases hg
    exact hs
  | some e =>
    have hr := ok.2 e (deref_some_mem hd)
    have hle := hw e (deref_some_mem hd)
    rw [share_allows_open_present s a hd hr] at h
    by_cases hb : e.handle_refs < 4294967295
    · split at h
      · rw [releaseAndRefuse_present ok.1 hd hr hb] at h
        cases h
        exact ⟨fun _ => rfl, fun hf => Bool.noConfusion hf⟩
      · cases h
        refine ⟨fun hf => Bool.noConfusion hf, fun _ _ => ?_⟩
        obtain ⟨r, hg, _, _, hs, _, _⟩ :=
          file_share_get_step ok d i s a (by rw [refsOf_of_some hd]; exact hb)
        rw [file_share_get_present s a hd hr] at hg
        cases hg
        exact hs
    · have he : e.handle_refs = 4294967295 := by omega
      split at h
      · exfalso
        have hz : (e.handle_refs + 1) % UINT32_MOD = 0 := by rw [he]; decide
        have hd2 : deref (store_handle_refs t (d, i) 0) (d, i)
            = some { e with handle_refs := 0 } := by
          rw [deref_store, if_pos rfl, hd]; rfl
        simp only [releaseAndRefuse, hz, file_share_release, hd2, Nat.lt_irrefl, if_false] at h
        cases h
      · cases h
        refine ⟨fun hf => Bool.noConfusion hf, fun _ hlt => ?_⟩
        rw [refsOf_of_some hd] at hlt
        exact absurd hlt hb

theorem share_allows_open_reference_witness :
    (false = false → [(⟨1, 2, 0, GENERIC_READ, 1, 0⟩ : FileShare)] = [⟨1, 2, 0, GENERIC_READ, 1, 0⟩])
      ∧ (false = true → refsOf [⟨1, 2, 0, GENERIC_READ, 1, 0⟩] (1, 2) < 4294967295 →
          refsOf [⟨1, 2, 0, GENERIC_READ, 1, 0⟩] (1, 2)
            = refsOf [⟨1, 2, 0, GENERIC_READ, 1, 0⟩] (1, 2) + 1) :=
  share_allows_open_reference [⟨1, 2, 0, GENERIC_READ, 1, 0⟩] 1 2 3 GENERIC_READ
    { ret := false, share_info := (1, 2), table := [⟨1, 2, 0, GENERIC_READ, 1, 0⟩] }
    ⟨by decide, by decide⟩ (by decide) (by decide)

/-- C9, as stated, fails where the 32-bit counter is full: `share_allows_open`
returns TRUE and the identity counts 0 references instead of one more. -/
theorem share_allows_open_true_on_full_counter :
    share_allows_open [⟨1, 2, 3, 0, 4294967295, 0⟩] 1 2 3 0
      = some { ret := true, share_info := (1, 2), table := [⟨1, 2, 3, 0, 0, 0⟩] } := by
  decide

/-- C10, as the code has it: on a share-table state where the source file's identity
counts fewer than 2^32 - 1 references, `share_allows_delete` returns FALSE exactly
when the table holds a record for that identity whose stored share mode lacks
`FILE_SHARE_DELETE` (share mode NONE included); `MoveFile` then returns FALSE with
`ERROR_SHARING_VIOLATION`, does not call rename and leaves the table unchanged; in
the other case `MoveFile` releases the reference, which gives back the table of
before the check, and goes on to rename. -/
theorem share_allows_delete_decision (t : GHashTable) (d i : Nat) (ok : TableOk t)
    (hb : refsOf t (d, i) < 4294967295) :
    (∃ c, share_allows_delete t d i = some c ∧
        (c.ret = false ↔ ∃ e, deref t (d, i) = some e ∧ e.sharemode &&& FILE_SHARE_DELETE = 0))
      ∧ ((∃ e, deref t (d, i) = some e ∧ e.sharemode &&& FILE_SHARE_DELETE = 0) →
          MoveFile_share t d i
            = some { returned := some false, last_error := some ERROR_SHARING_VIOLATION,
                     rename_called := false, table := t })
      ∧ ((¬ ∃ e, deref t (d, i) = some e ∧ e.sharemode &&& FILE_SHARE_DELETE = 0) →
          MoveFile_share t d i
            = some { returned := none, last_error := none, rename_called := true,
                     table := t }) := by
  cases hd : deref t (d, i) with
  | none =>
    have h1 := share_allows_delete_absent hd
    refine ⟨⟨_, h1, ?_⟩, ?_, ?_⟩
    · simp
    · rintro ⟨e, he, _⟩
      cases he
    · intro _
      simp only [MoveFile_share, h1, Bool.true_eq_false, if_false,
        release_after_get_absent _ _ hd]
  | some e =>
    have hr := ok.2 e (deref_some_mem hd)
    rw [refsOf_of_some hd] at hb
    have h1 := share_allows_delete_present hd hr
    by_cases hc : e.sharemode &&& FILE_SHARE_DELETE = 0
    · rw [if_pos hc, releaseAndRefuse_present ok.1 hd hr hb] at h1
      refine ⟨⟨_, h1, ?_⟩, ?_, ?_⟩
      · simp only [true_iff]
        exact ⟨e, rfl, hc⟩
      · intro _
        simp only [MoveFile_share, h1, if_true]
      · intro hn
        exact absurd ⟨e, rfl, hc⟩ hn
    · rw [if_neg hc] at h1
      refine ⟨⟨_, h1, ?_⟩, ?_, ?_⟩
      · simp only [Bool.true_eq_false, false_iff]
        rintro ⟨e1, he1, hc1⟩
        cases he1
        exact hc hc1
      · rintro ⟨e1, he1, hc1⟩
        cases he1
        exact absurd hc1 hc
      · intro _
        simp only [MoveFile_share, h1, Bool.true_eq_false, if_false,
          release_after_get_present ok.1 hd hr hb]

theorem share_allows_delete_decision_witness :
    MoveFile_share [⟨1, 2, 3, GENERIC_READ, 1, 0⟩] 1 2
      = some { returned := some false, last_error := some ERROR_SHARING_VIOLATION,
               rename_called := false, table := [⟨1, 2, 3, GENERIC_READ, 1, 0⟩] } :=
  (share_allows_delete_decision [⟨1, 2, 3, GENERIC_READ, 1, 0⟩] 1 2
    ⟨by decide, by decide⟩ (by decide)).2.1 ⟨⟨1, 2, 3, GENERIC_READ, 1, 0⟩, by decide, by decide⟩

/-- C10, as stated, fails where the 32-bit counter is full: with a record that lacks
`FILE_SHARE_DELETE` no FALSE is returned, the release of the wrapped counter fails its
assertion; with a record that grants it, the release in `MoveFile` fails the same way
and the table is not restored. -/
theorem share_allows_delete_on_full_counter :
    share_allows_delete [⟨1, 2, 3, 0, 4294967295, 0⟩] 1 2 = none
      ∧ MoveFile_share [⟨1, 2, 7, 0, 4294967295, 0⟩] 1 2 = none := by
  decide

/-! ## Lemmas on the time codec -/




theorem tdiv_floor (a b : Int) (hb : 0 < b) :
    a.tdiv b - (if a.tmod b < 0 then 1 else 0) = a / b := by
  rcases Int.le_total 0 a with h | h
  · have h1 := Int.tmod_nonneg b h
    rw [if_neg (by omega), Int.tdiv_eq_ediv h (Int.le_of_lt hb)]
    omega
  · obtain ⟨c, rfl⟩ : ∃ c : Int, a = -c := ⟨-a, by omega⟩
    have hc : 0 ≤ c := by omega
    have hn : (-c).tmod b = -(c.tmod b) := by
      rw [Int.tmod_def, Int.tmod_def, Int.neg_tdiv]; ring
    rw [Int.neg_tdiv, hn, Int.tdiv_eq_ediv hc (Int.le_of_lt hb),
      Int.tmod_eq_emod hc (Int.le_of_lt hb)]
    have h1 := Int.emod_nonneg c (Int.ne_of_gt hb)
    have h2 := Int.emod_lt_of_pos c hb
    have h3 := Int.emod_add_ediv c b
    symm
    have : (-c) / b = -(c / b) - (if -(c % b) < 0 then 1 else 0)
        ∧ (-c) % b = (if -(c % b) < 0 then b - c % b else 0) := by
      rw [Int.ediv_emod_unique hb]
      split
      · refine ⟨?_, by omega, by omega⟩
        have : b * (-(c / b) - 1) = -(b * (c / b)) - b := by ring
        omega
      · refine ⟨?_, by omega, by omega⟩
        have : b * (-(c / b) - 0) = -(b * (c / b)) := by ring
        omega
    exact this.1

theorem DIV_eq (a b : Int) (hb : 0 < b) : DIV a b = a / b := tdiv_floor a b hb

theorem tmod_eq_zero_iff (a b : Int) : a.tmod b = 0 ↔ a % b = 0 := by
  constructor
  · intro h; exact Int.emod_eq_zero_of_dvd (Int.dvd_of_tmod_eq_zero h)
  · intro h; exact Int.tmod_eq_zero_of_dvd (Int.dvd_of_emod_eq_zero h)

theorem isleap_iff (y : Int) :
    isleap y = true ↔ y % 4 = 0 ∧ (y % 100 ≠ 0 ∨ y % 400 = 0) := by
  simp only [isleap, Bool.and_eq_true, Bool.or_eq_true, beq_iff_eq, bne_iff_ne, ne_eq,
    tmod_eq_zero_iff]

theorem yearLength_eq (y : Int) : yearLength y = daysBeforeYear (y + 1) - daysBeforeYear y := by
  unfold yearLength daysBeforeYear
  by_cases h : isleap y = true
  · rw [if_pos h]; rw [isleap_iff] at h; omega
  · rw [if_neg h]; rw [isleap_iff] at h; omega

theorem yearLength_bounds (y : Int) : 365 ≤ yearLength y ∧ yearLength y ≤ 366 := by
  unfold yearLength; split <;> omega

theorem daysBeforeYear_add (y : Int) (k : Nat) :
    365 * (k : Int) ≤ daysBeforeYear (y + k) - daysBeforeYear y
      ∧ daysBeforeYear (y + k) - daysBeforeYear y ≤ 366 * (k : Int) := by
  induction k with
  | zero => simp
  | succ k ih =>
    have h1 := yearLength_eq (y + k)
    have h2 := yearLength_bounds (y + k)
    have h3 : y + ((k + 1 : Nat) : Int) = y + k + 1 := by push_cast; ring
    rw [h3]
    push_cast
    omega

theorem yearLoop_step (fuel : Nat) (totaldays y : Int) :
    yearLoop (fuel + 1) totaldays y
      = if totaldays < 0 ∨ totaldays ≥ yearLength y then
          yearLoop fuel (totaldays - (daysBeforeYear (y + totaldays / 365) - daysBeforeYear y))
            (y + totaldays / 365)
        else some (totaldays, y) := by
  rw [yearLoop]
  have h0 := tdiv_floor totaldays 365 (by decide)
  have h1 : y + totaldays.tdiv 365 - (if totaldays.tmod 365 < 0 then 1 else 0)
      = y + totaldays / 365 := by omega
  simp only [h1, LEAPS_THRU_END_OF, DIV_eq _ 4 (by decide), DIV_eq _ 100 (by decide),
    DIV_eq _ 400 (by decide), yearLength]
  have h2 : (y + totaldays / 365 - y) * 365 +
        ((y + totaldays / 365 - 1) / 4 - (y + totaldays / 365 - 1) / 100
          + (y + totaldays / 365 - 1) / 400) - ((y - 1) / 4 - (y - 1) / 100 + (y - 1) / 400)
      = daysBeforeYear (y + totaldays / 365) - daysBeforeYear y := by
    unfold daysBeforeYear; ring
  rw [h2]

theorem daysBeforeYear_1601 : daysBeforeYear 1601 = 0 := by decide

theorem yearLoop_inv_step (fuel : Nat) (D y : Int) :
    yearLoop (fuel + 1) (D - daysBeforeYear y) y
      = if D - daysBeforeYear y < 0 ∨ D - daysBeforeYear y ≥ yearLength y then
          yearLoop fuel (D - daysBeforeYear (y + (D - daysBeforeYear y) / 365))
            (y + (D - daysBeforeYear y) / 365)
        else some (D - daysBeforeYear y, y) := by
  rw [yearLoop_step]
  have : D - daysBeforeYear y
      - (daysBeforeYear (y + (D - daysBeforeYear y) / 365) - daysBeforeYear y)
      = D - daysBeforeYear (y + (D - daysBeforeYear y) / 365) := by ring
  rw [this]

theorem daysBeforeYear_sub (y : Int) (k : Int) (hk : 0 ≤ k) :
    365 * k ≤ daysBeforeYear (y + k) - daysBeforeYear y
      ∧ daysBeforeYear (y + k) - daysBeforeYear y ≤ 366 * k := by
  have h := daysBeforeYear_add y k.toNat
  rw [Int.toNat_of_nonneg hk] at h
  exact h

theorem yearLoop_result (D : Int) (h0 : 0 ≤ D) (h1 : D ≤ 10675199) :
    ∃ y, yearLoop 4 D 1601 = some (D - daysBeforeYear y, y)
      ∧ 0 ≤ D - daysBeforeYear y ∧ D - daysBeforeYear y < yearLength y
      ∧ 1601 ≤ y ∧ y ≤ 30848 := by
  have e0 : D = D - daysBeforeYear 1601 := by rw [daysBeforeYear_1601]; omega
  conv => enter [1, y, 1, 1]; rw [e0]
  have hz := daysBeforeYear_1601
  rw [yearLoop_inv_step]
  by_cases c0 : D - daysBeforeYear 1601 < 0 ∨ D - daysBeforeYear 1601 ≥ yearLength 1601
  · rw [if_pos c0]
    generalize hy1 : (1601 : Int) + (D - daysBeforeYear 1601) / 365 = y1
    have hb1 := daysBeforeYear_sub 1601 ((D - daysBeforeYear 1601) / 365) (by omega)
    rw [hy1] at hb1
    have hl1 := yearLength_bounds y1
    rw [yearLoop_inv_step]
    by_cases c1 : D - daysBeforeYear y1 < 0 ∨ D - daysBeforeYear y1 ≥ yearLength y1
    · rw [if_pos c1]
      generalize hy2 : y1 + (D - daysBeforeYear y1) / 365 = y2
      have hb2 := daysBeforeYear_sub y2 (-((D - daysBeforeYear y1) / 365)) (by omega)
      have hy21 : y2 + -((D - daysBeforeYear y1) / 365) = y1 := by omega
      rw [hy21] at hb2
      have hl2 := yearLength_bounds y2
      rw [yearLoop_inv_step]
      by_cases c2 : D - daysBeforeYear y2 < 0 ∨ D - daysBeforeYear y2 ≥ yearLength y2
      · rw [if_pos c2]
        have hq : (D - daysBeforeYear y2) / 365 = 1 := by omega
        rw [hq]
        have hb3 := yearLength_eq y2
        have hl3 := yearLength_bounds (y2 + 1)
        rw [yearLoop_inv_step]
        have c3 : ¬ (D - daysBeforeYear (y2 + 1) < 0
            ∨ D - daysBeforeYear (y2 + 1) ≥ yearLength (y2 + 1)) := by omega
        rw [if_neg c3]
        exact ⟨y2 + 1, rfl, by omega, by omega, by omega, by omega⟩
      · rw [if_neg c2]
        exact ⟨y2, rfl, by omega, by omega, by omega, by omega⟩
    · rw [if_neg c1]
      exact ⟨y1, rfl, by omega, by omega, by omega, by omega⟩
  · rw [if_neg c0]
    exact ⟨1601, rfl, by omega, by omega, by omega, by omega⟩

theorem yearLoop_mono (n : Nat) (td y : Int) (r : Int × Int)
    (h : yearLoop n td y = some r) : yearLoop (n + 1) td y = some r := by
  induction n generalizing td y with
  | zero => simp [yearLoop] at h
  | succ n ih =>
    rw [yearLoop_step] at h ⊢
    by_cases hc : td < 0 ∨ td ≥ yearLength y
    · rw [if_pos hc] at h ⊢
      exact ih _ _ h
    · rw [if_neg hc] at h ⊢
      exact h

theorem yearLoop_mono_le (n k : Nat) (hk : n ≤ k) (td y : Int) (r : Int × Int)
    (h : yearLoop n td y = some r) : yearLoop k td y = some r := by
  induction k with
  | zero =>
    have : n = 0 := by omega
    subst this; exact h
  | succ k ih =>
    by_cases hn : n = k + 1
    · subst hn; exact h
    · exact yearLoop_mono k td y r (ih (by omega))

theorem monthLoop_some (ip : List Int) (td : Int) (h : ip.getD 0 0 ≤ td) (k : Nat) :
    ∃ m, m ≤ k ∧ monthLoop ip td k = some m ∧ ip.getD m 0 ≤ td := by
  induction k with
  | zero => exact ⟨0, Nat.le_refl 0, by rw [monthLoop, if_neg (by omega)], h⟩
  | succ k ih =>
    rw [monthLoop]
    split
    · obtain ⟨m, hm, he⟩ := ih
      exact ⟨m, by omega, he⟩
    · exact ⟨k + 1, Nat.le_refl _, rfl, by omega⟩

theorem mon_yday_nonneg (leap : Bool) (m : Nat) (hm : m ≤ 11) :
    0 ≤ (mon_yday leap).getD m 0 := by
  cases leap <;> interval_cases m <;> decide

theorem mon_yday_zero (leap : Bool) : (mon_yday leap).getD 0 0 = 0 := by
  cases leap <;> rfl

theorem toWord_eq (x : Int) (h0 : 0 ≤ x) (h1 : x < 65536) : toWord x = x.toNat := by
  unfold toWord
  rw [Int.emod_eq_of_lt h0 h1]

theorem toInt64_eq (u : Nat) (h : u < 9223372036854775808) : toInt64 u = (u : Int) := by
  unfold toInt64 UINT64_MOD
  have : u % 18446744073709551616 = u := Nat.mod_eq_of_lt (by omega)
  rw [this, if_pos h]

theorem natCast_tdiv (a b : Nat) : (a : Int).tdiv (b : Int) = ((a / b : Nat) : Int) :=
  (Int.ofNat_tdiv a b).symm

theorem natCast_tmod (a b : Nat) : (a : Int).tmod (b : Int) = ((a % b : Nat) : Int) :=
  (Int.ofNat_tmod a b).symm

theorem toWord_natCast (n : Nat) (h : n < 65536) : toWord (n : Int) = n := by
  rw [toWord_eq _ (Int.ofNat_nonneg n) (by omega)]
  exact Int.toNat_ofNat n

theorem ticks_consts :
    TICKS_PER_DAY = ((864000000000 : Nat) : Int) ∧ TICKS_PER_HOUR = ((36000000000 : Nat) : Int)
      ∧ TICKS_PER_MINUTE = ((600000000 : Nat) : Int) ∧ TICKS_PER_SECOND = ((10000000 : Nat) : Int)
      ∧ TICKS_PER_MILLISECOND = ((10000 : Nat) : Int) :=
  ⟨rfl, rfl, rfl, rfl, rfl⟩

theorem filetime_decode (fuel : Nat) (hf : 4 ≤ fuel) (ft : FILETIME) (st : SYSTEMTIME)
    (hl : ft.dwLowDateTime < 4294967296) (hh : ft.dwHighDateTime < 2147483648) :
    ∃ (y : Int) (m : Nat) (dd : Int),
      mono_w32file_filetime_to_systemtime fuel ft (some st)
        = some { ret := true, last_error := none,
                 system_time := some
                   { wYear := y.toNat, wMonth := m + 1,
                     wDayOfWeek := (1 + (ft.dwHighDateTime * 4294967296 + ft.dwLowDateTime)
                        / 864000000000) % 7 + 1,
                     wDay := dd.toNat + 1,
                     wHour := (ft.dwHighDateTime * 4294967296 + ft.dwLowDateTime)
                        % 864000000000 / 36000000000,
                     wMinute := (ft.dwHighDateTime * 4294967296 + ft.dwLowDateTime)
                        % 36000000000 / 600000000,
                     wSecond := (ft.dwHighDateTime * 4294967296 + ft.dwLowDateTime)
                        % 600000000 / 10000000,
                     wMilliseconds := (ft.dwHighDateTime * 4294967296 + ft.dwLowDateTime)
                        % 10000000 / 10000 } }
      ∧ 1601 ≤ y ∧ y ≤ 30848
      ∧ 0 ≤ ((ft.dwHighDateTime * 4294967296 + ft.dwLowDateTime : Nat) : Int) / 864000000000
            - daysBeforeYear y
      ∧ ((ft.dwHighDateTime * 4294967296 + ft.dwLowDateTime : Nat) : Int) / 864000000000
            - daysBeforeYear y < yearLength y
      ∧ monthLoop (mon_yday (isleap y))
          (((ft.dwHighDateTime * 4294967296 + ft.dwLowDateTime : Nat) : Int) / 864000000000
            - daysBeforeYear y) 11 = some m
      ∧ m ≤ 11
      ∧ dd = ((ft.dwHighDateTime * 4294967296 + ft.dwLowDateTime : Nat) : Int) / 864000000000
            - daysBeforeYear y - (mon_yday (isleap y)).getD m 0
      ∧ 0 ≤ dd := by
  generalize hT : ft.dwHighDateTime * 4294967296 + ft.dwLowDateTime = T
  have hT63 : T < 9223372036854775808 := by omega
  have hTi : (0 : Int) ≤ (T : Int) := Int.ofNat_nonneg T
  obtain ⟨y, hy, hy0, hy1, hy2, hy3⟩ :=
    yearLoop_result ((T : Int) / 864000000000) (by omega) (by omega)
  have hy' := yearLoop_mono_le 4 fuel hf _ _ _ hy
  obtain ⟨m, hm, hme, hle⟩ := monthLoop_some (mon_yday (isleap y))
    ((T : Int) / 864000000000 - daysBeforeYear y) (by rw [mon_yday_zero]; exact hy0) 11
  have hnn := mon_yday_nonneg (isleap y) m hm
  have hyl := yearLength_bounds y
  refine ⟨y, m, _, ?_, hy2, hy3, hy0, hy1, hme, hm, rfl, by omega⟩
  have hD : ((T / 864000000000 : Nat) : Int) = (T : Int) / 864000000000 := by omega
  have h7 : (1 + (T : Int) / 864000000000).tmod 7 + 1
      = (((1 + T / 864000000000) % 7 + 1 : Nat) : Int) := by
    rw [Int.tmod_eq_emod (by omega) (by decide)]; omega
  have hH : T % 864000000000 % 36000000000 = T % 36000000000 :=
    Nat.mod_mod_of_dvd T (by decide)
  have hM : T % 36000000000 % 600000000 = T % 600000000 :=
    Nat.mod_mod_of_dvd T (by decide)
  have hS : T % 600000000 % 10000000 = T % 10000000 :=
    Nat.mod_mod_of_dvd T (by decide)
  have hd1 : (T : Int) / 864000000000 - daysBeforeYear y
      - (mon_yday (isleap y)).getD m 0 + 1
      = ((((T : Int) / 864000000000 - daysBeforeYear y
          - (mon_yday (isleap y)).getD m 0).toNat + 1 : Nat) : Int) := by
    omega
  have hw1 : toWord y = y.toNat := toWord_eq y (by omega) (by omega)
  have hw2 : toWord ((m : Int) + 1) = m + 1 := by
    have := toWord_natCast (m + 1) (by omega)
    push_cast at this
    exact this
  have hw3 := toWord_natCast ((1 + T / 864000000000) % 7 + 1) (by omega)
  have hw4 := toWord_natCast (((T : Int) / 864000000000 - daysBeforeYear y
          - (mon_yday (isleap y)).getD m 0).toNat + 1) (by omega)
  have hw5 := toWord_natCast (T % 864000000000 / 36000000000) (by omega)
  have hw6 := toWord_natCast (T % 36000000000 / 600000000) (by omega)
  have hw7 := toWord_natCast (T % 600000000 / 10000000) (by omega)
  have hw8 := toWord_natCast (T % 10000000 / 10000) (by omega)
  simp only [mono_w32file_filetime_to_systemtime, hT, toInt64_eq T hT63,
    ticks_consts.1, ticks_consts.2.1, ticks_consts.2.2.1, ticks_consts.2.2.2.1,
    ticks_consts.2.2.2.2, natCast_tdiv, natCast_tmod, hD, hy', hme, hH, hM, hS, h7, hd1,
    hw1, hw2, hw3, hw4, hw5, hw6, hw7, hw8]
  rw [if_neg (by omega)]



theorem time_t_to_filetime_words (t : Int) :
    (time_t_to_filetime t).dwLowDateTime
        = ((t % 18446744073709551616).toNat * 10000000 + 116444736000000000)
            % 18446744073709551616 % 4294967296
      ∧ (time_t_to_filetime t).dwHighDateTime
        = ((t % 18446744073709551616).toNat * 10000000 + 116444736000000000)
            % 18446744073709551616 / 4294967296 := by
  unfold time_t_to_filetime UINT64_MOD
  constructor
  · exact Nat.and_pow_two_sub_one_eq_mod _ 32
  · exact Nat.shiftRight_eq_div_pow _ 32

theorem time_t_ticks (t : Int) (h1 : -11644473600 ≤ t)
    (h2 : t * 10000000 + 116444736000000000 < 18446744073709551616) :
    ((((t % 18446744073709551616).toNat * 10000000 + 116444736000000000)
        % 18446744073709551616 : Nat) : Int) = t * 10000000 + 116444736000000000 := by
  omega

theorem gregorianLeap_eq (y : Nat) : gregorianLeap y = isleap (y : Int) := by
  have h4 : ((y : Int)).tmod 4 = ((y % 4 : Nat) : Int) := natCast_tmod y 4
  have h100 : ((y : Int)).tmod 100 = ((y % 100 : Nat) : Int) := natCast_tmod y 100
  have h400 : ((y : Int)).tmod 400 = ((y % 400 : Nat) : Int) := natCast_tmod y 400
  unfold gregorianLeap isleap
  rw [h4, h100, h400, Bool.eq_iff_iff]
  simp only [Bool.and_eq_true, Bool.or_eq_true, beq_iff_eq, bne_iff_ne, ne_eq,
    Int.natCast_eq_zero]

theorem year_unique (D a b : Int) (ha0 : 0 ≤ D - daysBeforeYear a)
    (ha1 : D - daysBeforeYear a < yearLength a) (hb0 : 0 ≤ D - daysBeforeYear b)
    (hb1 : D - daysBeforeYear b < yearLength b) : a = b := by
  have key : ∀ a b : Int, a < b → 0 ≤ D - daysBeforeYear b →
      D - daysBeforeYear a < yearLength a → False := by
    intro a b hab h0 h1
    have h2 := daysBeforeYear_sub (a + 1) (b - a - 1) (by omega)
    have h3 : a + 1 + (b - a - 1) = b := by ring
    rw [h3] at h2
    have h4 := yearLength_eq a
    omega
  rcases Int.lt_trichotomy a b with h | h | h
  · exact absurd (key a b h hb0 ha1) id
  · exact h
  · exact absurd (key b a h ha0 hb1) id

theorem monthLength_eq (y m : Nat) (h1 : 1 ≤ m) (h2 : m ≤ 12) :
    (gregorianMonthLength y m : Int)
      = (mon_yday (isleap y)).getD m 0 - (mon_yday (isleap y)).getD (m - 1) 0 := by
  unfold gregorianMonthLength
  rw [gregorianLeap_eq]
  cases isleap (y : Int) <;> interval_cases m <;> decide

theorem monthLoop_eq (ip : List Int) (td : Int) (k j : Nat) (hj : j ≤ k)
    (h1 : ip.getD j 0 ≤ td) (h2 : ∀ i, j < i → i ≤ k → td < ip.getD i 0) :
    monthLoop ip td k = some j := by
  induction k with
  | zero =>
    have : j = 0 := by omega
    subst this
    rw [monthLoop, if_neg (by omega)]
  | succ k ih =>
    rw [monthLoop]
    by_cases hk : j = k + 1
    · subst hk
      rw [if_neg (by omega)]
    · rw [if_pos (h2 (k + 1) (by omega) (Nat.le_refl _))]
      exact ih (by omega) (fun i hi hik => h2 i hi (by omega))

theorem mon_yday_mono (leap : Bool) (a b : Nat) (hab : a ≤ b) (hb : b ≤ 12) :
    (mon_yday leap).getD a 0 ≤ (mon_yday leap).getD b 0 := by
  cases leap <;> interval_cases b <;> interval_cases a <;> decide

theorem month_of_valid (leap : Bool) (m d : Nat) (h1 : 1 ≤ m) (h2 : m ≤ 12) (h3 : 1 ≤ d)
    (h4 : (d : Int) ≤ (mon_yday leap).getD m 0 - (mon_yday leap).getD (m - 1) 0) :
    monthLoop (mon_yday leap) ((mon_yday leap).getD (m - 1) 0 + d - 1) 11 = some (m - 1) := by
  apply monthLoop_eq
  · omega
  · omega
  · intro i hi hik
    have := mon_yday_mono leap m i (by omega) (by omega)
    omega

theorem dayNumber_1970 : dayNumber 1970 1 1 = 134774 := by decide

theorem monthLength_pos (y m : Nat) : 1 ≤ gregorianMonthLength y m := by
  unfold gregorianMonthLength
  split
  · split <;> decide
  · split <;> decide

theorem mon_yday_12 (y : Int) : (mon_yday (isleap y)).getD 12 0 = yearLength y := by
  unfold yearLength
  cases isleap y <;> rfl

theorem nextDay_valid (y m d : Nat) (hv : validDate y m d) :
    validDate (nextDay (y, m, d)).1 (nextDay (y, m, d)).2.1 (nextDay (y, m, d)).2.2
      ∧ dayNumber (nextDay (y, m, d)).1 (nextDay (y, m, d)).2.1 (nextDay (y, m, d)).2.2
        = dayNumber y m d + 1 := by
  obtain ⟨h1, h2, h3, h4⟩ := hv
  have hml := monthLength_eq y m h1 h2
  by_cases c1 : d < gregorianMonthLength y m
  · have e : nextDay (y, m, d) = (y, m, d + 1) := by
      unfold nextDay; simp only []; rw [if_pos c1]
    rw [e]
    show validDate y m (d + 1) ∧ dayNumber y m (d + 1) = dayNumber y m d + 1
    refine ⟨⟨h1, h2, by omega, by omega⟩, ?_⟩
    unfold dayNumber
    push_cast
    omega
  · have hd : d = gregorianMonthLength y m := by omega
    by_cases c2 : m < 12
    · have e : nextDay (y, m, d) = (y, m + 1, 1) := by
        unfold nextDay; simp only []; rw [if_neg c1, if_pos c2]
      rw [e]
      show validDate y (m + 1) 1 ∧ dayNumber y (m + 1) 1 = dayNumber y m d + 1
      refine ⟨⟨by omega, by omega, Nat.le_refl 1, monthLength_pos y (m + 1)⟩, ?_⟩
      unfold dayNumber
      simp only [Nat.add_sub_cancel]
      push_cast
      omega
    · have e : nextDay (y, m, d) = (y + 1, 1, 1) := by
        unfold nextDay; simp only []; rw [if_neg c1, if_neg c2]
      rw [e]
      show validDate (y + 1) 1 1 ∧ dayNumber (y + 1) 1 1 = dayNumber y m d + 1
      have hm : m = 12 := by omega
      subst hm
      refine ⟨⟨Nat.le_refl 1, by omega, Nat.le_refl 1, monthLength_pos (y + 1) 1⟩, ?_⟩
      unfold dayNumber
      have e1 := mon_yday_12 (y : Int)
      have e2 := yearLength_eq (y : Int)
      have e3 := mon_yday_zero (isleap ((y + 1 : Nat) : Int))
      simp only [Nat.sub_self, e3]
      simp only [Nat.reduceSub] at hml ⊢
      push_cast
      omega

theorem gregorianOfUnixDay_succ (n : Nat) :
    gregorianOfUnixDay (n + 1) = nextDay (gregorianOfUnixDay n) := by
  unfold gregorianOfUnixDay
  exact Function.iterate_succ_apply' nextDay n (1970, 1, 1)

theorem gregorianOfUnixDay_inv (n : Nat) :
    validDate (gregorianOfUnixDay n).1 (gregorianOfUnixDay n).2.1 (gregorianOfUnixDay n).2.2
      ∧ dayNumber (gregorianOfUnixDay n).1 (gregorianOfUnixDay n).2.1
          (gregorianOfUnixDay n).2.2 = 134774 + n := by
  induction n with
  | zero => exact ⟨⟨by decide, by decide, by decide, by decide⟩, by decide⟩
  | succ n ih =>
    rw [gregorianOfUnixDay_succ]
    have := nextDay_valid _ _ _ ih.1
    refine ⟨this.1, ?_⟩
    rw [this.2, ih.2]
    push_cast
    ring

theorem words_join (K lo hi : Nat) (hlo : lo = K % 4294967296) (hhi : hi = K / 4294967296) :
    hi * 4294967296 + lo = K ∧ lo < 4294967296 := by
  omega

/-! ## The time codec: `time_t_to_filetime` and `mono_w32file_filetime_to_systemtime` -/

/-- C12: for every Unix time `t` from 1970-01-01T00:00:00Z to 2100-12-31T23:59:59Z,
`mono_w32file_filetime_to_systemtime` on the FILETIME that `time_t_to_filetime t`
writes returns TRUE (four rounds of the year loop are enough) with the year, month,
day, hour, minute and second of the proleptic Gregorian decomposition of `t`, and
with `wMilliseconds = 0`. -/
theorem filetime_roundtrip (fuel : Nat) (hf : 4 ≤ fuel) (t : Nat) (ht : t ≤ 4133980799)
    (st : SYSTEMTIME) :
    ∃ s, mono_w32file_filetime_to_systemtime fuel (time_t_to_filetime t) (some st)
          = some { ret := true, last_error := none, system_time := some s }
      ∧ (s.wYear, s.wMonth, s.wDay, s.wHour, s.wMinute, s.wSecond) = gregorianOfUnixTime t
      ∧ s.wMilliseconds = 0 := by
  obtain ⟨hlo, hhi⟩ := time_t_to_filetime_words (t : Int)
  have htk := time_t_ticks (t : Int) (by omega) (by omega)
  generalize hK : ((((t : Int) % 18446744073709551616).toNat * 10000000 + 116444736000000000)
        % 18446744073709551616 : Nat) = K at hlo hhi htk
  clear hK
  have hKt : K = t * 10000000 + 116444736000000000 := by
    clear hlo hhi; omega
  obtain ⟨hT, hlt⟩ := words_join K _ _ hlo hhi
  have hht : (time_t_to_filetime t).dwHighDateTime < 2147483648 := by
    rw [hhi]; clear hlo hhi hT hlt; omega
  obtain ⟨y, m, dd, hres, hy2, hy3, hy0, hy1, hme, hm, hdd, hdd0⟩ :=
    filetime_decode fuel hf (time_t_to_filetime t) st hlt hht
  clear hlo hhi hlt hht
  rw [hT] at hres hy0 hy1 hme hdd
  have hD : (K : Int) / 864000000000 = 134774 + ((t / 86400 : Nat) : Int) := by omega
  rw [hD] at hy0 hy1 hme hdd
  obtain ⟨hv, hn⟩ := gregorianOfUnixDay_inv (t / 86400)
  generalize hx : gregorianOfUnixDay (t / 86400) = x at hv hn
  obtain ⟨yx, mx, dx⟩ := x
  simp only [] at hv hn
  obtain ⟨v1, v2, v3, v4⟩ := hv
  have hml := monthLength_eq yx mx v1 v2
  have hmono := mon_yday_mono (isleap yx) mx 12 v2 (Nat.le_refl _)
  have h12 := mon_yday_12 (yx : Int)
  have hnn := mon_yday_nonneg (isleap yx) (mx - 1) (by omega)
  unfold dayNumber at hn
  have hyx : y = yx := year_unique (134774 + ((t / 86400 : Nat) : Int)) y yx hy0 hy1
    (by omega) (by omega)
  subst hyx
  have hmv := month_of_valid (isleap (yx : Int)) mx dx v1 v2 v3 (by omega)
  have htd : (134774 : Int) + ((t / 86400 : Nat) : Int) - daysBeforeYear yx
      = (mon_yday (isleap (yx : Int))).getD (mx - 1) 0 + dx - 1 := by omega
  rw [htd, hmv] at hme
  have hmm : m = mx - 1 := (Option.some.inj hme).symm
  subst hmm
  refine ⟨_, hres, ?_, ?_⟩
  · simp only [gregorianOfUnixTime, hx, Prod.mk.injEq]
    refine ⟨Int.toNat_ofNat yx, by omega, by omega, by omega, by omega, by omega⟩
  · show K % 10000000 / 10000 = 0
    omega

theorem filetime_roundtrip_witness :
    ∃ s, mono_w32file_filetime_to_systemtime 4 (time_t_to_filetime (951782400 : Nat))
            (some ⟨0, 0, 0, 0, 0, 0, 0, 0⟩)
          = some { ret := true, last_error := none, system_time := some s }
      ∧ (s.wYear, s.wMonth, s.wDay, s.wHour, s.wMinute, s.wSecond)
          = gregorianOfUnixTime 951782400
      ∧ s.wMilliseconds = 0 :=
  filetime_roundtrip 4 (Nat.le_refl 4) 951782400 (by decide) ⟨0, 0, 0, 0, 0, 0, 0, 0⟩

/-- C13: `time_t_to_filetime t` stores the tick count
`t * 10000000 + 116444736000000000` as `dwLowDateTime = ticks mod 2^32` and
`dwHighDateTime = ticks div 2^32`, exactly, for every `t ≥ -11644473600` whose tick
count is below 2^64. -/
theorem time_t_to_filetime_exact (t : Int) (h1 : -11644473600 ≤ t)
    (h2 : t * 10000000 + 116444736000000000 < 18446744073709551616) :
    ((time_t_to_filetime t).dwLowDateTime : Int)
        = (t * 10000000 + 116444736000000000) % 4294967296
      ∧ ((time_t_to_filetime t).dwHighDateTime : Int)
        = (t * 10000000 + 116444736000000000) / 4294967296
      ∧ ((time_t_to_filetime t).dwHighDateTime : Int) * 4294967296
          + (time_t_to_filetime t).dwLowDateTime
        = t * 10000000 + 116444736000000000 := by
  obtain ⟨hlo, hhi⟩ := time_t_to_filetime_words t
  have htk := time_t_ticks t h1 h2
  generalize ((((t % 18446744073709551616).toNat * 10000000 + 116444736000000000)
        % 18446744073709551616 : Nat)) = K at hlo hhi htk
  generalize (time_t_to_filetime t).dwLowDateTime = lo at hlo ⊢
  generalize (time_t_to_filetime t).dwHighDateTime = hi at hhi ⊢
  omega

theorem time_t_to_filetime_exact_witness :
    ((time_t_to_filetime (-11644473600)).dwLowDateTime : Int)
        = ((-11644473600 : Int) * 10000000 + 116444736000000000) % 4294967296
      ∧ ((time_t_to_filetime (-11644473600)).dwHighDateTime : Int)
        = ((-11644473600 : Int) * 10000000 + 116444736000000000) / 4294967296
      ∧ ((time_t_to_filetime (-11644473600)).dwHighDateTime : Int) * 4294967296
          + (time_t_to_filetime (-11644473600)).dwLowDateTime
        = (-11644473600 : Int) * 10000000 + 116444736000000000 :=
  time_t_to_filetime_exact (-11644473600) (by decide) (by decide)

theorem toInt64_neg (u : Nat) (h1 : 9223372036854775808 ≤ u) (h2 : u < 18446744073709551616) :
    toInt64 u < 0 := by
  unfold toInt64 UINT64_MOD
  have : u % 18446744073709551616 = u := Nat.mod_eq_of_lt h2
  rw [this, if_neg (by omega)]
  omega

/-- C14: on a FILETIME of two 32-bit words, `mono_w32file_filetime_to_systemtime`
returns (four rounds of the year loop are enough); it returns FALSE with last error
`ERROR_INVALID_PARAMETER` exactly when the output pointer is NULL or the tick value,
read as a signed 64-bit integer, is negative, which is `dwHighDateTime ≥ 0x80000000`;
on every other input it returns TRUE. -/
theorem filetime_to_systemtime_rejects (fuel : Nat) (hf : 4 ≤ fuel) (ft : FILETIME)
    (system_time : Option SYSTEMTIME)
    (hl : ft.dwLowDateTime < 4294967296) (hh : ft.dwHighDateTime < 4294967296) :
    ∃ r, mono_w32file_filetime_to_systemtime fuel ft system_time = some r
      ∧ ((r.ret = false ∧ r.last_error = some ERROR_INVALID_PARAMETER)
          ↔ (system_time = none
              ∨ toInt64 (ft.dwHighDateTime * 4294967296 + ft.dwLowDateTime) < 0))
      ∧ (toInt64 (ft.dwHighDateTime * 4294967296 + ft.dwLowDateTime) < 0
          ↔ 2147483648 ≤ ft.dwHighDateTime)
      ∧ (¬ (system_time = none
              ∨ toInt64 (ft.dwHighDateTime * 4294967296 + ft.dwLowDateTime) < 0)
          → r.ret = true) := by
  have hsign : toInt64 (ft.dwHighDateTime * 4294967296 + ft.dwLowDateTime) < 0
      ↔ 2147483648 ≤ ft.dwHighDateTime := by
    constructor
    · intro h
      by_contra hc
      rw [toInt64_eq _ (by omega)] at h
      omega
    · intro h
      exact toInt64_neg _ (by omega) (by omega)
  cases system_time with
  | none =>
    refine ⟨_, rfl, ?_, hsign, ?_⟩
    · simp
    · intro h; exact absurd (Or.inl rfl) h
  | some st =>
    by_cases hneg : toInt64 (ft.dwHighDateTime * 4294967296 + ft.dwLowDateTime) < 0
    · refine ⟨{ ret := false, last_error := some ERROR_INVALID_PARAMETER,
                system_time := some st }, ?_, ?_, hsign, ?_⟩
      · simp only [mono_w32file_filetime_to_systemtime, hneg, if_true]
      · simp [hneg]
      · intro h; exact absurd (Or.inr hneg) h
    · have hh2 : ft.dwHighDateTime < 2147483648 := by
        by_contra hc
        exact hneg (hsign.mpr (by omega))
      obtain ⟨y, m, dd, hres, _⟩ := filetime_decode fuel hf ft st hl hh2
      refine ⟨_, hres, ?_, hsign, fun _ => rfl⟩
      simp [hneg]

theorem filetime_to_systemtime_rejects_witness :
    ∃ r, mono_w32file_filetime_to_systemtime 4 ⟨0, 2147483648⟩ (some ⟨0, 0, 0, 0, 0, 0, 0, 0⟩)
        = some r
      ∧ ((r.ret = false ∧ r.last_error = some ERROR_INVALID_PARAMETER)
          ↔ ((some (⟨0, 0, 0, 0, 0, 0, 0, 0⟩ : SYSTEMTIME)) = none
              ∨ toInt64 (2147483648 * 4294967296 + 0) < 0))
      ∧ (toInt64 (2147483648 * 4294967296 + 0) < 0 ↔ 2147483648 ≤ 2147483648)
      ∧ (¬ ((some (⟨0, 0, 0, 0, 0, 0, 0, 0⟩ : SYSTEMTIME)) = none
              ∨ toInt64 (2147483648 * 4294967296 + 0) < 0)
          → r.ret = true) :=
  filetime_to_systemtime_rejects 4 (Nat.le_refl 4) ⟨0, 2147483648⟩
    (some ⟨0, 0, 0, 0, 0, 0, 0, 0⟩) (by decide) (by decide)

/-- C15, as the code has it: for every non-negative tick value, the day-of-week field
that `mono_w32file_filetime_to_systemtime` produces is `((1 + day_count) mod 7) + 1`,
a value from 1 to 7, where `day_count = ticks div 864000000000`. -/
theorem day_of_week_field (fuel : Nat) (hf : 4 ≤ fuel) (ft : FILETIME) (st : SYSTEMTIME)
    (hl : ft.dwLowDateTime < 4294967296) (hh : ft.dwHighDateTime < 2147483648) :
    ∃ s, mono_w32file_filetime_to_systemtime fuel ft (some st)
          = some { ret := true, last_error := none, system_time := some s }
      ∧ s.wDayOfWeek
          = (1 + (ft.dwHighDateTime * 4294967296 + ft.dwLowDateTime) / 864000000000) % 7 + 1 := by
  obtain ⟨y, m, dd, hres, _⟩ := filetime_decode fuel hf ft st hl hh
  exact ⟨_, hres, rfl⟩

theorem day_of_week_field_witness :
    ∃ s, mono_w32file_filetime_to_systemtime 4 ⟨0, 27111902⟩ (some ⟨0, 0, 0, 0, 0, 0, 0, 0⟩)
          = some { ret := true, last_error := none, system_time := some s }
      ∧ s.wDayOfWeek = (1 + (27111902 * 4294967296 + 0) / 864000000000) % 7 + 1 :=
  day_of_week_field 4 (Nat.le_refl 4) ⟨0, 27111902⟩ ⟨0, 0, 0, 0, 0, 0, 0, 0⟩
    (by decide) (by decide)

/-- C15, as stated, fails: tick 0 (1601-01-01, a Monday, `day_count = 0`) gives
day-of-week 2, not `(1 + 0) mod 7 = 1`. -/
theorem day_of_week_of_tick_zero :
    mono_w32file_filetime_to_systemtime 4 ⟨0, 0⟩ (some ⟨0, 0, 0, 0, 0, 0, 0, 0⟩)
      = some { ret := true, last_error := none,
               system_time := some ⟨1601, 1, 2, 1, 0, 0, 0, 0⟩ } := by
  decide

/-! ## Deleting, dispatching, reading, writing and locking -/

/-- C11, as the code has it: `mono_w32file_delete` makes no share check, the one in
its source is compiled out; with a name that converts, it calls unlink on the file
and returns TRUE when that call succeeds, whatever the share table holds. -/
theorem delete_makes_no_share_check (unix_to_win32 : Nat → Nat) (portability : Bool)
    (find_file : String → Option String) (parent_exists : Bool) (name filename : String)
    (w : World) (r : SysReturn) (rest : List SysReturn)
    (hp : w.pending = r :: rest) (hr : r.ret ≠ -1) :
    mono_w32file_delete unix_to_win32 portability find_file parent_exists (some name)
        (some filename) w
      = some (true, { w with pending := rest, calls := w.calls ++ [Syscall.unlink filename] }) := by
  simp only [mono_w32file_delete, _wapi_unlink, syscall, hp, hr, false_and, if_false]

theorem delete_makes_no_share_check_witness :
    mono_w32file_delete (fun e => e) false (fun _ => none) true (some "a") (some "a")
        { pending := [⟨0, 0, false⟩], calls := [], errno := 0, last_error := 0 }
      = some (true, { pending := [], calls := [Syscall.unlink "a"], errno := 0,
                      last_error := 0 }) :=
  delete_makes_no_share_check (fun e => e) false (fun _ => none) true "a" "a"
    { pending := [⟨0, 0, false⟩], calls := [], errno := 0, last_error := 0 } ⟨0, 0, false⟩ []
    rfl (by decide)

/-- C11, as stated, fails: while the share table holds a record for the identity
`(1, 2)` that lacks `FILE_SHARE_DELETE`, which makes `share_allows_delete` refuse,
`mono_w32file_delete` of that file calls unlink and returns TRUE. -/
theorem delete_ignores_share_table :
    (share_allows_delete [⟨1, 2, 3, GENERIC_READ, 1, 0⟩] 1 2).map (fun c => c.ret) = some false
      ∧ mono_w32file_delete (fun e => e) false (fun _ => none) true (some "a") (some "a")
          { pending := [⟨0, 0, false⟩], calls := [], errno := 0, last_error := 0 }
        = some (true, { pending := [], calls := [Syscall.unlink "a"], errno := 0,
                        last_error := 0 }) := by
  decide

/-- C16: for every handle type and every slot of `io_ops` that is NULL, the public
dispatcher of that slot sets `ERROR_INVALID_HANDLE` and returns the failure value of
the operation, calling no resource function; the console and pipe rows hold exactly
get-file-type, read and write, and the file row holds all nine. -/
theorem dispatch_null_slot :
    (∀ type slot, io_ops type slot = none →
        dispatcher slot type = Dispatch.returned (failureSentinel slot) ERROR_INVALID_HANDLE)
      ∧ (∀ slot, (io_ops .MONO_W32HANDLE_CONSOLE slot).isSome
          ↔ (slot = .getfiletype ∨ slot = .readfile ∨ slot = .writefile))
      ∧ (∀ slot, (io_ops .MONO_W32HANDLE_PIPE slot).isSome
          ↔ (slot = .getfiletype ∨ slot = .readfile ∨ slot = .writefile))
      ∧ (∀ slot, (io_ops .MONO_W32HANDLE_FILE slot).isSome) := by
  refine ⟨?_, ?_, ?_, ?_⟩
  · intro type slot h
    cases type <;> cases slot <;> first | rfl | exact absurd h (by decide)
  · intro slot; cases slot <;> decide
  · intro slot; cases slot <;> decide
  · intro slot; cases slot <;> rfl

theorem retryLoop_eq (c : Syscall) (stop : Bool) (pre : List SysReturn) (r : SysReturn)
    (rest : List SysReturn) (calls : List Syscall) (errno : Nat)
    (hpre : ∀ x ∈ pre, x.ret = -1 ∧ x.err = EINTR ∧ ¬ (stop = true ∧ x.interrupt_state = true))
    (hr : ¬ (r.ret = -1 ∧ r.err = EINTR ∧ ¬ (stop = true ∧ r.interrupt_state = true))) :
    ∃ e, retryLoop c stop (pre ++ r :: rest) calls errno
        = some (r.ret, rest, calls ++ List.replicate (pre.length + 1) c, e)
      ∧ (r.ret = -1 → e = r.err) := by
  induction pre generalizing calls errno with
  | nil =>
    refine ⟨if r.ret = -1 then r.err else errno, ?_, fun h => by rw [if_pos h]⟩
    simp only [List.nil_append, retryLoop, List.length_nil, Nat.zero_add, List.replicate_one]
    rw [if_neg]
    intro h
    apply hr
    refine ⟨h.1, ?_, h.2.2⟩
    have := h.2.1
    rw [if_pos h.1] at this
    exact this
  | cons x pre ih =>
    obtain ⟨hx1, hx2, hx3⟩ := hpre x (List.mem_cons_self _ _)
    obtain ⟨e, he, he2⟩ := ih (calls ++ [c]) x.err
      (fun y hy => hpre y (List.mem_cons_of_mem _ hy))
    refine ⟨e, ?_, he2⟩
    rw [List.cons_append, retryLoop]
    simp only [hx1, if_true, hx2, true_and]
    rw [if_pos hx3]
    rw [hx2] at he
    rw [he, List.length_cons, List.append_assoc]
    rfl

theorem retryLoop_calls (c : Syscall) (stop : Bool) (pending : List SysReturn)
    (calls : List Syscall) (errno : Nat) (ret : Int) (p1 : List SysReturn)
    (c1 : List Syscall) (e1 : Nat)
    (h : retryLoop c stop pending calls errno = some (ret, p1, c1, e1)) :
    ∃ k, 0 < k ∧ c1 = calls ++ List.replicate k c := by
  induction pending generalizing calls errno with
  | nil => simp [retryLoop] at h
  | cons r rest ih =>
    rw [retryLoop] at h
    generalize (if r.ret = -1 then r.err else errno) = e0 at h
    by_cases hc : r.ret = -1 ∧ e0 = EINTR ∧ ¬ (stop = true ∧ r.interrupt_state = true)
    · rw [if_pos hc] at h
      obtain ⟨k, hk, he⟩ := ih _ _ h
      refine ⟨k + 1, Nat.succ_pos k, ?_⟩
      rw [he, List.append_assoc, List.replicate_succ]
      rfl
    · rw [if_neg hc] at h
      simp only [Option.some.injEq, Prod.mk.injEq] at h
      exact ⟨1, Nat.one_pos, h.2.2.1.symm⟩

theorem retry_calls (c : Syscall) (stop : Bool) (w w1 : World) (ret : Int)
    (h : retry c stop w = some (ret, w1)) :
    ∃ k, 0 < k ∧ w1.calls = w.calls ++ List.replicate k c := by
  unfold retry at h
  split at h
  · cases h
  · rename_i ret1 p1 c1 e1 heq
    simp only [Option.some.injEq, Prod.mk.injEq] at h
    obtain ⟨k, hk, he⟩ := retryLoop_calls c stop _ _ _ _ _ _ _ heq
    refine ⟨k, hk, ?_⟩
    rw [← h.2]
    exact he

theorem lock_region_calls (fd offset length : Int) (w w1 : World) (b : Bool)
    (h : _wapi_lock_file_region fd offset length w = some (b, w1)) :
    ∃ k, w1.calls
        = w.calls ++ List.replicate k (Syscall.fcntl_setlk fd F_WRLCK SEEK_SET offset length)
      ∧ (b = true → 0 < k) := by
  unfold _wapi_lock_file_region at h
  by_cases hneg : offset < 0 ∨ length < 0
  · rw [if_pos hneg] at h
    simp only [Option.some.injEq, Prod.mk.injEq] at h
    refine ⟨0, ?_, fun hb => ?_⟩
    · rw [← h.2]; simp
    · rw [← h.1] at hb; cases hb
  · rw [if_neg hneg] at h
    cases hr : retry (Syscall.fcntl_setlk fd F_WRLCK SEEK_SET offset length) false w with
    | none => rw [hr] at h; cases h
    | some p =>
      obtain ⟨ret, w2⟩ := p
      obtain ⟨k, hk, he⟩ := retry_calls _ _ _ _ _ hr
      rw [hr] at h
      simp only [] at h
      refine ⟨k, ?_, fun _ => hk⟩
      split at h
      · split at h
        · cases h; exact he
        · cases h; exact he
      · cases h; exact he

theorem unlock_region_calls (fd offset length : Int) (w w1 : World) (b : Bool)
    (h : _wapi_unlock_file_region fd offset length w = some (b, w1)) :
    ∃ k, 0 < k ∧ w1.calls
        = w.calls ++ List.replicate k (Syscall.fcntl_setlk fd F_UNLCK SEEK_SET offset length) := by
  unfold _wapi_unlock_file_region at h
  cases hr : retry (Syscall.fcntl_setlk fd F_UNLCK SEEK_SET offset length) false w with
  | none => rw [hr] at h; cases h
  | some p =>
    obtain ⟨ret, w2⟩ := p
    obtain ⟨k, hk, he⟩ := retry_calls _ _ _ _ _ hr
    rw [hr] at h
    simp only [] at h
    refine ⟨k, hk, ?_⟩
    split at h
    · split at h
      · cases h; exact he
      · cases h; exact he
    · cases h; exact he

theorem write_tail_calls (u2w : Nat → Nat) (lock : Bool) (fd : Int) (n : Nat)
    (count : Option Nat) (p : Int) (w : World) (res : IoResult)
    (h : file_write_tail u2w lock fd n count p w = some res) :
    ∃ k2 k3, 0 < k2 ∧ (lock = true → 0 < k3) ∧ (lock = false → k3 = 0)
      ∧ res.world.calls = w.calls ++ List.replicate k2 (Syscall.write fd n)
          ++ List.replicate k3 (Syscall.fcntl_setlk fd F_UNLCK SEEK_SET p n) := by
  unfold file_write_tail at h
  cases hr : retry (Syscall.write fd n) true w with
  | none => rw [hr] at h; cases h
  | some q =>
    obtain ⟨ret, w1⟩ := q
    obtain ⟨k2, hk2, he2⟩ := retry_calls _ _ _ _ _ hr
    rw [hr] at h
    simp only [] at h
    cases lock with
    | false =>
      simp only [Bool.false_eq_true, if_false] at h
      refine ⟨k2, 0, hk2, fun hb => Bool.noConfusion hb, fun _ => rfl, ?_⟩
      rw [List.replicate_zero, List.append_nil, ← he2]
      split at h
      · split at h
        · cases h; rfl
        · cases h; rfl
      · cases h; rfl
    | true =>
      simp only [if_true] at h
      cases hu : _wapi_unlock_file_region fd p n w1 with
      | none => rw [hu] at h; cases h
      | some q2 =>
        obtain ⟨b, w2⟩ := q2
        obtain ⟨k3, hk3, he3⟩ := unlock_region_calls _ _ _ _ _ _ hu
        rw [hu] at h
        simp only [] at h
        refine ⟨k2, k3, hk2, fun _ => hk3, fun hb => Bool.noConfusion hb, ?_⟩
        rw [← he2, ← he3]
        split at h
        · split at h
          · cases h; rfl
          · cases h; rfl
        · cases h; rfl

/-- C17: for file, console and pipe resources, a read on a resource whose access mask
has neither `GENERIC_READ` nor `GENERIC_ALL`, and a write on one whose mask has neither
`GENERIC_WRITE` nor `GENERIC_ALL`, returns FALSE with last error `ERROR_ACCESS_DENIED`,
sets the count of bytes to 0 and makes no system call: the calls made and the answers
pending are those of before. -/
theorem access_denied_no_io (u2w : Nat → Nat) (h : MonoW32HandleFile) (numbytes : Nat)
    (count : Option Nat) (w : World) :
    (h.fileaccess &&& GENERIC_READ = 0 ∧ h.fileaccess &&& GENERIC_ALL = 0 →
      file_read u2w (some h) numbytes count w
          = some { ret := false, count := count.map (fun _ => 0),
                   world := { w with last_error := ERROR_ACCESS_DENIED } }
        ∧ console_read u2w (some h) numbytes count w
          = some { ret := false, count := count.map (fun _ => 0),
                   world := { w with last_error := ERROR_ACCESS_DENIED } }
        ∧ pipe_read u2w (some h) numbytes count w
          = some { ret := false, count := count.map (fun _ => 0),
                   world := { w with last_error := ERROR_ACCESS_DENIED } })
    ∧ (h.fileaccess &&& GENERIC_WRITE = 0 ∧ h.fileaccess &&& GENERIC_ALL = 0 →
      (∀ lock_while_writing, file_write u2w lock_while_writing (some h) numbytes count w
          = some { ret := false, count := count.map (fun _ => 0),
                   world := { w with last_error := ERROR_ACCESS_DENIED } })
        ∧ console_write u2w (some h) numbytes count w
          = some { ret := false, count := count.map (fun _ => 0),
                   world := { w with last_error := ERROR_ACCESS_DENIED } }
        ∧ pipe_write u2w (some h) numbytes count w
          = some { ret := false, count := count.map (fun _ => 0),
                   world := { w with last_error := ERROR_ACCESS_DENIED } }) := by
  constructor
  · intro hd
    refine ⟨?_, ?_, ?_⟩
    · simp only [file_read, hd, and_self, if_true]
    · simp only [console_read, hd, and_self, if_true]
    · simp only [pipe_read, hd, and_self, if_true]
  · intro hd
    refine ⟨fun lock => ?_, ?_, ?_⟩
    · simp only [file_write, hd, and_self, if_true]
    · simp only [console_write, hd, and_self, if_true]
    · simp only [pipe_write, hd, and_self, if_true]

theorem retry_eq (c : Syscall) (stop : Bool) (w : World) (pre : List SysReturn) (r : SysReturn)
    (rest : List SysReturn) (hp : w.pending = pre ++ r :: rest)
    (hpre : ∀ x ∈ pre, x.ret = -1 ∧ x.err = EINTR ∧ ¬ (stop = true ∧ x.interrupt_state = true))
    (hr : ¬ (r.ret = -1 ∧ r.err = EINTR ∧ ¬ (stop = true ∧ r.interrupt_state = true))) :
    ∃ e, retry c stop w
        = some (r.ret, { w with pending := rest,
                                calls := w.calls ++ List.replicate (pre.length + 1) c,
                                errno := e })
      ∧ (r.ret = -1 → e = r.err) := by
  obtain ⟨e, he, he2⟩ := retryLoop_eq c stop pre r rest w.calls w.errno hpre hr
  refine ⟨e, ?_, he2⟩
  simp only [retry, hp, he]

/-- What `file_write` returns under `lock_while_writing` when the query of the offset
fails, and when the lock is refused after any number of `EINTR` failures. -/
theorem strict_write_refused (u2w : Nat → Nat) (h : MonoW32HandleFile) (n : Nat)
    (count : Option Nat) (w : World)
    (hacc : ¬ (h.fileaccess &&& GENERIC_WRITE = 0 ∧ h.fileaccess &&& GENERIC_ALL = 0)) :
    (∀ r rest, w.pending = r :: rest → r.ret = -1 →
      file_write u2w true (some h) n count w
        = some { ret := false, count := count.map (fun _ => 0),
                 world := { pending := rest,
                            calls := w.calls ++ [Syscall.lseek h.fd 0 SEEK_CUR],
                            errno := r.err, last_error := u2w r.err } })
    ∧ (∀ r pre l rest, w.pending = r :: (pre ++ l :: rest) → 0 ≤ r.ret →
        (∀ x ∈ pre, x.ret = -1 ∧ x.err = EINTR) →
        l.ret = -1 → l.err ≠ EINTR → l.err ≠ ENOLCK → l.err ≠ EOPNOTSUPP → l.err ≠ ENOTSUP →
        file_write u2w true (some h) n count w
          = some { ret := false, count := count.map (fun _ => 0),
                   world := { pending := rest,
                              calls := w.calls ++ [Syscall.lseek h.fd 0 SEEK_CUR]
                                ++ List.replicate (pre.length + 1)
                                    (Syscall.fcntl_setlk h.fd F_WRLCK SEEK_SET r.ret n),
                              errno := l.err, last_error := ERROR_LOCK_VIOLATION } }) := by
  constructor
  · intro r rest hp hr
    simp only [file_write, hacc, if_false, if_true, syscall, hp, hr,
      _wapi_set_last_error_from_errno]
  · intro r pre l rest hp hr hpre hl1 hl2 hl3 hl4 hl5
    have hne : r.ret ≠ -1 := by omega
    have hpre2 : ∀ x ∈ pre, x.ret = -1 ∧ x.err = EINTR
        ∧ ¬ (false = true ∧ x.interrupt_state = true) :=
      fun x hx => ⟨(hpre x hx).1, (hpre x hx).2, fun h => Bool.noConfusion h.1⟩
    have hr2 : ¬ (l.ret = -1 ∧ l.err = EINTR ∧ ¬ (false = true ∧ l.interrupt_state = true)) :=
      fun h => hl2 h.2.1
    obtain ⟨e, he, he2⟩ := retry_eq (Syscall.fcntl_setlk h.fd F_WRLCK SEEK_SET r.ret n) false
      { pending := pre ++ l :: rest, calls := w.calls ++ [Syscall.lseek h.fd 0 SEEK_CUR],
        errno := if r.ret = -1 then r.err else w.errno, last_error := w.last_error }
      pre l rest rfl hpre2 hr2
    have hee := he2 hl1
    subst hee
    rw [if_neg hne] at he
    have hn0 : ¬ (r.ret < 0 ∨ (n : Int) < 0) := by omega
    have hu : ¬ (l.err = ENOLCK ∨ l.err = EOPNOTSUPP ∨ l.err = ENOTSUP) := by
      intro h; rcases h with h | h | h
      · exact hl3 h
      · exact hl4 h
      · exact hl5 h
    simp only [file_write, hacc, if_false, if_true, syscall, hp, hne,
      _wapi_lock_file_region, hn0, he, hl1, hu]

theorem lock_region_granted (fd offset length : Int) (w : World) (pre : List SysReturn)
    (l : SysReturn) (rest : List SysReturn) (hp : w.pending = pre ++ l :: rest)
    (h0 : 0 ≤ offset) (h1 : 0 ≤ length) (hpre : ∀ x ∈ pre, x.ret = -1 ∧ x.err = EINTR)
    (hg : l.ret ≠ -1 ∨ l.err = ENOLCK ∨ l.err = EOPNOTSUPP ∨ l.err = ENOTSUP) :
    ∃ e, _wapi_lock_file_region fd offset length w
      = some (true, { w with pending := rest,
                             calls := w.calls ++ List.replicate (pre.length + 1)
                               (Syscall.fcntl_setlk fd F_WRLCK SEEK_SET offset length),
                             errno := e }) := by
  have hl : ¬ (l.ret = -1 ∧ l.err = EINTR ∧ ¬ (false = true ∧ l.interrupt_state = true)) := by
    rintro ⟨a, b, -⟩
    rcases hg with hg | hg | hg | hg
    · exact hg a
    · rw [b] at hg; exact absurd hg (by decide)
    · rw [b] at hg; exact absurd hg (by decide)
    · rw [b] at hg; exact absurd hg (by decide)
  obtain ⟨e, he, he2⟩ := retry_eq (Syscall.fcntl_setlk fd F_WRLCK SEEK_SET offset length) false
    w pre l rest hp (fun x hx => ⟨(hpre x hx).1, (hpre x hx).2, fun hh => Bool.noConfusion hh.1⟩)
    hl
  refine ⟨e, ?_⟩
  unfold _wapi_lock_file_region
  rw [if_neg (by omega), he]
  dsimp only
  by_cases hr : l.ret = -1
  · rw [if_pos hr]
    have hee := he2 hr
    have hg2 : e = ENOLCK ∨ e = EOPNOTSUPP ∨ e = ENOTSUP := by
      rw [hee]
      rcases hg with hg | hg
      · exact absurd hr hg
      · exact hg
    rw [if_pos hg2]
  · rw [if_neg hr]

theorem unlock_region_eq (fd offset length : Int) (w : World) (pre : List SysReturn)
    (u : SysReturn) (rest : List SysReturn) (hp : w.pending = pre ++ u :: rest)
    (hpre : ∀ x ∈ pre, x.ret = -1 ∧ x.err = EINTR) (hu : ¬ (u.ret = -1 ∧ u.err = EINTR)) :
    ∃ b e le, _wapi_unlock_file_region fd offset length w
      = some (b, { pending := rest,
                   calls := w.calls ++ List.replicate (pre.length + 1)
                     (Syscall.fcntl_setlk fd F_UNLCK SEEK_SET offset length),
                   errno := e, last_error := le }) := by
  obtain ⟨e, he, -⟩ := retry_eq (Syscall.fcntl_setlk fd F_UNLCK SEEK_SET offset length) false
    w pre u rest hp (fun x hx => ⟨(hpre x hx).1, (hpre x hx).2, fun hh => Bool.noConfusion hh.1⟩)
    (fun hh => hu ⟨hh.1, hh.2.1⟩)
  unfold _wapi_unlock_file_region
  rw [he]
  dsimp only
  split
  · split
    · exact ⟨_, _, _, rfl⟩
    · exact ⟨_, _, _, rfl⟩
  · exact ⟨_, _, _, rfl⟩

theorem write_tail_returns (u2w : Nat → Nat) (lock : Bool) (fd : Int) (n : Nat)
    (count : Option Nat) (p : Int) (w : World) (pre2 : List SysReturn) (wr : SysReturn)
    (pre3 : List SysReturn) (u : SysReturn) (rest : List SysReturn)
    (hp : w.pending = pre2 ++ wr :: (if lock then pre3 ++ u :: rest else rest))
    (hpre2 : ∀ x ∈ pre2, x.ret = -1 ∧ x.err = EINTR ∧ x.interrupt_state = false)
    (hwr : ¬ (wr.ret = -1 ∧ wr.err = EINTR ∧ wr.interrupt_state = false))
    (hpre3 : ∀ x ∈ pre3, x.ret = -1 ∧ x.err = EINTR) (hu : ¬ (u.ret = -1 ∧ u.err = EINTR)) :
    ∃ res, file_write_tail u2w lock fd n count p w = some res
      ∧ res.world.pending = rest
      ∧ res.world.calls = w.calls ++ List.replicate (pre2.length + 1) (Syscall.write fd n)
          ++ (if lock then List.replicate (pre3.length + 1)
                (Syscall.fcntl_setlk fd F_UNLCK SEEK_SET p n) else [])
      ∧ (wr.ret ≠ -1 → res.ret = true ∧ res.count = count.map (fun _ => toUInt32 wr.ret)) := by
  obtain ⟨e, he, -⟩ := retry_eq (Syscall.write fd n) true w pre2 wr _ hp
    (fun x hx => ⟨(hpre2 x hx).1, (hpre2 x hx).2.1, fun hh => by
      rw [(hpre2 x hx).2.2] at hh; exact Bool.noConfusion hh.2⟩)
    (fun hh => hwr ⟨hh.1, hh.2.1, by
      cases hi : wr.interrupt_state with
      | false => rfl
      | true => exact absurd ⟨rfl, hi⟩ hh.2.2⟩)
  unfold file_write_tail
  rw [he]
  dsimp only
  cases lock with
  | false =>
    simp only [Bool.false_eq_true, if_false, List.append_nil]
    split
    · split
      · exact ⟨_, rfl, rfl, rfl, fun h => absurd (by assumption) h⟩
      · exact ⟨_, rfl, rfl, rfl, fun h => absurd (by assumption) h⟩
    · exact ⟨_, rfl, rfl, rfl, fun _ => ⟨rfl, rfl⟩⟩
  | true =>
    simp only [if_true]
    obtain ⟨b, e2, le, hun⟩ := unlock_region_eq fd p n
      { w with pending := pre3 ++ u :: rest,
               calls := w.calls ++ List.replicate (pre2.length + 1) (Syscall.write fd n),
               errno := e } pre3 u rest rfl hpre3 hu
    rw [hun]
    dsimp only
    split
    · split
      · exact ⟨_, rfl, rfl, rfl, fun h => absurd (by assumption) h⟩
      · exact ⟨_, rfl, rfl, rfl, fun h => absurd (by assumption) h⟩
    · exact ⟨_, rfl, rfl, rfl, fun _ => ⟨rfl, rfl⟩⟩

/-- C19: with `lock_while_writing`, a `file_write` of `numbytes` bytes that passes
the access check and gets the offset `p` and then the lock, after any number of `EINTR`
failures, returns having made, in this order, the query of the offset, the requests of
a lock with start `p` and length `numbytes`, the write, and the requests of the unlock
of the same region, whether the write succeeded or failed; when the query gives -1 it
returns FALSE after the query alone, and when the lock is refused it returns FALSE
after the lock requests, in both cases without a write; every run that returns is one
of these three, FALSE after lock requests coming only from a refused lock. Without
`lock_while_writing` it returns having made write calls only. -/
theorem strict_write_locks (u2w : Nat → Nat) (h : MonoW32HandleFile) (n : Nat)
    (count : Option Nat) (w : World)
    (hacc : ¬ (h.fileaccess &&& GENERIC_WRITE = 0 ∧ h.fileaccess &&& GENERIC_ALL = 0)) :
    (∀ r pre1 l pre2 wr pre3 u rest,
        w.pending = r :: (pre1 ++ l :: (pre2 ++ wr :: (pre3 ++ u :: rest))) → 0 ≤ r.ret →
        (∀ x ∈ pre1, x.ret = -1 ∧ x.err = EINTR) →
        (l.ret ≠ -1 ∨ l.err = ENOLCK ∨ l.err = EOPNOTSUPP ∨ l.err = ENOTSUP) →
        (∀ x ∈ pre2, x.ret = -1 ∧ x.err = EINTR ∧ x.interrupt_state = false) →
        ¬ (wr.ret = -1 ∧ wr.err = EINTR ∧ wr.interrupt_state = false) →
        (∀ x ∈ pre3, x.ret = -1 ∧ x.err = EINTR) → ¬ (u.ret = -1 ∧ u.err = EINTR) →
        ∃ res, file_write u2w true (some h) n count w = some res
          ∧ res.world.pending = rest
          ∧ res.world.calls = w.calls ++ [Syscall.lseek h.fd 0 SEEK_CUR]
              ++ List.replicate (pre1.length + 1)
                  (Syscall.fcntl_setlk h.fd F_WRLCK SEEK_SET r.ret n)
              ++ List.replicate (pre2.length + 1) (Syscall.write h.fd n)
              ++ List.replicate (pre3.length + 1)
                  (Syscall.fcntl_setlk h.fd F_UNLCK SEEK_SET r.ret n)
          ∧ (wr.ret ≠ -1 → res.ret = true ∧ res.count = count.map (fun _ => toUInt32 wr.ret)))
    ∧ (∀ r rest, w.pending = r :: rest → r.ret = -1 →
        file_write u2w true (some h) n count w
          = some { ret := false, count := count.map (fun _ => 0),
                   world := { pending := rest,
                              calls := w.calls ++ [Syscall.lseek h.fd 0 SEEK_CUR],
                              errno := r.err, last_error := u2w r.err } })
    ∧ (∀ r pre l rest, w.pending = r :: (pre ++ l :: rest) → 0 ≤ r.ret →
        (∀ x ∈ pre, x.ret = -1 ∧ x.err = EINTR) →
        l.ret = -1 → l.err ≠ EINTR → l.err ≠ ENOLCK → l.err ≠ EOPNOTSUPP → l.err ≠ ENOTSUP →
        file_write u2w true (some h) n count w
          = some { ret := false, count := count.map (fun _ => 0),
                   world := { pending := rest,
                              calls := w.calls ++ [Syscall.lseek h.fd 0 SEEK_CUR]
                                ++ List.replicate (pre.length + 1)
                                    (Syscall.fcntl_setlk h.fd F_WRLCK SEEK_SET r.ret n),
                              errno := l.err, last_error := ERROR_LOCK_VIOLATION } })
    ∧ (∀ pre2 wr rest, w.pending = pre2 ++ wr :: rest →
        (∀ x ∈ pre2, x.ret = -1 ∧ x.err = EINTR ∧ x.interrupt_state = false) →
        ¬ (wr.ret = -1 ∧ wr.err = EINTR ∧ wr.interrupt_state = false) →
        ∃ res, file_write u2w false (some h) n count w = some res
          ∧ res.world.pending = rest
          ∧ res.world.calls = w.calls ++ List.replicate (pre2.length + 1) (Syscall.write h.fd n))
    ∧ (∀ res r rest, w.pending = r :: rest →
        file_write u2w true (some h) n count w = some res →
          (r.ret = -1 ∧ res.ret = false
              ∧ res.world.calls = w.calls ++ [Syscall.lseek h.fd 0 SEEK_CUR])
          ∨ (r.ret ≠ -1 ∧ res.ret = false
              ∧ _wapi_lock_file_region h.fd r.ret n
                  { w with pending := rest, calls := w.calls ++ [Syscall.lseek h.fd 0 SEEK_CUR] }
                = some (false, res.world)
              ∧ ∃ k, res.world.calls
                = w.calls ++ [Syscall.lseek h.fd 0 SEEK_CUR]
                  ++ List.replicate k (Syscall.fcntl_setlk h.fd F_WRLCK SEEK_SET r.ret n))
          ∨ (r.ret ≠ -1
              ∧ (∃ w2, _wapi_lock_file_region h.fd r.ret n
                  { w with pending := rest, calls := w.calls ++ [Syscall.lseek h.fd 0 SEEK_CUR] }
                = some (true, w2))
              ∧ ∃ k1 k2 k3, 0 < k1 ∧ 0 < k2 ∧ 0 < k3 ∧ res.world.calls
                = w.calls ++ [Syscall.lseek h.fd 0 SEEK_CUR]
                  ++ List.replicate k1 (Syscall.fcntl_setlk h.fd F_WRLCK SEEK_SET r.ret n)
                  ++ List.replicate k2 (Syscall.write h.fd n)
                  ++ List.replicate k3 (Syscall.fcntl_setlk h.fd F_UNLCK SEEK_SET r.ret n)))
    ∧ (∀ res, file_write u2w false (some h) n count w = some res →
        ∃ k, 0 < k ∧ res.world.calls = w.calls ++ List.replicate k (Syscall.write h.fd n)) := by
  refine ⟨?_, (strict_write_refused u2w h n count w hacc).1,
    (strict_write_refused u2w h n count w hacc).2, ?_, ?_, ?_⟩
  · intro r pre1 l pre2 wr pre3 u rest hp hr0 hpre1 hg hpre2 hwr hpre3 hu
    have hne : r.ret ≠ -1 := by omega
    obtain ⟨e, hl⟩ := lock_region_granted h.fd r.ret n
      { w with pending := pre1 ++ l :: (pre2 ++ wr :: (pre3 ++ u :: rest)),
               calls := w.calls ++ [Syscall.lseek h.fd 0 SEEK_CUR] }
      pre1 l _ rfl hr0 (Int.ofNat_nonneg n) hpre1 hg
    obtain ⟨res, hres, e1, e2, e3⟩ := write_tail_returns u2w true h.fd n (count.map (fun _ => 0))
      r.ret
      { w with pending := pre2 ++ wr :: (pre3 ++ u :: rest),
               calls := w.calls ++ [Syscall.lseek h.fd 0 SEEK_CUR]
                 ++ List.replicate (pre1.length + 1)
                     (Syscall.fcntl_setlk h.fd F_WRLCK SEEK_SET r.ret n),
               errno := e }
      pre2 wr pre3 u rest rfl hpre2 hwr hpre3 hu
    refine ⟨res, ?_, e1, ?_, ?_⟩
    · simp only [file_write, hacc, if_false, if_true, syscall, hp, hne]
      rw [hl]
      simp only [Bool.true_eq_false, if_false]
      exact hres
    · rw [e2]
      simp only [if_true]
    · intro hw
      obtain ⟨a, b⟩ := e3 hw
      refine ⟨a, ?_⟩
      rw [b]
      cases count <;> rfl
  · intro pre2 wr rest hp hpre2 hwr
    obtain ⟨res, hres, e1, e2, -⟩ := write_tail_returns u2w false h.fd n
      (count.map (fun _ => 0)) 0 w pre2 wr [] ⟨0, 0, false⟩ rest
      (by simp only [Bool.false_eq_true, if_false]; exact hp) hpre2 hwr
      (fun x hx => absurd hx (List.not_mem_nil x)) (fun hh => absurd hh.1 (by decide))
    refine ⟨res, ?_, e1, ?_⟩
    · simp only [file_write, hacc, if_false, Bool.false_eq_true]
      exact hres
    · rw [e2]
      simp only [Bool.false_eq_true, if_false, List.append_nil]
  · intro res r rest hp hres
    simp only [file_write, hacc, if_false, if_true, syscall, hp] at hres
    by_cases h1 : r.ret = -1
    · left
      rw [if_pos h1] at hres
      cases hres
      exact ⟨h1, rfl, rfl⟩
    · right
      simp only [h1, if_false] at hres
      cases hl : _wapi_lock_file_region h.fd r.ret n
          { pending := rest, calls := w.calls ++ [Syscall.lseek h.fd 0 SEEK_CUR],
            errno := w.errno, last_error := w.last_error } with
      | none => rw [hl] at hres; cases hres
      | some q =>
        obtain ⟨ok, w2⟩ := q
        obtain ⟨k1, hk1, hpos⟩ := lock_region_calls _ _ _ _ _ _ hl
        rw [hl] at hres
        simp only [] at hres
        cases ok with
        | false =>
          left
          simp only [if_true] at hres
          cases hres
          exact ⟨h1, rfl, rfl, k1, hk1⟩
        | true =>
          right
          simp only [Bool.true_eq_false, if_false] at hres
          obtain ⟨k2, k3, hk2, hk3, _, hc⟩ := write_tail_calls _ _ _ _ _ _ _ _ hres
          refine ⟨h1, ⟨w2, rfl⟩, k1, k2, k3, hpos rfl, hk2, hk3 rfl, ?_⟩
          rw [hc, hk1]
  · intro res hres
    simp only [file_write, hacc, if_false, Bool.false_eq_true] at hres
    obtain ⟨k2, k3, hk2, _, hk3, hc⟩ := write_tail_calls _ _ _ _ _ _ _ _ hres
    refine ⟨k2, hk2, ?_⟩
    rw [hc, hk3 rfl, List.replicate_zero, List.append_nil]

theorem strict_write_locks_witness :
    ∃ res, file_write (fun e => e) true (some ⟨none, none, 3, 0, GENERIC_WRITE, 0, 0⟩) 8 (some 7)
          { pending := [⟨100, 0, false⟩, ⟨-1, EINTR, false⟩, ⟨0, 0, false⟩, ⟨-1, 28, false⟩,
                        ⟨0, 0, false⟩],
            calls := [], errno := 0, last_error := 0 } = some res
      ∧ res.world.pending = []
      ∧ res.world.calls = [] ++ [Syscall.lseek 3 0 SEEK_CUR]
          ++ List.replicate ([(⟨-1, EINTR, false⟩ : SysReturn)].length + 1)
              (Syscall.fcntl_setlk 3 F_WRLCK SEEK_SET 100 (8 : Nat))
          ++ List.replicate (([] : List SysReturn).length + 1) (Syscall.write 3 8)
          ++ List.replicate (([] : List SysReturn).length + 1)
              (Syscall.fcntl_setlk 3 F_UNLCK SEEK_SET 100 (8 : Nat))
      ∧ ((-1 : Int) ≠ -1 →
          res.ret = true ∧ res.count = (some 7).map (fun _ => toUInt32 (-1))) :=
  (strict_write_locks (fun e => e) ⟨none, none, 3, 0, GENERIC_WRITE, 0, 0⟩ 8 (some 7)
    { pending := [⟨100, 0, false⟩, ⟨-1, EINTR, false⟩, ⟨0, 0, false⟩, ⟨-1, 28, false⟩,
                  ⟨0, 0, false⟩],
      calls := [], errno := 0, last_error := 0 }
    (by decide)).1 ⟨100, 0, false⟩ [⟨-1, EINTR, false⟩] ⟨0, 0, false⟩ [] ⟨-1, 28, false⟩ []
      ⟨0, 0, false⟩ [] rfl (by decide) (by decide) (Or.inl (by decide)) (by decide) (by decide)
      (by decide) (by decide)

/-- C20: once `fcntl` stops failing with `EINTR`, `_wapi_lock_file_region` with offset
and length not negative returns TRUE exactly when the request succeeded or failed with
`ENOLCK`, `EOPNOTSUPP` or `ENOTSUP`, and FALSE with `ERROR_LOCK_VIOLATION` on any other
failure; `_wapi_unlock_file_region` does the same; with a negative offset or length
`_wapi_lock_file_region` returns FALSE with `ERROR_INVALID_PARAMETER` and calls
nothing. -/
theorem lock_region_result (fd offset length : Int) (w : World) (pre : List SysReturn)
    (r : SysReturn) (rest : List SysReturn) (hp : w.pending = pre ++ r :: rest)
    (hpre : ∀ x ∈ pre, x.ret = -1 ∧ x.err = EINTR) (hr : ¬ (r.ret = -1 ∧ r.err = EINTR)) :
    (0 ≤ offset → 0 ≤ length →
      ∃ w1, _wapi_lock_file_region fd offset length w
          = some (decide (r.ret ≠ -1 ∨ r.err = ENOLCK ∨ r.err = EOPNOTSUPP ∨ r.err = ENOTSUP), w1)
        ∧ w1.calls = w.calls ++ List.replicate (pre.length + 1)
            (Syscall.fcntl_setlk fd F_WRLCK SEEK_SET offset length)
        ∧ (¬ (r.ret ≠ -1 ∨ r.err = ENOLCK ∨ r.err = EOPNOTSUPP ∨ r.err = ENOTSUP) →
            w1.last_error = ERROR_LOCK_VIOLATION))
    ∧ (∃ w1, _wapi_unlock_file_region fd offset length w
          = some (decide (r.ret ≠ -1 ∨ r.err = ENOLCK ∨ r.err = EOPNOTSUPP ∨ r.err = ENOTSUP), w1)
        ∧ w1.calls = w.calls ++ List.replicate (pre.length + 1)
            (Syscall.fcntl_setlk fd F_UNLCK SEEK_SET offset length)
        ∧ (¬ (r.ret ≠ -1 ∨ r.err = ENOLCK ∨ r.err = EOPNOTSUPP ∨ r.err = ENOTSUP) →
            w1.last_error = ERROR_LOCK_VIOLATION))
    ∧ ((offset < 0 ∨ length < 0) →
        _wapi_lock_file_region fd offset length w
          = some (false, { w with last_error := ERROR_INVALID_PARAMETER })) := by
  have hpre2 : ∀ x ∈ pre, x.ret = -1 ∧ x.err = EINTR
      ∧ ¬ (false = true ∧ x.interrupt_state = true) :=
    fun x hx => ⟨(hpre x hx).1, (hpre x hx).2, fun h => Bool.noConfusion h.1⟩
  have hr2 : ¬ (r.ret = -1 ∧ r.err = EINTR ∧ ¬ (false = true ∧ r.interrupt_state = true)) :=
    fun h => hr ⟨h.1, h.2.1⟩
  refine ⟨?_, ?_, ?_⟩
  · intro h0 h1
    obtain ⟨e, he, he2⟩ := retry_eq (Syscall.fcntl_setlk fd F_WRLCK SEEK_SET offset length)
      false w pre r rest hp hpre2 hr2
    have hneg : ¬ (offset < 0 ∨ length < 0) := by omega
    simp only [_wapi_lock_file_region, hneg, if_false, he]
    by_cases hret : r.ret = -1
    · have hee := he2 hret
      subst hee
      simp only [hret, if_true]
      by_cases hu : r.err = ENOLCK ∨ r.err = EOPNOTSUPP ∨ r.err = ENOTSUP
      · rw [if_pos hu]
        have hdec : decide ((-1 : Int) ≠ -1 ∨ r.err = ENOLCK ∨ r.err = EOPNOTSUPP
            ∨ r.err = ENOTSUP) = true := by simp [hu]
        rw [hdec]
        exact ⟨_, rfl, rfl, fun hn => absurd (Or.inr hu) hn⟩
      · rw [if_neg hu]
        have hdec : decide ((-1 : Int) ≠ -1 ∨ r.err = ENOLCK ∨ r.err = EOPNOTSUPP
            ∨ r.err = ENOTSUP) = false := by simp [hu]
        rw [hdec]
        exact ⟨_, rfl, rfl, fun _ => rfl⟩
    · simp only [hret, if_false]
      have hdec : decide (r.ret ≠ -1 ∨ r.err = ENOLCK ∨ r.err = EOPNOTSUPP
          ∨ r.err = ENOTSUP) = true := by simp [hret]
      rw [hdec]
      exact ⟨_, rfl, rfl, fun hn => absurd (Or.inl hret) hn⟩
  · obtain ⟨e, he, he2⟩ := retry_eq (Syscall.fcntl_setlk fd F_UNLCK SEEK_SET offset length)
      false w pre r rest hp hpre2 hr2
    simp only [_wapi_unlock_file_region, he]
    by_cases hret : r.ret = -1
    · have hee := he2 hret
      subst hee
      simp only [hret, if_true]
      by_cases hu : r.err = ENOLCK ∨ r.err = EOPNOTSUPP ∨ r.err = ENOTSUP
      · rw [if_pos hu]
        have hdec : decide ((-1 : Int) ≠ -1 ∨ r.err = ENOLCK ∨ r.err = EOPNOTSUPP
            ∨ r.err = ENOTSUP) = true := by simp [hu]
        rw [hdec]
        exact ⟨_, rfl, rfl, fun hn => absurd (Or.inr hu) hn⟩
      · rw [if_neg hu]
        have hdec : decide ((-1 : Int) ≠ -1 ∨ r.err = ENOLCK ∨ r.err = EOPNOTSUPP
            ∨ r.err = ENOTSUP) = false := by simp [hu]
        rw [hdec]
        exact ⟨_, rfl, rfl, fun _ => rfl⟩
    · simp only [hret, if_false]
      have hdec : decide (r.ret ≠ -1 ∨ r.err = ENOLCK ∨ r.err = EOPNOTSUPP
          ∨ r.err = ENOTSUP) = true := by simp [hret]
      rw [hdec]
      exact ⟨_, rfl, rfl, fun hn => absurd (Or.inl hret) hn⟩
  · intro hneg
    simp only [_wapi_lock_file_region, hneg, if_true]

theorem lock_region_result_witness :
    (∃ w1, _wapi_lock_file_region 3 100 8
          { pending := [⟨-1, EINTR, false⟩, ⟨-1, ENOLCK, false⟩], calls := [], errno := 0,
            last_error := 0 }
        = some (decide ((-1 : Int) ≠ -1 ∨ ENOLCK = ENOLCK ∨ ENOLCK = EOPNOTSUPP
            ∨ ENOLCK = ENOTSUP), w1)
      ∧ w1.calls = [] ++ List.replicate (1 + 1) (Syscall.fcntl_setlk 3 F_WRLCK SEEK_SET 100 8)
      ∧ (¬ ((-1 : Int) ≠ -1 ∨ ENOLCK = ENOLCK ∨ ENOLCK = EOPNOTSUPP ∨ ENOLCK = ENOTSUP) →
          w1.last_error = ERROR_LOCK_VIOLATION)) :=
  (lock_region_result 3 100 8
    { pending := [⟨-1, EINTR, false⟩, ⟨-1, ENOLCK, false⟩], calls := [], errno := 0,
      last_error := 0 } [⟨-1, EINTR, false⟩] ⟨-1, ENOLCK, false⟩ [] rfl (by decide)
    (by decide)).1 (by decide) (by decide)

theorem access_denied_no_io_witness :
    file_read (fun e => e) (some ⟨none, none, 3, 0, GENERIC_WRITE, 0, 0⟩) 10 (some 7)
        { pending := [⟨5, 0, false⟩], calls := [], errno := 0, last_error := 0 }
      = some { ret := false, count := some 0,
               world := { pending := [⟨5, 0, false⟩], calls := [], errno := 0,
                          last_error := ERROR_ACCESS_DENIED } } :=
  ((access_denied_no_io (fun e => e) ⟨none, none, 3, 0, GENERIC_WRITE, 0, 0⟩ 10 (some 7)
    { pending := [⟨5, 0, false⟩], calls := [], errno := 0, last_error := 0 }).1
    (by decide)).1

/-- A run of `file_write` under `lock_while_writing`: offset 100, lock granted, 8 bytes
written, lock released. -/
theorem strict_write_full_run :
    file_write (fun e => e) true (some ⟨none, none, 3, 0, GENERIC_WRITE, 0, 0⟩) 8 (some 0)
        { pending := [⟨100, 0, false⟩, ⟨0, 0, false⟩, ⟨8, 0, false⟩, ⟨0, 0, false⟩],
          calls := [], errno := 0, last_error := 0 }
      = some { ret := true, count := some 8,
               world := { pending := [],
                          calls := [Syscall.lseek 3 0 SEEK_CUR,
                                    Syscall.fcntl_setlk 3 F_WRLCK SEEK_SET 100 8,
                                    Syscall.write 3 8,
                                    Syscall.fcntl_setlk 3 F_UNLCK SEEK_SET 100 8],
                          errno := 0, last_error := 0 } } := by
  decide

/-- C18 fails on the code for reads of files and consoles: when `read` fails with
`EINTR` while an interrupt is requested, `file_read` and `console_read` return FALSE
with the translated error, where `pipe_read` returns TRUE with 0 bytes. -/
theorem read_interrupted_is_an_error :
    file_read (fun e => e + 1000) (some ⟨none, none, 3, 0, GENERIC_READ, 0, 0⟩) 10 (some 7)
        { pending := [⟨-1, EINTR, true⟩], calls := [], errno := 0, last_error := 0 }
      = some { ret := false, count := some 0,
               world := { pending := [], calls := [Syscall.read 3 10], errno := EINTR,
                          last_error := 1004 } }
    ∧ console_read (fun e => e + 1000) (some ⟨none, none, 0, 0, GENERIC_READ, 0, 0⟩) 10 (some 7)
        { pending := [⟨-1, EINTR, true⟩], calls := [], errno := 0, last_error := 0 }
      = some { ret := false, count := some 0,
               world := { pending := [], calls := [Syscall.read 0 10], errno := EINTR,
                          last_error := 1004 } }
    ∧ pipe_read (fun e => e + 1000) (some ⟨none, none, 3, 0, GENERIC_READ, 0, 0⟩) 10 (some 7)
        { pending := [⟨-1, EINTR, true⟩], calls := [], errno := 0, last_error := 0 }
      = some { ret := true, count := some 0,
               world := { pending := [], calls := [Syscall.read 3 10], errno := EINTR,
                          last_error := 0 } } := by
  decide

theorem dispatch_null_slot_witness :
    io_ops .MONO_W32HANDLE_PIPE .seek = none
      ∧ dispatcher .seek .MONO_W32HANDLE_PIPE
        = Dispatch.returned INVALID_SET_FILE_POINTER ERROR_INVALID_HANDLE :=
  ⟨rfl, dispatch_null_slot.1 .MONO_W32HANDLE_PIPE .seek rfl⟩

/-- The instants 2000-02-29T00:00:00Z and 2024-02-29T23:59:59Z decode to month 2,
day 29 of their years. -/
theorem leap_day_instants :
    mono_w32file_filetime_to_systemtime 4 (time_t_to_filetime 951782400)
        (some ⟨0, 0, 0, 0, 0, 0, 0, 0⟩)
      = some { ret := true, last_error := none,
               system_time := some ⟨2000, 2, 3, 29, 0, 0, 0, 0⟩ }
    ∧ mono_w32file_filetime_to_systemtime 4 (time_t_to_filetime 1709251199)
        (some ⟨0, 0, 0, 0, 0, 0, 0, 0⟩)
      = some { ret := true, last_error := none,
               system_time := some ⟨2024, 2, 5, 29, 23, 59, 59, 0⟩ } := by
  decide

/-! ## Seeking, the path wrappers and the ranges of the time fields -/

theorem monthLoop_upper (ip : List Int) (td : Int) (k m : Nat)
    (h : monthLoop ip td k = some m) : m ≤ k ∧ (m < k → td < ip.getD (m + 1) 0) := by
  induction k with
  | zero =>
    rw [monthLoop] at h
    split at h
    · exact absurd h (by simp)
    · have : m = 0 := by injection h with h; exact h.symm
      subst this
      exact ⟨Nat.le_refl 0, fun hlt => absurd hlt (by omega)⟩
  | succ k ih =>
    rw [monthLoop] at h
    split at h
    · rename_i hc
      obtain ⟨h1, h2⟩ := ih h
      refine ⟨by omega, fun _ => ?_⟩
      by_cases hmk : m = k
      · subst hmk; exact hc
      · exact h2 (by omega)
    · have : m = k + 1 := by injection h with h; exact h.symm
      subst this
      exact ⟨Nat.le_refl _, fun hlt => absurd hlt (by omega)⟩

theorem daysBeforeYear_30829 : daysBeforeYear 30829 = 10675308 := by decide

theorem year_le_of_days (D y : Int) (hD : D ≤ 10675199) (h0 : 0 ≤ D - daysBeforeYear y) :
    y ≤ 30828 := by
  by_contra hc
  have h := daysBeforeYear_sub 30829 (y - 30829) (by omega)
  have e : (30829 : Int) + (y - 30829) = y := by ring
  rw [e, daysBeforeYear_30829] at h
  omega

theorem yearLoop_of_ticks (T : Nat) (hT : T < 9223372036854775808) :
    ∃ y, (∀ fuel, 4 ≤ fuel → yearLoop fuel ((toInt64 T).tdiv TICKS_PER_DAY) 1601
          = some ((T : Int) / 864000000000 - daysBeforeYear y, y))
      ∧ 0 ≤ (T : Int) / 864000000000 - daysBeforeYear y
      ∧ (T : Int) / 864000000000 - daysBeforeYear y < yearLength y
      ∧ 1601 ≤ y ∧ y ≤ 30828 := by
  have hTi : (0 : Int) ≤ (T : Int) := Int.ofNat_nonneg T
  obtain ⟨y, hy, hy0, hy1, hy2, _⟩ :=
    yearLoop_result ((T : Int) / 864000000000) (by omega) (by omega)
  have hD : (toInt64 T).tdiv TICKS_PER_DAY = (T : Int) / 864000000000 := by
    rw [toInt64_eq T hT, ticks_consts.1, natCast_tdiv]; omega
  rw [hD]
  exact ⟨y, fun fuel hf => yearLoop_mono_le 4 fuel hf _ _ _ hy, hy0, hy1, hy2,
    year_le_of_days _ y (by omega) hy0⟩

/-- C29: for every tick value in [0, 2^63), the year loop of
`mono_w32file_filetime_to_systemtime` ends, within four rounds, and leaves a day offset
`d` and a year `y` with `0 ≤ d < 365` when `y` is not a leap year and `0 ≤ d < 366`
when it is, the leap years of `isleap` being those of the Gregorian rule. -/
theorem year_loop_terminates (T : Nat) (hT : T < 9223372036854775808) :
    ∃ d y, (∀ fuel, 4 ≤ fuel →
        yearLoop fuel ((toInt64 T).tdiv TICKS_PER_DAY) 1601 = some (d, y))
      ∧ 0 ≤ d ∧ d < (if isleap y then 366 else 365)
      ∧ 1601 ≤ y ∧ isleap y = gregorianLeap y.toNat := by
  obtain ⟨y, hy, hy0, hy1, hy2, _⟩ := yearLoop_of_ticks T hT
  refine ⟨_, y, hy, hy0, hy1, hy2, ?_⟩
  rw [gregorianLeap_eq, Int.toNat_of_nonneg (by omega)]

/-- C30: for every tick value that `mono_w32file_filetime_to_systemtime` accepts, it
returns TRUE with `1601 ≤ wYear ≤ 30828`, `1 ≤ wMonth ≤ 12`, `1 ≤ wDay` at most the
number of days of `wMonth` in `wYear` under the Gregorian leap rule, `wHour < 24`,
`wMinute < 60`, `wSecond < 60` and `wMilliseconds < 1000`; the month search over
`mon_yday` stops at an index from 0 to 11, never below index 0. -/
theorem systemtime_fields_in_range (fuel : Nat) (hf : 4 ≤ fuel) (ft : FILETIME)
    (st : SYSTEMTIME) (hl : ft.dwLowDateTime < 4294967296)
    (hh : ft.dwHighDateTime < 2147483648) :
    ∃ s d y m,
      mono_w32file_filetime_to_systemtime fuel ft (some st)
        = some { ret := true, last_error := none, system_time := some s }
      ∧ 1601 ≤ s.wYear ∧ s.wYear ≤ 30828 ∧ s.wYear < 65536
      ∧ 1 ≤ s.wMonth ∧ s.wMonth ≤ 12
      ∧ 1 ≤ s.wDay ∧ s.wDay ≤ gregorianMonthLength s.wYear s.wMonth
      ∧ s.wHour < 24 ∧ s.wMinute < 60 ∧ s.wSecond < 60 ∧ s.wMilliseconds < 1000
      ∧ yearLoop fuel
          ((toInt64 (ft.dwHighDateTime * 4294967296 + ft.dwLowDateTime)).tdiv TICKS_PER_DAY)
          1601 = some (d, y)
      ∧ monthLoop (mon_yday (isleap y)) d 11 = some m ∧ m ≤ 11 ∧ s.wMonth = m + 1 := by
  obtain ⟨y, m, dd, he, hy1, _, hd0, hd1, hml, hm, hdd, hdd0⟩ :=
    filetime_decode fuel hf ft st hl hh
  obtain ⟨y9, hloop, h90, h91, _, _⟩ :=
    yearLoop_of_ticks (ft.dwHighDateTime * 4294967296 + ft.dwLowDateTime) (by omega)
  have hyy : y9 = y := year_unique _ y9 y h90 h91 hd0 hd1
  subst hyy
  have hy2 : y9 ≤ 30828 := year_le_of_days _ y9 (by omega) hd0
  have hup := (monthLoop_upper _ _ _ _ hml).2
  have h12 := mon_yday_12 y9
  have hcast : ((y9.toNat : Nat) : Int) = y9 := Int.toNat_of_nonneg (by omega)
  have hlen := monthLength_eq y9.toNat (m + 1) (by omega) (by omega)
  rw [hcast, Nat.add_sub_cancel] at hlen
  have hlt : ((ft.dwHighDateTime * 4294967296 + ft.dwLowDateTime : Nat) : Int) / 864000000000
      - daysBeforeYear y9 < (mon_yday (isleap y9)).getD (m + 1) 0 := by
    by_cases h11 : m = 11
    · subst h11; rw [h12]; exact hd1
    · exact hup (by omega)
  refine ⟨_, _, y9, m, he, ?_, ?_, ?_, ?_, ?_, ?_, ?_, ?_, ?_, ?_, ?_, hloop fuel hf, hml, hm, rfl⟩
  all_goals dsimp only
  all_goals omega

theorem year_loop_terminates_witness :
    ∃ d y, (∀ fuel, 4 ≤ fuel →
        yearLoop fuel ((toInt64 9223372036854775807).tdiv TICKS_PER_DAY) 1601 = some (d, y))
      ∧ 0 ≤ d ∧ d < (if isleap y then 366 else 365)
      ∧ 1601 ≤ y ∧ isleap y = gregorianLeap y.toNat :=
  year_loop_terminates 9223372036854775807 (by decide)

theorem systemtime_fields_in_range_witness :
    ∃ s d y m,
      mono_w32file_filetime_to_systemtime 4 ⟨4294967295, 2147483647⟩
          (some ⟨0, 0, 0, 0, 0, 0, 0, 0⟩)
        = some { ret := true, last_error := none, system_time := some s }
      ∧ 1601 ≤ s.wYear ∧ s.wYear ≤ 30828 ∧ s.wYear < 65536
      ∧ 1 ≤ s.wMonth ∧ s.wMonth ≤ 12
      ∧ 1 ≤ s.wDay ∧ s.wDay ≤ gregorianMonthLength s.wYear s.wMonth
      ∧ s.wHour < 24 ∧ s.wMinute < 60 ∧ s.wSecond < 60 ∧ s.wMilliseconds < 1000
      ∧ yearLoop 4 ((toInt64 (2147483647 * 4294967296 + 4294967295)).tdiv TICKS_PER_DAY)
          1601 = some (d, y)
      ∧ monthLoop (mon_yday (isleap y)) d 11 = some m ∧ m ≤ 11 ∧ s.wMonth = m + 1 :=
  systemtime_fields_in_range 4 (Nat.le_refl 4) ⟨4294967295, 2147483647⟩
    ⟨0, 0, 0, 0, 0, 0, 0, 0⟩ (by decide) (by decide)

theorem or_of_high_low (k b : Nat) (hb : b < 4294967296) :
    (k * 4294967296) ||| b = k * 4294967296 + b := by
  have h := Nat.mul_add_lt_is_or (show b < 2 ^ 32 by omega) k
  have e : (2 : Nat) ^ 32 = 4294967296 := by norm_num
  rw [e, Nat.mul_comm] at h
  exact h.symm

theorem seek_offset (high low : Int) (h1 : -2147483648 ≤ high) (h2 : high < 2147483648) :
    toInt64 (((high * 4294967296) % (UINT64_MOD : Int)).toNat ||| (low % 4294967296).toNat)
      = high * 4294967296 + low % 4294967296 := by
  have hb0 : 0 ≤ low % 4294967296 := Int.emod_nonneg _ (by decide)
  have hb1 : low % 4294967296 < 4294967296 := Int.emod_lt_of_pos _ (by decide)
  obtain ⟨b, hb⟩ : ∃ b : Nat, low % 4294967296 = (b : Int) := ⟨_, (Int.toNat_of_nonneg hb0).symm⟩
  rw [hb] at hb1 ⊢
  have hA : ((high * 4294967296) % (UINT64_MOD : Int)).toNat
      = ((high % 4294967296).toNat) * 4294967296 := by
    unfold UINT64_MOD
    omega
  rw [hA, Int.toNat_ofNat, or_of_high_low _ _ (by omega)]
  unfold toInt64 UINT64_MOD
  split <;> omega

theorem seek_result_words (p : Int) (h0 : 0 ≤ p) (h1 : p < 9223372036854775808) :
    (p % (UINT64_MOD : Int)).toNat &&& 0xFFFFFFFF = (p % 4294967296).toNat
      ∧ toInt32 (((p / 4294967296) % 4294967296).toNat) = p / 4294967296 := by
  constructor
  · have h := Nat.and_pow_two_sub_one_eq_mod ((p % (UINT64_MOD : Int)).toNat) 32
    have e : (2 : Nat) ^ 32 - 1 = 0xFFFFFFFF := by norm_num
    rw [e] at h
    rw [h]
    unfold UINT64_MOD
    omega
  · unfold toInt32
    split <;> omega

/-- C21: on a handle that passes the access check, `file_seek` of the large-file
build returns `INVALID_SET_FILE_POINTER` with `ERROR_INVALID_PARAMETER` and calls
nothing when the method is none of begin, current, end; else it passes to `lseek` the
offset `high * 2^32 + (low mod 2^32)` when a high word is supplied and the low word
itself, with its sign, when none is; when `lseek` gives -1 it returns
`INVALID_SET_FILE_POINTER` with the translated `errno` as last error, and for a new
position `p` it returns `p mod 2^32` and stores `p div 2^32` in the high word, two
words that recompose `p`. -/
theorem file_seek_contract (unix_to_win32 : Nat → Nat) (h : MonoW32HandleFile)
    (movedistance : Int) (highmovedistance : Option Int) (method : Int) (w : World)
    (hacc : ¬ (h.fileaccess &&& GENERIC_READ = 0 ∧ h.fileaccess &&& GENERIC_WRITE = 0
      ∧ h.fileaccess &&& GENERIC_ALL = 0))
    (hhi : ∀ high, highmovedistance = some high → -2147483648 ≤ high ∧ high < 2147483648) :
    (method ≠ FILE_BEGIN → method ≠ FILE_CURRENT → method ≠ FILE_END →
      file_seek unix_to_win32 (some h) movedistance highmovedistance method w
        = some { ret := INVALID_SET_FILE_POINTER, highmovedistance := highmovedistance,
                 world := { w with last_error := ERROR_INVALID_PARAMETER } })
    ∧ ∀ whence r rest,
        (method = FILE_BEGIN ∧ whence = SEEK_SET ∨ method = FILE_CURRENT ∧ whence = SEEK_CUR
          ∨ method = FILE_END ∧ whence = SEEK_END) →
        w.pending = r :: rest →
        ∃ offset w1,
          offset = (highmovedistance.map
              (fun high => high * 4294967296 + movedistance % 4294967296)).getD movedistance
          ∧ w1 = { w with pending := rest, calls := w.calls ++ [Syscall.lseek h.fd offset whence],
                          errno := if r.ret = -1 then r.err else w.errno }
          ∧ (r.ret = -1 →
              file_seek unix_to_win32 (some h) movedistance highmovedistance method w
                = some { ret := INVALID_SET_FILE_POINTER, highmovedistance := highmovedistance,
                         world := { w1 with last_error := unix_to_win32 r.err } })
          ∧ (0 ≤ r.ret → r.ret < 9223372036854775808 →
              file_seek unix_to_win32 (some h) movedistance highmovedistance method w
                = some { ret := (r.ret % 4294967296).toNat,
                         highmovedistance := highmovedistance.map (fun _ => r.ret / 4294967296),
                         world := w1 }
              ∧ r.ret / 4294967296 * 4294967296 + ((r.ret % 4294967296).toNat : Int) = r.ret) := by
  constructor
  · intro h1 h2 h3
    simp only [file_seek, if_neg hacc, if_neg h1, if_neg h2, if_neg h3]
  · intro whence r rest hm hp
    have hw : (if method = FILE_BEGIN then some SEEK_SET
        else if method = FILE_CURRENT then some SEEK_CUR
        else if method = FILE_END then some SEEK_END else none) = some whence := by
      rcases hm with ⟨h1, h2⟩ | ⟨h1, h2⟩ | ⟨h1, h2⟩ <;> subst h1 <;> subst h2 <;> decide
    refine ⟨_, _, rfl, rfl, ?_, ?_⟩
    · intro hr
      cases highmovedistance with
      | none =>
        simp only [file_seek, if_neg hacc, hw, syscall, hp, hr, if_true,
          _wapi_set_last_error_from_errno, Option.map_none', Option.getD_none]
      | some high =>
        simp only [file_seek, if_neg hacc, hw, syscall, hp, hr, if_true,
          _wapi_set_last_error_from_errno, Option.map_some', Option.getD_some,
          seek_offset high movedistance (hhi high rfl).1 (hhi high rfl).2]
    · intro h0 h1
      have hne : r.ret ≠ -1 := by omega
      obtain ⟨e1, e2⟩ := seek_result_words r.ret h0 h1
      refine ⟨?_, by omega⟩
      cases highmovedistance with
      | none =>
        simp only [file_seek, if_neg hacc, hw, syscall, hp, if_neg hne, e1,
          Option.map_none', Option.getD_none]
      | some high =>
        simp only [file_seek, if_neg hacc, hw, syscall, hp, if_neg hne, e1, e2,
          Option.map_some', Option.getD_some,
          seek_offset high movedistance (hhi high rfl).1 (hhi high rfl).2]

theorem file_seek_contract_witness :
    file_seek (fun e => e) (some ⟨none, none, 3, 0, GENERIC_READ, 0, 0⟩) (-1) (some 1) 7
        { pending := [], calls := [], errno := 0, last_error := 0 }
      = some { ret := INVALID_SET_FILE_POINTER, highmovedistance := some 1,
               world := { pending := [], calls := [], errno := 0,
                          last_error := ERROR_INVALID_PARAMETER } }
    ∧ file_seek (fun e => e) (some ⟨none, none, 3, 0, GENERIC_READ, 0, 0⟩) (-1) (some 1)
        FILE_BEGIN
        { pending := [⟨12884901893, 0, false⟩], calls := [], errno := 0, last_error := 0 }
      = some { ret := 5, highmovedistance := some 3,
               world := { pending := [], calls := [Syscall.lseek 3 8589934591 SEEK_SET],
                          errno := 0, last_error := 0 } } := by
  have key := file_seek_contract (fun e => e) ⟨none, none, 3, 0, GENERIC_READ, 0, 0⟩ (-1)
    (some 1)
  refine ⟨(key 7 { pending := [], calls := [], errno := 0, last_error := 0 } (by decide)
    (fun high hh => by cases hh; decide)).1 (by decide) (by decide) (by decide), ?_⟩
  obtain ⟨offset, w1, ho, hw1, -, h2⟩ :=
    (key FILE_BEGIN
      { pending := [⟨12884901893, 0, false⟩], calls := [], errno := 0, last_error := 0 }
      (by decide) (fun high hh => by cases hh; decide)).2 SEEK_SET ⟨12884901893, 0, false⟩ []
      (Or.inl ⟨rfl, rfl⟩) rfl
  subst ho
  subst hw1
  exact (h2 (by decide) (by decide)).1

theorem syscall_eq (c : Syscall) (w : World) (r : SysReturn) (rest : List SysReturn)
    (hp : w.pending = r :: rest) :
    syscall c w = some (r.ret, { w with pending := rest, calls := w.calls ++ [c],
                                        errno := if r.ret = -1 then r.err else w.errno }) := by
  simp only [syscall, hp]

theorem syscall_calls (c : Syscall) (w : World) (res : Int × World)
    (h : syscall c w = some res) : res.2.calls = w.calls ++ [c] := by
  unfold syscall at h
  split at h
  · exact absurd h (by simp)
  · injection h with h
    subst h
    rfl

theorem syscall_some (c : Syscall) (w : World) (res : Int × World)
    (h : syscall c w = some res) :
    ∃ r rest, w.pending = r :: rest ∧ res.1 = r.ret
      ∧ res.2.errno = (if r.ret = -1 then r.err else w.errno) := by
  unfold syscall at h
  split at h
  · exact absurd h (by simp)
  · rename_i r rest hp
    injection h with h
    subst h
    exact ⟨r, rest, hp, rfl, rfl⟩

theorem resolverCalls_append (a b : List Syscall) :
    resolverCalls (a ++ b) = resolverCalls a ++ resolverCalls b := by
  unfold resolverCalls
  exact List.filterMap_append _ _ _

theorem retryLocated_rule (call : String → Syscall) (errs : List Nat) (portability : Bool)
    (find_file : String → Bool → Option String) (pathname : String) (w : World)
    (hc : ∀ p, resolverCalls [call p] = []) (res : Int × World)
    (h : retryLocated call errs portability find_file pathname w = some res) :
    ResolverAfterFailure (call pathname) errs portability w res.2 := by
  unfold retryLocated at h
  cases hs : syscall (call pathname) w with
  | none => rw [hs] at h; exact absurd h (by simp)
  | some p =>
    obtain ⟨ret, w1⟩ := p
    rw [hs] at h
    obtain ⟨r, rest, hp, hret, herr⟩ := syscall_some _ _ _ hs
    have hcalls := syscall_calls _ _ _ hs
    simp only at hret herr hcalls h
    by_cases hcond : ret = -1 ∧ w1.errno ∈ errs ∧ portability = true
    · rw [if_pos hcond] at h
      have hr1 : r.ret = -1 := by rw [← hret]; exact hcond.1
      have hre : r.err ∈ errs := by
        have := hcond.2.1
        rw [herr, if_pos hr1] at this
        exact this
      cases hff : find_file pathname true with
      | none =>
        rw [hff] at h
        injection h with h
        subst h
        refine ⟨[Syscall.mono_portability_find_file pathname true], ?_, fun _ =>
          ⟨hcond.2.2, r, rest, hp, hr1, hre⟩⟩
        simp only [located, hcalls, List.append_assoc, List.singleton_append]
      | some lf =>
        rw [hff] at h
        have h2 := syscall_calls _ _ _ h
        refine ⟨[Syscall.mono_portability_find_file pathname true, call lf], ?_, fun _ =>
          ⟨hcond.2.2, r, rest, hp, hr1, hre⟩⟩
        rw [h2]
        simp only [located, hcalls, List.append_assoc, List.singleton_append, List.cons_append,
          List.nil_append]
    · rw [if_neg hcond] at h
      injection h with h
      subst h
      refine ⟨[], hcalls, fun hne => absurd (hc pathname) hne⟩

theorem filetimeTicks_eq (t : FILETIME) (hl : t.dwLowDateTime < 4294967296)
    (hh : t.dwHighDateTime < 4294967296) :
    filetimeTicks t = t.dwHighDateTime * 4294967296 + t.dwLowDateTime := by
  unfold filetimeTicks UINT64_MOD
  omega

theorem utimeField_early (s : Nat) (a : FILETIME) (cur : Int)
    (h : filetimeTicks a < EPOCH_TICKS) : utimeField s (some a) cur = none := by
  simp only [utimeField, if_pos h]

theorem utimeField_ok (s : Nat) (time : Option FILETIME) (cur : Int)
    (h : ∀ a, time = some a → EPOCH_TICKS ≤ filetimeTicks a
      ∧ ¬ (s = 4 ∧ (filetimeTicks a - EPOCH_TICKS) / 10000000 > INT_MAX)) :
    utimeField s time cur
      = some ((time.map fun a => (((filetimeTicks a - EPOCH_TICKS) / 10000000 : Nat) : Int)).getD
          cur) := by
  cases time with
  | none => rfl
  | some a =>
    have := h a rfl
    simp only [utimeField, if_neg (Nat.not_lt.mpr this.1), Option.map_some', Option.getD_some]
    rw [if_neg this.2]

/-- C22, as the code has it: on a handle that passes the access check and has a
file name, once `fstat` has succeeded, `file_setfiletime` rejects every supplied access
or write time whose tick value `dwHighDateTime * 2^32 + dwLowDateTime` is below
116444736000000000: it returns FALSE with `ERROR_INVALID_PARAMETER` and does not
call `utime`; the creation time is not looked at. For accepted times, those not
before the epoch and, with a `time_t` of 4 bytes, not above `INT_MAX` seconds, the
value passed to `utime` is `(ticks - 116444736000000000) div 10000000` for a supplied
time and the time `fstat` gave for one that is not. -/
theorem setfiletime_rejects_early_times (portability : Bool)
    (find_file : String → Bool → Option String) (sizeof_time_t : Nat) (statbuf : StructStat)
    (h : MonoW32HandleFile) (filename : String)
    (create_time access_time write_time : Option FILETIME) (w : World) (r : SysReturn)
    (rest : List SysReturn)
    (hacc : ¬ (h.fileaccess &&& GENERIC_WRITE = 0 ∧ h.fileaccess &&& GENERIC_ALL = 0))
    (hf : h.filename = some filename) (hp : w.pending = r :: rest) (hr : r.ret ≠ -1) :
    ((∃ a, access_time = some a ∧ filetimeTicks a < EPOCH_TICKS)
        ∨ (∃ b, write_time = some b ∧ filetimeTicks b < EPOCH_TICKS) →
      file_setfiletime portability find_file sizeof_time_t statbuf (some h) create_time
          access_time write_time w
        = some (false, { w with pending := rest, calls := w.calls ++ [Syscall.fstat h.fd],
                                last_error := ERROR_INVALID_PARAMETER }))
    ∧ ((∀ a, access_time = some a → EPOCH_TICKS ≤ filetimeTicks a
          ∧ ¬ (sizeof_time_t = 4 ∧ (filetimeTicks a - EPOCH_TICKS) / 10000000 > INT_MAX)) →
        (∀ b, write_time = some b → EPOCH_TICKS ≤ filetimeTicks b
          ∧ ¬ (sizeof_time_t = 4 ∧ (filetimeTicks b - EPOCH_TICKS) / 10000000 > INT_MAX)) →
        ∃ actime modtime,
          actime = (access_time.map fun a =>
              (((filetimeTicks a - EPOCH_TICKS) / 10000000 : Nat) : Int)).getD statbuf.st_atime
          ∧ modtime = (write_time.map fun b =>
              (((filetimeTicks b - EPOCH_TICKS) / 10000000 : Nat) : Int)).getD statbuf.st_mtime
          ∧ (∀ res, file_setfiletime portability find_file sizeof_time_t statbuf (some h)
                create_time access_time write_time w = some res →
              ∃ l, res.2.calls = w.calls
                ++ Syscall.fstat h.fd :: Syscall.utime filename actime modtime :: l)
          ∧ (∀ r2 rest2, rest = r2 :: rest2 → r2.ret ≠ -1 →
              file_setfiletime portability find_file sizeof_time_t statbuf (some h)
                  create_time access_time write_time w
                = some (true,
                    { w with pending := rest2,
                             calls := w.calls ++ [Syscall.fstat h.fd,
                               Syscall.utime filename actime modtime] })))
    ∧ (∀ t : FILETIME, t.dwLowDateTime < 4294967296 → t.dwHighDateTime < 4294967296 →
        filetimeTicks t = t.dwHighDateTime * 4294967296 + t.dwLowDateTime) := by
  have hs := syscall_eq (Syscall.fstat h.fd) w r rest hp
  rw [if_neg hr] at hs
  refine ⟨?_, ?_, filetimeTicks_eq⟩
  · intro hearly
    simp only [file_setfiletime, if_neg hacc, hf, hs, if_neg hr]
    cases hua : utimeField sizeof_time_t access_time statbuf.st_atime with
    | none => rfl
    | some actime =>
      rcases hearly with ⟨a, ha, hlt⟩ | ⟨b, hb, hlt⟩
      · rw [ha, utimeField_early _ _ _ hlt] at hua
        exact absurd hua (by simp)
      · rw [hb, utimeField_early _ _ _ hlt]
  · intro ha hb
    refine ⟨_, _, rfl, rfl, ?_, ?_⟩
    · intro res hres
      simp only [file_setfiletime, if_neg hacc, hf, hs, if_neg hr, utimeField_ok _ _ _ ha,
        utimeField_ok _ _ _ hb] at hres
      generalize hA : (access_time.map fun a =>
        (((filetimeTicks a - EPOCH_TICKS) / 10000000 : Nat) : Int)).getD statbuf.st_atime = A
        at hres ⊢
      generalize hB : (write_time.map fun b =>
        (((filetimeTicks b - EPOCH_TICKS) / 10000000 : Nat) : Int)).getD statbuf.st_mtime = B
        at hres ⊢
      cases hu : _wapi_utime portability find_file filename A B
          { w with pending := rest, calls := w.calls ++ [Syscall.fstat h.fd] } with
      | none => rw [hu] at hres; exact absurd hres (by simp)
      | some p =>
        obtain ⟨l, hl, -⟩ := retryLocated_rule (fun p => Syscall.utime p A B) _ _ _ _ _
          (fun _ => rfl) p hu
        rw [hu] at hres
        obtain ⟨ret, w2⟩ := p
        refine ⟨l, ?_⟩
        have hl2 : w2.calls = w.calls ++ Syscall.fstat h.fd :: Syscall.utime filename A B :: l := by
          rw [hl]
          simp only [List.append_assoc, List.singleton_append]
        dsimp only at hres
        split at hres
        · injection hres with hres
          subst hres
          exact hl2
        · injection hres with hres
          subst hres
          exact hl2
    · intro r2 rest2 hrest hr2
      subst hrest
      have hs2 := syscall_eq (Syscall.utime filename
        ((access_time.map fun a =>
          (((filetimeTicks a - EPOCH_TICKS) / 10000000 : Nat) : Int)).getD statbuf.st_atime)
        ((write_time.map fun b =>
          (((filetimeTicks b - EPOCH_TICKS) / 10000000 : Nat) : Int)).getD statbuf.st_mtime))
        { w with pending := r2 :: rest2, calls := w.calls ++ [Syscall.fstat h.fd] } r2 rest2 rfl
      rw [if_neg hr2] at hs2
      simp only [file_setfiletime, if_neg hacc, hf, hs, if_neg hr, utimeField_ok _ _ _ ha,
        utimeField_ok _ _ _ hb, _wapi_utime, retryLocated, hs2, hr2, false_and, if_false,
        List.append_assoc, List.singleton_append]

theorem setfiletime_rejects_early_times_witness :
    file_setfiletime false (fun _ _ => none) 8 ⟨1, 2, 0, 100, 200⟩
        (some ⟨some "f", none, 3, 0, GENERIC_WRITE, 0, 0⟩) none
        (some ⟨4294967295, 27111901⟩) none
        { pending := [⟨0, 0, false⟩, ⟨0, 0, false⟩], calls := [], errno := 0, last_error := 0 }
      = some (false, { pending := [⟨0, 0, false⟩], calls := [Syscall.fstat 3], errno := 0,
                       last_error := ERROR_INVALID_PARAMETER }) :=
  (setfiletime_rejects_early_times false (fun _ _ => none) 8 ⟨1, 2, 0, 100, 200⟩
    ⟨some "f", none, 3, 0, GENERIC_WRITE, 0, 0⟩ "f" none (some ⟨4294967295, 27111901⟩) none
    { pending := [⟨0, 0, false⟩, ⟨0, 0, false⟩], calls := [], errno := 0, last_error := 0 }
    ⟨0, 0, false⟩ [⟨0, 0, false⟩] (by decide) rfl rfl (by decide)).1
    (Or.inl ⟨⟨4294967295, 27111901⟩, rfl, by decide⟩)

/-- C22, as stated, fails for the creation time: with a creation time of tick 0,
which is before the Unix epoch, and no other time, `file_setfiletime` calls `utime`
with the times `fstat` gave and returns TRUE. -/
theorem setfiletime_accepts_early_creation_time :
    filetimeTicks ⟨0, 0⟩ < EPOCH_TICKS
      ∧ file_setfiletime false (fun _ _ => none) 8 ⟨1, 2, 0, 100, 200⟩
          (some ⟨some "f", none, 3, 0, GENERIC_WRITE, 0, 0⟩) (some ⟨0, 0⟩) none none
          { pending := [⟨0, 0, false⟩, ⟨0, 0, false⟩], calls := [], errno := 0,
            last_error := 0 }
        = some (true, { pending := [], calls := [Syscall.fstat 3, Syscall.utime "f" 100 200],
                        errno := 0, last_error := 0 }) := by
  decide

theorem releaseHeld_eq (t : GHashTable) (share_info : Option (Nat × Nat)) (w : World)
    (res : GHashTable × World) (h : releaseHeld t share_info w = some res) :
    res.2 = { w with calls := w.calls ++ share_info.toList.map Syscall.file_share_release }
      ∧ (share_info = none → res.1 = t)
      ∧ (∀ si, share_info = some si → file_share_release t si = some res.1) := by
  cases share_info with
  | none =>
    simp only [releaseHeld] at h
    injection h with h
    subst h
    simp only [Option.toList, List.map_nil, List.append_nil]
    exact ⟨trivial, fun _ => trivial, fun si hsi => absurd hsi (by simp)⟩
  | some si =>
    simp only [releaseHeld] at h
    cases hr : file_share_release t si with
    | none => rw [hr] at h; exact absurd h (by simp)
    | some t1 =>
      rw [hr] at h
      injection h with h
      subst h
      refine ⟨rfl, fun hn => absurd hn (by simp), fun si2 hsi => ?_⟩
      injection hsi with hsi
      subst hsi
      exact hr

theorem release_then_close (t : GHashTable) (share_info : Option (Nat × Nat)) (fd : Int)
    (w : World) (res : GHashTable × World)
    (h : (match releaseHeld t share_info w with
          | none => none
          | some (t1, w1) => (syscall (Syscall.close fd) w1).map (fun r => (t1, r.2))) = some res) :
    res.2.calls = w.calls ++ share_info.toList.map Syscall.file_share_release
        ++ [Syscall.close fd]
      ∧ (share_info = none → res.1 = t)
      ∧ (∀ si, share_info = some si → file_share_release t si = some res.1) := by
  cases hr : releaseHeld t share_info w with
  | none => rw [hr] at h; exact absurd h (by simp)
  | some p =>
    obtain ⟨t1, w1⟩ := p
    rw [hr] at h
    obtain ⟨e1, e2, e3⟩ := releaseHeld_eq t share_info w _ hr
    dsimp only at h e1 e2 e3
    cases hs : syscall (Syscall.close fd) w1 with
    | none => rw [hs] at h; exact absurd h (by simp)
    | some q =>
      rw [hs] at h
      have hc := syscall_calls _ _ _ hs
      simp only [Option.map_some', Option.some.injEq] at h
      subst h
      refine ⟨?_, e2, e3⟩
      dsimp only
      rw [hc, e1]

theorem unlink_calls (portability : Bool) (find_file : String → Option String)
    (pathname : String) (w : World) (res : Int × World)
    (h : _wapi_unlink portability find_file pathname w = some res) :
    ∃ l, res.2.calls = w.calls ++ Syscall.unlink pathname :: l
      ∧ ∀ c ∈ l, c = Syscall.mono_portability_find_file pathname true
          ∨ ∃ located_filename, c = Syscall.unlink located_filename := by
  unfold _wapi_unlink at h
  cases hs : syscall (Syscall.unlink pathname) w with
  | none => rw [hs] at h; exact absurd h (by simp)
  | some p =>
    obtain ⟨ret, w1⟩ := p
    rw [hs] at h
    have hcalls := syscall_calls _ _ _ hs
    dsimp only at h hcalls
    split at h
    · cases hff : find_file pathname with
      | none =>
        rw [hff] at h
        injection h with h
        subst h
        refine ⟨[Syscall.mono_portability_find_file pathname true], ?_, ?_⟩
        · simp only [located, hcalls, List.append_assoc, List.singleton_append]
        · intro c hc
          simp only [List.mem_singleton] at hc
          exact Or.inl hc
      | some lf =>
        rw [hff] at h
        have h2 := syscall_calls _ _ _ h
        refine ⟨[Syscall.mono_portability_find_file pathname true, Syscall.unlink lf], ?_, ?_⟩
        · rw [h2]
          simp only [located, hcalls, List.append_assoc, List.singleton_append,
            List.cons_append, List.nil_append]
        · intro c hc
          simp only [List.mem_cons, List.mem_singleton, List.not_mem_nil, or_false] at hc
          rcases hc with hc | hc
          · exact Or.inl hc
          · exact Or.inr ⟨lf, hc⟩
    · injection h with h
      subst h
      exact ⟨[], hcalls, fun c hc => absurd hc (List.not_mem_nil c)⟩

theorem syscall_returns (c : Syscall) (w : World) (h : 1 ≤ w.pending.length) :
    ∃ res, syscall c w = some res ∧ res.2.pending.length + 1 = w.pending.length := by
  unfold syscall
  cases hp : w.pending with
  | nil => rw [hp] at h; exact absurd h (by simp)
  | cons r rest => exact ⟨_, rfl, by simp⟩

theorem unlink_returns (portability : Bool) (find_file : String → Option String)
    (pathname : String) (w : World) (h : 2 ≤ w.pending.length) :
    ∃ res, _wapi_unlink portability find_file pathname w = some res
      ∧ w.pending.length ≤ res.2.pending.length + 2 := by
  unfold _wapi_unlink
  obtain ⟨p, hs, hl⟩ := syscall_returns (Syscall.unlink pathname) w (by omega)
  rw [hs]
  obtain ⟨ret, w1⟩ := p
  dsimp only at hl ⊢
  split
  · cases hff : find_file pathname with
    | none => exact ⟨_, rfl, by simp only [located]; omega⟩
    | some lf =>
      obtain ⟨q, hs2, hl2⟩ := syscall_returns (Syscall.unlink lf) (located pathname true w1)
        (by simp only [located]; omega)
      exact ⟨q, hs2, by simp only [located] at hl2; omega⟩
  · exact ⟨_, rfl, by dsimp only; omega⟩

theorem release_then_close_returns (t : GHashTable) (share_info : Option (Nat × Nat))
    (fd : Int) (w : World) (h : 1 ≤ w.pending.length)
    (hrel : ∀ si, share_info = some si → file_share_release t si ≠ none) :
    ∃ res, (match releaseHeld t share_info w with
          | none => none
          | some (t1, w1) => (syscall (Syscall.close fd) w1).map (fun r => (t1, r.2))) = some res := by
  cases share_info with
  | none =>
    obtain ⟨p, hs, -⟩ := syscall_returns (Syscall.close fd) w h
    simp only [releaseHeld, hs, Option.map_some']
    exact ⟨_, rfl⟩
  | some si =>
    cases hr : file_share_release t si with
    | none => exact absurd hr (hrel si rfl)
    | some t1 =>
      obtain ⟨p, hs, -⟩ := syscall_returns (Syscall.close fd)
        { w with calls := w.calls ++ [Syscall.file_share_release si] } h
      simp only [releaseHeld, hr, hs, Option.map_some']
      exact ⟨_, rfl⟩

theorem file_close_effects (portability : Bool)
    (find_file : String → Bool → Option String) (t : GHashTable) (h : MonoW32HandleFile)
    (w : World) (res : GHashTable × World)
    (hc : file_close portability find_file t h w = some res) :
    ∃ u, res.2.calls = w.calls ++ u
          ++ h.share_info.toList.map Syscall.file_share_release ++ [Syscall.close h.fd]
      ∧ (h.attrs &&& FILE_FLAG_DELETE_ON_CLOSE = 0 → u = [])
      ∧ (h.attrs &&& FILE_FLAG_DELETE_ON_CLOSE ≠ 0 → ∀ filename, h.filename = some filename →
          ∃ l, u = Syscall.unlink filename :: l
            ∧ ∀ c ∈ l, c = Syscall.mono_portability_find_file filename true
                ∨ ∃ located_filename, c = Syscall.unlink located_filename)
      ∧ (h.attrs &&& FILE_FLAG_DELETE_ON_CLOSE ≠ 0 → h.filename = none →
          u = [Syscall.unlink_NULL])
      ∧ (h.share_info = none → res.1 = t)
      ∧ (∀ si, h.share_info = some si → file_share_release t si = some res.1) := by
  unfold file_close at hc
  dsimp only at hc
  by_cases hflag : h.attrs &&& FILE_FLAG_DELETE_ON_CLOSE ≠ 0
  · rw [if_pos hflag] at hc
    cases hfn : h.filename with
    | none =>
      rw [hfn] at hc
      dsimp only at hc
      obtain ⟨e1, e2, e3⟩ := release_then_close t h.share_info h.fd _ res hc
      refine ⟨[Syscall.unlink_NULL], ?_, fun h0 => absurd h0 hflag,
        fun _ filename hf => absurd hf (by simp), fun _ _ => rfl, e2, e3⟩
      rw [e1]
      rfl
    | some filename =>
      rw [hfn] at hc
      dsimp only at hc
      cases hu : _wapi_unlink portability (fun p => find_file p true) filename w with
      | none => rw [hu] at hc; exact absurd hc (by simp)
      | some p =>
        rw [hu] at hc
        obtain ⟨l, hl, hl2⟩ := unlink_calls _ _ _ _ _ hu
        obtain ⟨e1, e2, e3⟩ := release_then_close t h.share_info h.fd p.2 res hc
        refine ⟨Syscall.unlink filename :: l, ?_, fun h0 => absurd h0 hflag, ?_,
          fun _ hn => absurd hn (by simp), e2, e3⟩
        · rw [e1, hl]
        · intro _ f2 hf2
          injection hf2 with hf2
          subst hf2
          exact ⟨l, rfl, hl2⟩
  · rw [if_neg hflag] at hc
    obtain ⟨e1, e2, e3⟩ := release_then_close t h.share_info h.fd w res hc
    refine ⟨[], ?_, fun _ => rfl, fun h1 => absurd h1 hflag, fun h1 => absurd h1 hflag, e2, e3⟩
    rw [e1, List.append_nil]

theorem file_close_returns (portability : Bool)
    (find_file : String → Bool → Option String) (t : GHashTable) (h : MonoW32HandleFile)
    (w : World) (hlen : 3 ≤ w.pending.length)
    (hrel : ∀ si, h.share_info = some si → file_share_release t si ≠ none) :
    ∃ res, file_close portability find_file t h w = some res := by
  unfold file_close
  dsimp only
  by_cases hflag : h.attrs &&& FILE_FLAG_DELETE_ON_CLOSE ≠ 0
  · rw [if_pos hflag]
    cases hfn : h.filename with
    | none =>
      dsimp only
      exact release_then_close_returns t h.share_info h.fd _
        (by simp only [_wapi_unlink_NULL]; omega) hrel
    | some filename =>
      dsimp only
      obtain ⟨p, hu, hl⟩ := unlink_returns portability (fun p => find_file p true) filename w
        (by omega)
      rw [hu]
      exact release_then_close_returns t h.share_info h.fd p.2 (by omega) hrel
  · rw [if_neg hflag]
    exact release_then_close_returns t h.share_info h.fd w (by omega) hrel

/-- C23, as the code has it: given the answers of the system it needs and a held
record that can be released, `file_close` returns, having first unlinked the stored
path when `FILE_FLAG_DELETE_ON_CLOSE` is set (with a NULL path the one call
`unlink (NULL)`), and made no unlink when it is not, then released the share record
it holds, once, if it holds one, then closed the descriptor; `pipe_close` returns
having released and closed and never unlinks; `console_close` returns having released
and closed, without an unlink, when the descriptor is above 2, and does nothing when
it is 0, 1 or 2. -/
theorem close_effects_in_order (portability : Bool)
    (find_file : String → Bool → Option String) (t : GHashTable) (h : MonoW32HandleFile)
    (w : World)
    (hrel : ∀ si, h.share_info = some si → file_share_release t si ≠ none) :
    (3 ≤ w.pending.length →
      ∃ res u, file_close portability find_file t h w = some res
        ∧ res.2.calls = w.calls ++ u
            ++ h.share_info.toList.map Syscall.file_share_release ++ [Syscall.close h.fd]
        ∧ (h.attrs &&& FILE_FLAG_DELETE_ON_CLOSE = 0 → u = [])
        ∧ (h.attrs &&& FILE_FLAG_DELETE_ON_CLOSE ≠ 0 → ∀ filename, h.filename = some filename →
            ∃ l, u = Syscall.unlink filename :: l
              ∧ ∀ c ∈ l, c = Syscall.mono_portability_find_file filename true
                  ∨ ∃ located_filename, c = Syscall.unlink located_filename)
        ∧ (h.attrs &&& FILE_FLAG_DELETE_ON_CLOSE ≠ 0 → h.filename = none →
            u = [Syscall.unlink_NULL])
        ∧ (h.share_info = none → res.1 = t)
        ∧ (∀ si, h.share_info = some si → file_share_release t si = some res.1))
    ∧ (1 ≤ w.pending.length →
        ∃ res, pipe_close t h w = some res
          ∧ res.2.calls = w.calls ++ h.share_info.toList.map Syscall.file_share_release
              ++ [Syscall.close h.fd]
          ∧ (h.share_info = none → res.1 = t)
          ∧ (∀ si, h.share_info = some si → file_share_release t si = some res.1))
    ∧ (2 < h.fd → 1 ≤ w.pending.length →
        ∃ res, console_close t h w = some res
          ∧ res.2.calls = w.calls ++ h.share_info.toList.map Syscall.file_share_release
              ++ [Syscall.close h.fd]
          ∧ (h.share_info = none → res.1 = t)
          ∧ (∀ si, h.share_info = some si → file_share_release t si = some res.1))
    ∧ (h.fd ≤ 2 → console_close t h w = some (t, w))
    ∧ (∀ res, file_close portability find_file t h w = some res →
        ∃ u l, res.2.calls = w.calls ++ u
            ++ h.share_info.toList.map Syscall.file_share_release ++ [Syscall.close h.fd]
          ∧ (h.attrs &&& FILE_FLAG_DELETE_ON_CLOSE = 0 → u = [])
          ∧ (h.attrs &&& FILE_FLAG_DELETE_ON_CLOSE ≠ 0 →
              u = Syscall.unlink_NULL :: l ∨ ∃ filename, u = Syscall.unlink filename :: l)) := by
  refine ⟨?_, ?_, ?_, ?_, ?_⟩
  · intro hlen
    obtain ⟨res, hres⟩ := file_close_returns portability find_file t h w hlen hrel
    obtain ⟨u, hu⟩ := file_close_effects portability find_file t h w res hres
    exact ⟨res, u, hres, hu⟩
  · intro hlen
    obtain ⟨res, hres⟩ := release_then_close_returns t h.share_info h.fd w hlen hrel
    exact ⟨res, hres, release_then_close t h.share_info h.fd w res hres⟩
  · intro hfd hlen
    obtain ⟨res, hres⟩ := release_then_close_returns t h.share_info h.fd w hlen hrel
    refine ⟨res, ?_, release_then_close t h.share_info h.fd w res hres⟩
    unfold console_close
    dsimp only
    rw [if_pos hfd]
    exact hres
  · intro hfd
    unfold console_close
    dsimp only
    rw [if_neg (by omega)]
  · intro res hres
    obtain ⟨u, e1, e2, e3, e4, -, -⟩ := file_close_effects portability find_file t h w res hres
    cases hfn : h.filename with
    | none =>
      refine ⟨u, [], e1, e2, fun hf => Or.inl (e4 hf hfn)⟩
    | some filename =>
      by_cases hflag : h.attrs &&& FILE_FLAG_DELETE_ON_CLOSE ≠ 0
      · obtain ⟨l, hl, -⟩ := e3 hflag filename hfn
        exact ⟨u, l, e1, e2, fun _ => Or.inr ⟨filename, hl⟩⟩
      · exact ⟨u, [], e1, e2, fun hf => absurd hf hflag⟩

theorem close_effects_in_order_witness :
    (∃ res u, file_close false (fun _ _ => none) [⟨1, 2, 0, 0, 1, 0⟩]
          ⟨some "f", some (1, 2), 5, 0, 0, 0, FILE_FLAG_DELETE_ON_CLOSE⟩
          { pending := [⟨0, 0, false⟩, ⟨0, 0, false⟩, ⟨0, 0, false⟩], calls := [], errno := 0,
            last_error := 0 } = some res
        ∧ res.2.calls = [] ++ u
            ++ (some ((1 : Nat), (2 : Nat))).toList.map Syscall.file_share_release
            ++ [Syscall.close 5]
        ∧ (FILE_FLAG_DELETE_ON_CLOSE &&& FILE_FLAG_DELETE_ON_CLOSE = 0 → u = [])
        ∧ (FILE_FLAG_DELETE_ON_CLOSE &&& FILE_FLAG_DELETE_ON_CLOSE ≠ 0 →
            ∀ filename, some "f" = some filename →
            ∃ l, u = Syscall.unlink filename :: l
              ∧ ∀ c ∈ l, c = Syscall.mono_portability_find_file filename true
                  ∨ ∃ located_filename, c = Syscall.unlink located_filename)
        ∧ (FILE_FLAG_DELETE_ON_CLOSE &&& FILE_FLAG_DELETE_ON_CLOSE ≠ 0 →
            some "f" = none → u = [Syscall.unlink_NULL])
        ∧ (some ((1 : Nat), (2 : Nat)) = none → res.1 = [⟨1, 2, 0, 0, 1, 0⟩])
        ∧ (∀ si, some ((1 : Nat), (2 : Nat)) = some si →
            file_share_release [⟨1, 2, 0, 0, 1, 0⟩] si = some res.1))
    ∧ file_close false (fun _ _ => none) [⟨1, 2, 0, 0, 1, 0⟩]
        ⟨some "f", some (1, 2), 5, 0, 0, 0, FILE_FLAG_DELETE_ON_CLOSE⟩
        { pending := [⟨0, 0, false⟩, ⟨0, 0, false⟩, ⟨0, 0, false⟩], calls := [], errno := 0,
          last_error := 0 }
      = some ([], { pending := [⟨0, 0, false⟩],
                    calls := [Syscall.unlink "f", Syscall.file_share_release (1, 2),
                              Syscall.close 5],
                    errno := 0, last_error := 0 })
    ∧ file_close false (fun _ _ => none) [⟨1, 2, 0, 0, 1, 0⟩]
        ⟨none, some (1, 2), 5, 0, 0, 0, FILE_FLAG_DELETE_ON_CLOSE⟩
        { pending := [⟨0, 0, false⟩], calls := [], errno := 0, last_error := 0 }
      = some ([], { pending := [],
                    calls := [Syscall.unlink_NULL, Syscall.file_share_release (1, 2),
                              Syscall.close 5],
                    errno := EFAULT, last_error := 0 }) :=
  ⟨(close_effects_in_order false (fun _ _ => none) [⟨1, 2, 0, 0, 1, 0⟩]
      ⟨some "f", some (1, 2), 5, 0, 0, 0, FILE_FLAG_DELETE_ON_CLOSE⟩
      { pending := [⟨0, 0, false⟩, ⟨0, 0, false⟩, ⟨0, 0, false⟩], calls := [], errno := 0,
        last_error := 0 }
      (fun si hsi => by cases hsi; decide)).1 (by decide),
    by decide, by decide⟩

/-- C23, as stated, fails for consoles and pipes: with `FILE_FLAG_DELETE_ON_CLOSE`
set and a stored path, `console_close` and `pipe_close` release and close without an
unlink, and `console_close` on descriptor 2 neither releases nor closes. -/
theorem console_and_pipe_close_never_unlink :
    console_close [⟨1, 2, 0, 0, 1, 0⟩]
        ⟨some "f", some (1, 2), 5, 0, 0, 0, FILE_FLAG_DELETE_ON_CLOSE⟩
        { pending := [⟨0, 0, false⟩], calls := [], errno := 0, last_error := 0 }
      = some ([], { pending := [],
                    calls := [Syscall.file_share_release (1, 2), Syscall.close 5],
                    errno := 0, last_error := 0 })
    ∧ pipe_close [⟨1, 2, 0, 0, 1, 0⟩]
        ⟨some "f", some (1, 2), 5, 0, 0, 0, FILE_FLAG_DELETE_ON_CLOSE⟩
        { pending := [⟨0, 0, false⟩], calls := [], errno := 0, last_error := 0 }
      = some ([], { pending := [],
                    calls := [Syscall.file_share_release (1, 2), Syscall.close 5],
                    errno := 0, last_error := 0 })
    ∧ console_close [⟨1, 2, 0, 0, 1, 0⟩]
        ⟨some "f", some (1, 2), 2, 0, 0, 0, FILE_FLAG_DELETE_ON_CLOSE⟩
        { pending := [⟨0, 0, false⟩], calls := [], errno := 0, last_error := 0 }
      = some ([⟨1, 2, 0, 0, 1, 0⟩],
              { pending := [⟨0, 0, false⟩], calls := [], errno := 0, last_error := 0 }) := by
  decide

/-- C24: `console_close` on a descriptor of 0, 1 or 2 returns with no call made
and the table untouched; whatever the handle holds, the calls it makes never contain a
`close` of a descriptor of at most 2 nor of a descriptor other than its own; and on a
descriptor above 2 it returns, once the release of a held record goes through, having
called `close` on that descriptor exactly once. -/
theorem console_close_descriptors (t : GHashTable) (h : MonoW32HandleFile) (w : World) :
    (h.fd ≤ 2 → console_close t h w = some (t, w))
    ∧ (∀ res, console_close t h w = some res →
        ∃ l, res.2.calls = w.calls ++ l
          ∧ (∀ d, d ≤ 2 → Syscall.close d ∉ l)
          ∧ (∀ d, Syscall.close d ∈ l → d = h.fd)
          ∧ (2 < h.fd → l.count (Syscall.close h.fd) = 1))
    ∧ (2 < h.fd → ∀ r rest t1, w.pending = r :: rest →
        (match h.share_info with
          | none => some t
          | some si => file_share_release t si) = some t1 →
        console_close t h w
          = some (t1, { w with pending := rest,
                               calls := w.calls
                                 ++ h.share_info.toList.map Syscall.file_share_release
                                 ++ [Syscall.close h.fd],
                               errno := if r.ret = -1 then r.err else w.errno })) := by
  have hrel : ∀ d, Syscall.close d ∉ h.share_info.toList.map Syscall.file_share_release := by
    intro d hd
    simp only [List.mem_map] at hd
    obtain ⟨si, -, hsi⟩ := hd
    exact absurd hsi (by simp)
  refine ⟨?_, ?_, ?_⟩
  · intro hfd
    unfold console_close
    dsimp only
    rw [if_neg (by omega)]
  · intro res hc
    unfold console_close at hc
    dsimp only at hc
    by_cases hfd : 2 < h.fd
    · rw [if_pos hfd] at hc
      obtain ⟨e1, -, -⟩ := release_then_close t h.share_info h.fd w res hc
      refine ⟨h.share_info.toList.map Syscall.file_share_release ++ [Syscall.close h.fd],
        by rw [e1, List.append_assoc], ?_, ?_, ?_⟩
      · intro d hd hmem
        rw [List.mem_append] at hmem
        rcases hmem with hmem | hmem
        · exact hrel d hmem
        · simp only [List.mem_singleton, Syscall.close.injEq] at hmem
          omega
      · intro d hmem
        rw [List.mem_append] at hmem
        rcases hmem with hmem | hmem
        · exact absurd hmem (hrel d)
        · simp only [List.mem_singleton, Syscall.close.injEq] at hmem
          exact hmem
      · intro _
        rw [List.count_append, List.count_eq_zero_of_not_mem (hrel h.fd)]
        simp
    · rw [if_neg hfd] at hc
      injection hc with hc
      subst hc
      exact ⟨[], (List.append_nil _).symm, fun d _ hm => absurd hm (List.not_mem_nil _),
        fun d hm => absurd hm (List.not_mem_nil _), fun h2 => absurd h2 hfd⟩
  · intro hfd r rest t1 hp ht
    unfold console_close
    dsimp only
    rw [if_pos hfd]
    cases hsi : h.share_info with
    | none =>
      rw [hsi] at ht
      injection ht with ht
      subst ht
      simp only [releaseHeld, syscall, hp, Option.map_some', Option.toList, List.map_nil,
        List.append_nil]
    | some si =>
      rw [hsi] at ht
      dsimp only at ht
      simp only [releaseHeld, ht, syscall, hp, Option.map_some', Option.toList, List.map_cons,
        List.map_nil]

theorem console_close_descriptors_witness :
    console_close [⟨1, 2, 0, 0, 2, 0⟩] ⟨none, some (1, 2), 0, 0, 0, 0, 0⟩
        { pending := [⟨0, 0, false⟩], calls := [], errno := 0, last_error := 0 }
      = some ([⟨1, 2, 0, 0, 2, 0⟩],
              { pending := [⟨0, 0, false⟩], calls := [], errno := 0, last_error := 0 })
    ∧ console_close [⟨1, 2, 0, 0, 2, 0⟩] ⟨none, some (1, 2), 5, 0, 0, 0, 0⟩
        { pending := [⟨0, 0, false⟩], calls := [], errno := 0, last_error := 0 }
      = some ([⟨1, 2, 0, 0, 1, 0⟩],
              { pending := [],
                calls := [Syscall.file_share_release (1, 2), Syscall.close 5],
                errno := 0, last_error := 0 }) :=
  ⟨(console_close_descriptors [⟨1, 2, 0, 0, 2, 0⟩] ⟨none, some (1, 2), 0, 0, 0, 0, 0⟩
      { pending := [⟨0, 0, false⟩], calls := [], errno := 0, last_error := 0 }).1 (by decide),
   (console_close_descriptors [⟨1, 2, 0, 0, 2, 0⟩] ⟨none, some (1, 2), 5, 0, 0, 0, 0⟩
      { pending := [⟨0, 0, false⟩], calls := [], errno := 0, last_error := 0 }).2.2
      (by decide) ⟨0, 0, false⟩ [] [⟨1, 2, 0, 0, 1, 0⟩] rfl (by decide)⟩

/-- C27 fails on the code when the handle allocation fails: after a share check
that succeeded, `mono_w32file_create` closes the descriptor and returns
`INVALID_HANDLE_VALUE` with `ERROR_GEN_FAILURE` and does not release the reference it
took, so that the table has a record more, or a reference more, than before the
call; where the share check refuses, the table is as before. -/
theorem create_leaks_share_reference :
    mono_w32file_create (fun e => e) false (fun _ _ => none) true 1024
        ⟨1, 2, 0o100644, 0, 0⟩ (fun _ _ => none) [] (some "f") (some "f")
        GENERIC_READ FILE_SHARE_READ OPEN_EXISTING 0
        { pending := [⟨5, 0, false⟩, ⟨0, 0, false⟩, ⟨0, 0, false⟩], calls := [], errno := 0,
          last_error := 0 }
      = some { handle := none,
               table := [⟨1, 2, FILE_SHARE_READ, GENERIC_READ, 1, 0⟩],
               world := { pending := [],
                          calls := [Syscall.open_ "f" O_RDONLY 0o666, Syscall.fstat 5,
                                    Syscall.close 5],
                          errno := 0, last_error := ERROR_GEN_FAILURE } }
    ∧ mono_w32file_create (fun e => e) false (fun _ _ => none) true 1024
        ⟨1, 2, 0o100644, 0, 0⟩ (fun _ _ => none)
        [⟨1, 2, FILE_SHARE_READ, GENERIC_READ, 1, 0⟩] (some "f") (some "f")
        GENERIC_READ FILE_SHARE_READ OPEN_EXISTING 0
        { pending := [⟨5, 0, false⟩, ⟨0, 0, false⟩, ⟨0, 0, false⟩], calls := [], errno := 0,
          last_error := 0 }
      = some { handle := none,
               table := [⟨1, 2, FILE_SHARE_READ, GENERIC_READ, 2, 0⟩],
               world := { pending := [],
                          calls := [Syscall.open_ "f" O_RDONLY 0o666, Syscall.fstat 5,
                                    Syscall.close 5],
                          errno := 0, last_error := ERROR_GEN_FAILURE } }
    ∧ mono_w32file_create (fun e => e) false (fun _ _ => none) true 1024
        ⟨1, 2, 0o100644, 0, 0⟩ (fun _ _ => none)
        [⟨1, 2, 0, GENERIC_READ, 1, 0⟩] (some "f") (some "f")
        GENERIC_READ FILE_SHARE_READ OPEN_EXISTING 0
        { pending := [⟨5, 0, false⟩, ⟨0, 0, false⟩, ⟨0, 0, false⟩], calls := [], errno := 0,
          last_error := 0 }
      = some { handle := none,
               table := [⟨1, 2, 0, GENERIC_READ, 1, 0⟩],
               world := { pending := [],
                          calls := [Syscall.open_ "f" O_RDONLY 0o666, Syscall.fstat 5,
                                    Syscall.close 5],
                          errno := 0, last_error := ERROR_SHARING_VIOLATION } } := by
  decide

/-- C28 fails on the code for a NULL name: `mono_w32file_get_attributes` then sets
`ERROR_INVALID_NAME` and returns FALSE, which is 0 and not `INVALID_FILE_ATTRIBUTES`;
for a name that does not convert, and for a failed stat, it returns
`INVALID_FILE_ATTRIBUTES` with an error set. -/
theorem get_attributes_null_name_returns_false (unix_to_win32 : Nat → Nat)
    (portability : Bool) (find_file : String → Bool → Option String) (parent_exists : Bool)
    (attributes : Nat) (name : String) (utf8_name : Option String) (w : World) :
    mono_w32file_get_attributes unix_to_win32 portability find_file parent_exists attributes
        none utf8_name w
      = some (0, { w with last_error := ERROR_INVALID_NAME })
    ∧ (0 : Nat) ≠ INVALID_FILE_ATTRIBUTES
    ∧ mono_w32file_get_attributes unix_to_win32 portability find_file parent_exists attributes
        (some name) none w
      = some (INVALID_FILE_ATTRIBUTES, { w with last_error := ERROR_INVALID_PARAMETER })
    ∧ mono_w32file_get_attributes (fun e => e + 1000) false (fun _ _ => none) true attributes
        (some name) (some "f")
        { pending := [⟨-1, 13, false⟩], calls := [], errno := 0, last_error := 0 }
      = some (INVALID_FILE_ATTRIBUTES,
              { pending := [], calls := [Syscall.stat "f"], errno := 13, last_error := 1013 }) :=
  ⟨rfl, by decide, rfl, rfl⟩

/-- A run of the enumeration: the names come out sorted and the cursor stops at the
number of names. -/
theorem find_enumeration_run :
    _wapi_io_scandir none false (fun _ _ b => (0, b ++ [[98], [97, 98], [97]])) "*"
      = { ret := 3, namelist := some [[97], [97, 98], [98]], errno := none }
    ∧ findNextCalls 10 (fun i => i != 1) 5 ⟨[[97], [97, 98], [98]], "d", 3, 0⟩
      = some ([(0, [97]), (2, [98])], ⟨[[97], [97, 98], [98]], "d", 3, 3⟩) := by
  decide

end W32File
